import Mathlib

/-! # User-Management backend: session and account handlers

A shallow embedding of the Express/Mongoose backend under `backend/src`:
the `User` collection, the token utilities, the validation chains, the two
authentication middlewares, the handlers of `controllers/auth.controller.js`
and `controllers/user.controller.js`, and the routes that chain them.

Conventions of the embedding.

* The collection is a list of documents in natural (insertion) order.
* The wall clock is an explicit input `now`, in milliseconds (`Date.now()`).
* Third-party libraries are modelled symbolically: a signed JWT is the pair of
  its signing key and its claims, a bcrypt hash is the pair of its salt and the
  key bytes it was computed from. The email functions of validator.js and the
  regular-expression engine are parameters (`EmailLib`, `RegexLib`).
* A handler is a function from the store and the request to the new store and
  the response; `try { … } catch` is the `Except` monad and its handler.
* One request reads the clock once and runs against the store without
  interleaving with other requests.
* MongoDB keeps `_id` unique; a theorem that needs this assumes
  `(db.map User._id).Nodup`.
-/

set_option autoImplicit false

namespace UserManagement

/-! ## ObjectId -/

/-- A MongoDB ObjectId, the value of its twelve bytes. -/
abbrev ObjectId := Fin (16 ^ 24)

/-- One lower-case hexadecimal digit. -/
def hexDigit (d : Nat) : Char :=
  match d with
  | 0 => '0' | 1 => '1' | 2 => '2' | 3 => '3' | 4 => '4' | 5 => '5' | 6 => '6' | 7 => '7'
  | 8 => '8' | 9 => '9' | 10 => 'a' | 11 => 'b' | 12 => 'c' | 13 => 'd' | 14 => 'e'
  | _ => 'f'

/-- The value of a hexadecimal digit of either case (`/[0-9a-fA-F]/`). -/
def hexValue (c : Char) : Option Nat :=
  if 48 ≤ c.toNat ∧ c.toNat ≤ 57 then some (c.toNat - 48)
  else if 97 ≤ c.toNat ∧ c.toNat ≤ 102 then some (c.toNat - 87)
  else if 65 ≤ c.toNat ∧ c.toNat ≤ 70 then some (c.toNat - 55)
  else none

/-- The string form of an ObjectId (`toHexString`, also its JSON form): 24 lower-case
hexadecimal digits. -/
def ObjectId.toHexString (o : ObjectId) : String :=
  String.mk ((List.range 24).reverse.map fun i => hexDigit (o.val / 16 ^ i % 16))

/-- Mongoose casting a string to an ObjectId: a string of 24 hexadecimal digits of either
case is accepted, any other string is a `CastError` (`none`). -/
def castObjectId (s : String) : Option ObjectId :=
  if s.data.length = 24 then
    (s.data.mapM hexValue).map fun ds =>
      ⟨ds.foldl (fun a d => 16 * a + d) 0 % 16 ^ 24, Nat.mod_lt _ (by decide)⟩
  else none

/-! ## Request values -/

/-- A number of a request body, kept with the string that JavaScript's `String()` writes for
it (`1e+21` for ten to the power 21) and with whether it is zero, the falsy number. -/
structure JsNumber where
  text : String
  isZero : Bool
deriving DecidableEq, Repr

/-- A numeral stands for that integer; `String()` writes an integer below 2^53 in decimal
digits. -/
instance (n : Nat) : OfNat JsNumber n := ⟨⟨toString n, n == 0⟩⟩

/-- A JavaScript value as found in a field of a parsed request body. `σ` is the type of the
strings that can occur there. An object that is not an array is kept with the string that
express-validator's `toString` computes for it, and with its `length` property when that is a
number; an array is kept with the strings that `toString` computes for its items, in order. -/
inductive JVal (σ : Type) where
  | undefined
  | null
  | bool (b : Bool)
  | num (n : JsNumber)
  | str (s : σ)
  | object (repr : String) (length : Option Nat)
  | arr (items : List String)
deriving DecidableEq, Repr

/-! ## jsonwebtoken (HS256), symbolically -/

/-- The payload of a token issued by this server: `{ id, role, iat, exp }`, the times in
seconds. The `id` claim is the JSON form of an ObjectId, kept as the ObjectId. -/
structure Claims where
  id : ObjectId
  role : String
  iat : Nat
  exp : Nat
deriving DecidableEq, Repr

/-- A string in a position where a token is expected. An HS256 token is determined by its
signing key and its payload (header and signature are functions of these two), so a token is
modelled by that pair; `raw` is any string that is not a well-formed signed token. -/
inductive Token where
  | jwt (key : String) (claims : Claims)
  | raw (s : String)
deriving DecidableEq, Repr

/-- JavaScript truthiness (`!v` is its negation) of a request value holding a token string. -/
def truthy (v : JVal Token) : Bool :=
  match v with
  | .undefined => false
  | .null => false
  | .bool b => b
  | .num n => !n.isZero
  | .str (.raw s) => s != ""
  | .str (.jwt _ _) => true
  | .object _ _ => true
  | .arr _ => true

/-- The call `jwt.sign({ id, role }, secret, { expiresIn })` at clock reading `now`
(milliseconds):
`iat` is the current second, `exp` lies `expiresIn` seconds later. An unset or empty
secret is an error. -/
def jwtSign (id : ObjectId) (role : String) (secret : String) (expiresIn : Nat) (now : Nat) :
    Except String Token :=
  if secret = "" then .error "secretOrPrivateKey must have a value"
  else .ok (.jwt secret { id := id, role := role, iat := now / 1000, exp := now / 1000 + expiresIn })

/-- The call `jwt.verify(token, secret)` at clock reading `now`: fails unless the value is a
token string signed with `secret` whose `exp` is still in the future, else returns the payload. -/
def jwtVerify (token : JVal Token) (secret : String) (now : Nat) : Except String Claims :=
  match token with
  | .str (.jwt key c) =>
    if secret = "" then .error "secret or public key must be provided"
    else if key ≠ secret then .error "invalid signature"
    else if c.exp ≤ now / 1000 then .error "jwt expired"
    else .ok c
  | .str (.raw _) => .error "jwt malformed"
  | _ => .error "jwt must be a string"

/-! ## bcryptjs, symbolically -/

/-- The UTF-8 encoding of a character, as byte values. -/
def utf8Bytes (c : Char) : List Nat :=
  let n := c.toNat
  if n < 0x80 then [n]
  else if n < 0x800 then [0xC0 + n / 64, 0x80 + n % 64]
  else if n < 0x10000 then [0xE0 + n / 4096, 0x80 + n / 64 % 64, 0x80 + n % 64]
  else [0xF0 + n / 262144, 0x80 + n / 4096 % 64, 0x80 + n / 64 % 64, 0x80 + n % 64]

/-- The 72 key bytes that bcrypt reads from a password: the UTF-8 bytes followed by a zero
byte, repeated cyclically. -/
def bcryptKey (s : String) : List Nat :=
  let bs := s.data.flatMap utf8Bytes ++ [0]
  (List.range 72).map fun i => bs.getD (i % bs.length) 0

/-- The value of the `password` field of a document: a bcrypt hash, determined by its salt and
the key bytes it was computed from, or any other string (one that `bcrypt.compare` answers
`false` for; the handlers themselves write only hashes). -/
inductive Hash where
  | bcrypt (salt : Nat) (key : List Nat)
  | raw (s : String)
deriving DecidableEq, Repr

/-- The call `bcrypt.hash(s, 10)`, the freshly drawn salt being an input. -/
def bcryptHash (s : String) (salt : Nat) : Hash :=
  .bcrypt salt (bcryptKey s)

/-- The call `bcrypt.compare(s, hash)`: rejects (`Illegal arguments`) unless `s` is a string;
a string is accepted exactly when it yields the key bytes of the hash. -/
def bcryptCompare (s : JVal String) (hash : Hash) : Except String Bool :=
  match s with
  | .str p =>
    match hash with
    | .bcrypt _ key => .ok (bcryptKey p == key)
    | .raw _ => .ok false
  | _ => .error "Illegal arguments"

/-! ## The User model -/

/-- A document of the `users` collection (`models/User.js`, with `timestamps: true`). Times are
in milliseconds. -/
structure User where
  _id : ObjectId
  name : String
  email : String
  phone : String
  password : Hash
  profile_image : Option String
  address : Option String
  state : String
  city : String
  country : String
  pincode : Option String
  role : String
  refreshToken : Option Token
  createdAt : Nat
  updatedAt : Nat
deriving DecidableEq, Repr

/-- The collection, in natural order. -/
abbrev Store := List User

/-- What a request runs against besides the collection: the two signing secrets of the
environment (an unset variable is the empty string), the clock reading of the request in
milliseconds, and whether the read and the write operations that the request sends to the store
succeed (a write also fails when the document does not pass schema validation). -/
structure Ctx where
  JWT_ACCESS_SECRET : String
  JWT_REFRESH_SECRET : String
  now : Nat
  dbReads : Bool
  dbWrites : Bool
deriving DecidableEq, Repr

/-- The query `User.findOne(filter)`: the first document matching the filter, or an error of
the store. -/
def findOne (ctx : Ctx) (db : Store) (p : User → Bool) : Except String (Option User) :=
  if ctx.dbReads then .ok (db.find? p) else .error "MongoError"

/-- The query `User.findById(id)` for a string: the string is cast to an ObjectId (an error
when it is not one) and the document with that `_id` is looked up. -/
def findById (ctx : Ctx) (db : Store) (id : String) : Except String (Option User) :=
  match castObjectId id with
  | none => .error "CastError"
  | some o => findOne ctx db fun u => u._id = o

/-- Apply `f` to the first document with the given `_id` (`updateOne({ _id }, …)`). -/
def updateOne (db : Store) (id : ObjectId) (f : User → User) : Store :=
  match db with
  | [] => []
  | r :: rest => if r._id = id then f r :: rest else r :: updateOne rest id f

/-- The two statements `user.refreshToken = t; await user.save()` on a document loaded from
the store. Only modified paths are written: when the value is the one already stored nothing
is written, otherwise `refreshToken` is set and the timestamps plugin sets `updatedAt`. -/
def saveRefreshToken (ctx : Ctx) (db : Store) (user : User) (t : Token) : Except String Store :=
  if ctx.dbWrites then
    if user.refreshToken = some t then .ok db
    else .ok (updateOne db user._id fun r => { r with refreshToken := some t, updatedAt := ctx.now })
  else .error "MongoError"

/-! ## Responses -/

/-- A JSON value of a response body. -/
inductive Json where
  | null
  | bool (b : Bool)
  | num (n : Int)
  | str (s : String)
  | token (t : Token)
  | hash (h : Hash)
  | arr (items : List Json)
  | obj (fields : List (String × Json))

/-- What a handler sends: `res.status(status).json(body)`. -/
structure Response where
  status : Nat
  body : Json

/-- The body `{ message }`. -/
def message (m : String) : Json :=
  .obj [("message", .str m)]

/-- A nullable string field in a response. -/
def Json.ofOption (o : Option String) : Json :=
  match o with
  | none => .null
  | some s => .str s

/-- The keys of a JSON object, in order. -/
def Json.keys (j : Json) : List String :=
  match j with
  | .obj fields => fields.map Prod.fst
  | _ => []

/-- The value under a key of a JSON object. -/
def Json.get (j : Json) (k : String) : Option Json :=
  match j with
  | .obj fields => (fields.find? fun f => f.1 = k).map Prod.snd
  | _ => none

/-! ## utils/token.util.js -/

/-- The function `generateAccessToken(user)`: payload `{ id: user._id, role: user.role }`,
access secret, `expiresIn: "1h"`. -/
def generateAccessToken (ctx : Ctx) (user : User) : Except String Token :=
  jwtSign user._id user.role ctx.JWT_ACCESS_SECRET 3600 ctx.now

/-- The function `generateRefreshToken(user)`: the same payload, refresh secret,
`expiresIn: "7d"`. -/
def generateRefreshToken (ctx : Ctx) (user : User) : Except String Token :=
  jwtSign user._id user.role ctx.JWT_REFRESH_SECRET 604800 ctx.now

/-! ## controllers/auth.controller.js: refreshToken -/

/-- The parsed body of `POST /api/auth/refresh`. -/
structure RefreshBody where
  refreshToken : JVal Token
deriving DecidableEq, Repr

/-- A stored `refreshToken` as a JavaScript value (`null` or a string). -/
def storedToken (o : Option Token) : JVal Token :=
  match o with
  | none => .null
  | some t => .str t

/-- The handler `refreshToken(req, res)`. `body` is `req.body`, `none` when it is undefined
(destructuring it then throws inside the `try`). The `id` claim reaches `findById` as the
hexadecimal string of an ObjectId. Every exception ends in the `catch`, which answers 401. -/
def refreshToken (ctx : Ctx) (db : Store) (body : Option RefreshBody) : Store × Response :=
  let attempt : Except String (Store × Response) := do
    let token ← match body with
      | some b => pure b.refreshToken
      | none => throw "TypeError"
    if !truthy token then
      return (db, ⟨400, message "Refresh token is required"⟩)
    let decoded ← jwtVerify token ctx.JWT_REFRESH_SECRET ctx.now
    let user ← findById ctx db decoded.id.toHexString
    match user with
    | none => return (db, ⟨401, message "Invalid refresh token"⟩)
    | some u =>
      if storedToken u.refreshToken ≠ token then
        return (db, ⟨401, message "Invalid refresh token"⟩)
      let newAccessToken ← generateAccessToken ctx u
      let newRefreshToken ← generateRefreshToken ctx u
      let db' ← saveRefreshToken ctx db u newRefreshToken
      return (db', ⟨200, .obj [("success", .bool true), ("accessToken", .token newAccessToken),
        ("refreshToken", .token newRefreshToken)]⟩)
  match attempt with
  | .ok r => r
  | .error _ => (db, ⟨401, message "Invalid or expired refresh token"⟩)

/-! ## controllers/auth.controller.js: loginUser -/

/-- The sanitized user object of the login response. -/
def loginUserView (u : User) : Json :=
  .obj [("id", .str u._id.toHexString), ("name", .str u.name), ("email", .str u.email),
    ("phone", .str u.phone), ("role", .str u.role), ("profile_image", .ofOption u.profile_image)]

/-- The handler `loginUser(req, res)` for an `identifier` that is a string, as the `trim`
sanitizer of `loginValidation` leaves every value but an array (for which see `loginUserReq`);
`password` is the raw body value. Every exception ends in the `catch`, which answers 500. -/
def loginUser (ctx : Ctx) (db : Store) (identifier : String) (password : JVal String) :
    Store × Response :=
  let attempt : Except String (Store × Response) := do
    let user ← findOne ctx db fun u => u.email = identifier || u.phone = identifier
    match user with
    | none => return (db, ⟨400, message "Invalid credentials"⟩)
    | some u =>
      let isMatch ← bcryptCompare password u.password
      if !isMatch then
        return (db, ⟨400, message "Invalid credentials"⟩)
      let accessToken ← generateAccessToken ctx u
      let refreshToken ← generateRefreshToken ctx u
      let db' ← saveRefreshToken ctx db u refreshToken
      return (db', ⟨200, .obj [("success", .bool true), ("accessToken", .token accessToken),
        ("refreshToken", .token refreshToken), ("user", loginUserView u)]⟩)
  match attempt with
  | .ok r => r
  | .error _ => (db, ⟨500, message "Server error"⟩)

/-! ## middlewares/validation.middleware.js: login -/

/-- JavaScript white space (`\s`). -/
def isJsSpace (c : Char) : Bool :=
  [9, 10, 11, 12, 13, 32, 160, 0x1680, 0x2028, 0x2029, 0x202f, 0x205f, 0x3000, 0xfeff].contains c.toNat
    || (0x2000 ≤ c.toNat && c.toNat ≤ 0x200a)

/-- The `trim` sanitizer on a string: white space removed at both ends. -/
def trim (s : String) : String :=
  String.mk ((s.data.dropWhile isJsSpace).reverse.dropWhile isJsSpace).reverse

/-- The string that express-validator's `toString` makes of a body value: empty for
`undefined` and `null`, `String(v)` for a boolean or a number, and for an array the string of
its first item (empty for the empty array). -/
def fieldString (v : JVal String) : String :=
  match v with
  | .undefined => ""
  | .null => ""
  | .bool b => if b then "true" else "false"
  | .num n => n.text
  | .str s => s
  | .object repr _ => repr
  | .arr items => items.headD ""

/-- The strings that a standard validator or sanitizer of express-validator is run on: every
item of an array, in order, and for any other value the value itself. -/
def fieldStrings (v : JVal String) : List String :=
  match v with
  | .arr items => items
  | _ => [fieldString v]

/-- The value of a body field after a sanitizer such as `trim` has run on it: a string, or, for
an array, the array of the sanitized items. -/
inductive Field where
  | str (s : String)
  | arr (items : List String)
deriving DecidableEq, Repr

/-- A sanitizer `f` of express-validator run on a body value. -/
def sanitizeField (f : String → String) (v : JVal String) : Field :=
  match v with
  | .arr items => .arr (items.map f)
  | _ => .str (f (fieldString v))

/-- Mongoose casting the value given for a `String` path in a filter: a string selects the
documents that hold it, an array is turned into `$in` and selects the documents that hold one
of its items. -/
def Field.selects (v : Field) (stored : String) : Bool :=
  match v with
  | .str s => stored = s
  | .arr items => items.contains stored

/-- Mongoose casting the value given for a `String` path of a document or of an update: an
array is a `CastError`. -/
def Field.cast (v : Field) : Except String String :=
  match v with
  | .str s => .ok s
  | .arr _ => .error "CastError"

/-- One entry of `validationResult(req).array()`: the message and the field. -/
structure FieldError where
  msg : String
  path : String
deriving DecidableEq, Repr

/-- The middleware `validate`: with errors, 400 carrying the first message (or
`"Validation error"` when that message is empty) and the list of errors; without, `none`
(`next()` is called). -/
def validate (errors : List FieldError) : Option Response :=
  match errors with
  | [] => none
  | first :: _ =>
    some ⟨400, .obj [("message", .str (if first.msg = "" then "Validation error" else first.msg)),
      ("errors", .arr (errors.map fun e => .obj [("msg", .str e.msg), ("path", .str e.path)]))]⟩

/-- The parsed JSON body of `POST /api/auth/login`. -/
structure LoginBody where
  identifier : JVal String
  password : JVal String
deriving DecidableEq, Repr

/-- The errors of one validator of a chain: the error of the chain once for every value that
fails the validator. -/
def ruleErrors (values : List String) (fails : String → Bool) (e : FieldError) :
    List FieldError :=
  (values.filter fails).map fun _ => e

/-- The errors of `loginValidation`: `identifier` trimmed and not empty, `password` not
empty. An array is validated item by item, so the empty array has no error. -/
def loginValidation (body : LoginBody) : List FieldError :=
  ruleErrors ((fieldStrings body.identifier).map trim) (fun s => s = "")
      ⟨"Email or phone is required", "identifier"⟩
    ++ ruleErrors (fieldStrings body.password) (fun s => s = "")
      ⟨"Password is required", "password"⟩

/-- The handler `loginUser(req, res)` on any body that passes `loginValidation`: the
`identifier` is the sanitized field, a string or an array, and `User.findOne` casts it for both
paths of the `$or`; the rest is as in `loginUser`, with which it agrees on a string. -/
def loginUserReq (ctx : Ctx) (db : Store) (identifier : Field) (password : JVal String) :
    Store × Response :=
  let attempt : Except String (Store × Response) := do
    let user ← findOne ctx db fun u => identifier.selects u.email || identifier.selects u.phone
    match user with
    | none => return (db, ⟨400, message "Invalid credentials"⟩)
    | some u =>
      let isMatch ← bcryptCompare password u.password
      if !isMatch then
        return (db, ⟨400, message "Invalid credentials"⟩)
      let accessToken ← generateAccessToken ctx u
      let refreshToken ← generateRefreshToken ctx u
      let db' ← saveRefreshToken ctx db u refreshToken
      return (db', ⟨200, .obj [("success", .bool true), ("accessToken", .token accessToken),
        ("refreshToken", .token refreshToken), ("user", loginUserView u)]⟩)
  match attempt with
  | .ok r => r
  | .error _ => (db, ⟨500, message "Server error"⟩)

/-- The route `POST /api/auth/login`: `loginValidation`, `validate`, `loginUser`. The handler
sees the trimmed identifier and the password as sent. -/
def loginRoute (ctx : Ctx) (db : Store) (body : LoginBody) : Store × Response :=
  match validate (loginValidation body) with
  | some r => (db, r)
  | none => loginUserReq ctx db (sanitizeField trim body.identifier) body.password

/-! ## controllers/user.controller.js: deleteUser -/

/-- The query `User.findByIdAndDelete(id)` for the string of the URL: the string is cast to an
ObjectId (an error when it is not one), the first document with that `_id` is removed and returned. -/
def findByIdAndDelete (ctx : Ctx) (db : Store) (id : String) : Except String (Option User × Store) :=
  match castObjectId id with
  | none => .error "CastError"
  | some o =>
    if ctx.dbWrites then .ok (db.find? (fun u => u._id = o), db.eraseP fun u => u._id = o)
    else .error "MongoError"

/-- The handler `deleteUser(req, res)`: `user` is `req.user`, the claims that `authMiddleware`
decoded (its `id` is the hexadecimal string of the ObjectId in the token), `id` is
`req.params.id`. -/
def deleteUser (ctx : Ctx) (db : Store) (user : Claims) (id : String) : Store × Response :=
  let attempt : Except String (Store × Response) := do
    if user.id.toHexString = id then
      return (db, ⟨400, message "You cannot delete your own account"⟩)
    let (u, db') ← findByIdAndDelete ctx db id
    match u with
    | none => return (db', ⟨404, message "User not found"⟩)
    | some _ => return (db', ⟨200, message "User deleted"⟩)
  match attempt with
  | .ok r => r
  | .error _ => (db, ⟨500, message "Server error"⟩)

/-! ## middlewares/validation.middleware.js: registration -/

/-- The two validator.js functions behind `isEmail()` and `normalizeEmail()`; their
implementation and provider tables are not part of this repository, so they are parameters. -/
structure EmailLib where
  isEmail : String → Bool
  normalizeEmail : String → String

/-- The length that validator.js `isLength` compares: code points, variation selectors
U+FE0E and U+FE0F not counted. -/
def validatorLength (s : String) : Nat :=
  (s.data.filter fun c => !(c.toNat = 0xFE0E || c.toNat = 0xFE0F)).length

/-- A decimal digit (`\d`). -/
def isDigit (c : Char) : Bool :=
  48 ≤ c.toNat && c.toNat ≤ 57

/-- An ASCII letter (`[a-zA-Z]`). -/
def isAsciiLetter (c : Char) : Bool :=
  (97 ≤ c.toNat && c.toNat ≤ 122) || (65 ≤ c.toNat && c.toNat ≤ 90)

/-- The pattern `/^[a-zA-Z\s]+$/`. -/
def matchesName (s : String) : Bool :=
  s.data ≠ [] && s.data.all fun c => isAsciiLetter c || isJsSpace c

/-- The patterns `/^\d{lo,hi}$/`. -/
def matchesDigits (lo hi : Nat) (s : String) : Bool :=
  lo ≤ s.data.length && s.data.length ≤ hi && s.data.all isDigit

/-- The pattern `/\d/`. -/
def containsDigit (s : String) : Bool :=
  s.data.any isDigit

/-- The fields of the body of `POST /api/auth/register` that the chains and the handler read:
the text fields of a multipart form, or the values of a JSON or URL-encoded body, which the
parsers of `app.js` accept on this route as well; an absent field is `undefined`. `role`
stands for a field the handler does not read. -/
structure RegisterBody where
  name : JVal String
  email : JVal String
  phone : JVal String
  password : JVal String
  address : JVal String
  state : JVal String
  city : JVal String
  country : JVal String
  pincode : JVal String
  role : Option String
deriving DecidableEq, Repr

/-- The errors that the validators `check` find in an `optional()` field: none when the
value is `undefined`, else those of the strings of the value, trimmed when the chain has the
`trim` sanitizer. -/
def optionalErrors (v : JVal String) (trimmed : Bool) (check : List String → List FieldError) :
    List FieldError :=
  match v with
  | .undefined => []
  | _ => check (if trimmed then (fieldStrings v).map trim else fieldStrings v)

/-- The errors of `registerValidation`, in the order of the chains and, within a chain, of
its validators. A required field that is absent is validated as the empty string; an
`optional()` field is skipped when absent; an array is validated item by item, so the empty
array has no error. -/
def registerValidation (lib : EmailLib) (body : RegisterBody) : List FieldError :=
  let name := (fieldStrings body.name).map trim
  let email := (fieldStrings body.email).map trim
  let phone := (fieldStrings body.phone).map trim
  let password := fieldStrings body.password
  ruleErrors name (fun s => validatorLength s < 3) ⟨"Name must be at least 3 characters", "name"⟩
    ++ ruleErrors name (fun s => !matchesName s)
      ⟨"Name must contain only alphabets and spaces", "name"⟩
    ++ ruleErrors email (fun s => !lib.isEmail s) ⟨"Please provide a valid email address", "email"⟩
    ++ ruleErrors phone (fun s => !matchesDigits 10 15 s) ⟨"Phone must be 10-15 digits", "phone"⟩
    ++ ruleErrors password (fun s => validatorLength s < 6)
      ⟨"Password must be at least 6 characters", "password"⟩
    ++ ruleErrors password (fun s => !containsDigit s)
      ⟨"Password must contain at least one number", "password"⟩
    ++ optionalErrors body.address true (fun values =>
      ruleErrors values (fun s => 150 < validatorLength s)
        ⟨"Address must not exceed 150 characters", "address"⟩)
    ++ ruleErrors ((fieldStrings body.state).map trim) (fun s => s = "")
      ⟨"State is required", "state"⟩
    ++ ruleErrors ((fieldStrings body.city).map trim) (fun s => s = "")
      ⟨"City is required", "city"⟩
    ++ ruleErrors ((fieldStrings body.country).map trim) (fun s => s = "")
      ⟨"Country is required", "country"⟩
    ++ optionalErrors body.pincode true (fun values =>
      ruleErrors values (fun s => !matchesDigits 4 10 s) ⟨"Pincode must be 4-10 digits", "pincode"⟩)

/-- The fields that `registerUser` destructures from `req.body`, as the sanitizers of
`registerValidation` leave them, when every one of them is a string. -/
structure RegisterData where
  name : String
  email : String
  phone : String
  password : String
  address : Option String
  state : String
  city : String
  country : String
  pincode : Option String
deriving DecidableEq, Repr

/-- The fields that `registerUser` destructures from `req.body`, as the sanitizers of
`registerValidation` leave them: a sanitized field is a string or an array, an `optional()`
field may be absent, and the password is the value as sent. -/
structure RegisterFields where
  name : Field
  email : Field
  phone : Field
  password : JVal String
  address : Option Field
  state : Field
  city : Field
  country : Field
  pincode : Option Field
deriving DecidableEq, Repr

/-- A sanitized `optional()` field: a chain that is skipped leaves the field absent. -/
def sanitizeOptional (f : String → String) (v : JVal String) : Option Field :=
  match v with
  | .undefined => none
  | _ => some (sanitizeField f v)

/-- The body after the sanitizers of `registerValidation`: `trim` on every field but the
password, then `normalizeEmail` on the email. -/
def registerSanitize (lib : EmailLib) (body : RegisterBody) : RegisterFields :=
  { name := sanitizeField trim body.name,
    email := sanitizeField (fun s => lib.normalizeEmail (trim s)) body.email,
    phone := sanitizeField trim body.phone,
    password := body.password,
    address := sanitizeOptional trim body.address,
    state := sanitizeField trim body.state,
    city := sanitizeField trim body.city,
    country := sanitizeField trim body.country,
    pincode := sanitizeOptional trim body.pincode }

/-- The fields of a body of strings. -/
def RegisterData.toFields (data : RegisterData) : RegisterFields :=
  { name := .str data.name, email := .str data.email, phone := .str data.phone,
    password := .str data.password, address := data.address.map Field.str,
    state := .str data.state, city := .str data.city, country := .str data.country,
    pincode := data.pincode.map Field.str }

/-! ## controllers/auth.controller.js: registerUser -/

/-- The length of a JavaScript string (UTF-16 code units). -/
def utf16Length (s : String) : Nat :=
  (s.data.map fun c => if c.toNat < 0x10000 then 1 else 2).sum

/-- The validators of the schema in `models/User.js`: required strings are not empty, `name`
has `minlength: 3`, `address` has `maxlength: 150`, `role` is in its enum. -/
def schemaValid (u : User) : Bool :=
  u.name ≠ "" && u.email ≠ "" && u.phone ≠ "" && u.password ≠ .raw ""
    && u.state ≠ "" && u.city ≠ "" && u.country ≠ ""
    && 3 ≤ utf16Length u.name
    && (match u.address with
        | some a => utf16Length a ≤ 150
        | none => true)
    && (u.role = "user" || u.role = "admin")

/-- The call `User.create(doc)`: the document is validated against the schema and inserted; the unique
indexes on `_id`, `email` and `phone` reject a duplicate. -/
def create (ctx : Ctx) (db : Store) (doc : User) : Except String Store :=
  if !ctx.dbWrites then .error "MongoError"
  else if !schemaValid doc then .error "ValidationError"
  else if db.any fun u => u._id = doc._id || u.email = doc.email || u.phone = doc.phone then
    .error "E11000 duplicate key"
  else .ok (db ++ [doc])

/-- The sanitized user object of the registration response. -/
def registerUserView (u : User) : Json :=
  .obj [("id", .str u._id.toHexString), ("name", .str u.name), ("email", .str u.email),
    ("phone", .str u.phone), ("profile_image", .ofOption u.profile_image)]

/-- The document that `registerUser` hands to `User.create`: the fields of the body, the
password hashed, the image path `uploads/<filename>` when a file was stored, and the schema
defaults (`role: "user"`, `refreshToken: null`, both timestamps from the clock). `file` is
`req.file.filename`; `newId` is the ObjectId and `salt` the bcrypt salt drawn for this
request. -/
def newUserDoc (ctx : Ctx) (data : RegisterData) (file : Option String) (newId : ObjectId)
    (salt : Nat) : User :=
  { _id := newId, name := data.name, email := data.email, phone := data.phone,
    password := bcryptHash data.password salt,
    profile_image := file.map fun f => "uploads/" ++ f,
    address := data.address, state := data.state, city := data.city, country := data.country,
    pincode := data.pincode, role := "user", refreshToken := none,
    createdAt := ctx.now, updatedAt := ctx.now }

/-- The handler `registerUser(req, res)` on a body of strings: the two duplicate checks, then
the document is created and answered with its sanitized view. Every exception ends in the
`catch`, which answers 500. For a body with a field that is not a string see
`registerUserReq`. -/
def registerUser (ctx : Ctx) (db : Store) (data : RegisterData) (file : Option String)
    (newId : ObjectId) (salt : Nat) : Store × Response :=
  let attempt : Except String (Store × Response) := do
    if (← findOne ctx db fun u => u.email = data.email).isSome then
      return (db, ⟨400, message "Email already registered"⟩)
    if (← findOne ctx db fun u => u.phone = data.phone).isSome then
      return (db, ⟨400, message "Phone already registered"⟩)
    let user := newUserDoc ctx data file newId salt
    let db' ← create ctx db user
    return (db', ⟨201, .obj [("success", .bool true), ("message", .str "User registered"),
      ("user", registerUserView user)]⟩)
  match attempt with
  | .ok r => r
  | .error _ => (db, ⟨500, message "Server error"⟩)

/-- An optional field cast to a `String` path of a document. -/
def castOptional (v : Option Field) : Except String (Option String) :=
  match v with
  | none => .ok none
  | some f => f.cast.map some

/-- Mongoose casting the fields of the new document to the `String` paths of the schema;
`password` is the string that is hashed. -/
def castRegisterData (fields : RegisterFields) (password : String) :
    Except String RegisterData := do
  let name ← fields.name.cast
  let email ← fields.email.cast
  let phone ← fields.phone.cast
  let address ← castOptional fields.address
  let state ← fields.state.cast
  let city ← fields.city.cast
  let country ← fields.country.cast
  let pincode ← castOptional fields.pincode
  return ⟨name, email, phone, password, address, state, city, country, pincode⟩

/-- The handler `registerUser(req, res)` on any body that passes `registerValidation`: the
two duplicate checks, with the filter value cast by Mongoose; `bcrypt.hash`, which throws
unless the password is a string; `User.create`, which rejects a document with a field that
Mongoose cannot cast. Every exception ends in the `catch`, which answers 500. On a body of
strings this is `registerUser`. -/
def registerUserReq (ctx : Ctx) (db : Store) (fields : RegisterFields) (file : Option String)
    (newId : ObjectId) (salt : Nat) : Store × Response :=
  let attempt : Except String (Store × Response) := do
    if (← findOne ctx db fun u => fields.email.selects u.email).isSome then
      return (db, ⟨400, message "Email already registered"⟩)
    if (← findOne ctx db fun u => fields.phone.selects u.phone).isSome then
      return (db, ⟨400, message "Phone already registered"⟩)
    let password ← match fields.password with
      | .str p => pure p
      | _ => throw "Illegal arguments"
    let data ← castRegisterData fields password
    let user := newUserDoc ctx data file newId salt
    let db' ← create ctx db user
    return (db', ⟨201, .obj [("success", .bool true), ("message", .str "User registered"),
      ("user", registerUserView user)]⟩)
  match attempt with
  | .ok r => r
  | .error _ => (db, ⟨500, message "Server error"⟩)

/-- What multer did with the request: no file was sent (also when the request is not
multipart), a file was stored under a name, or the upload was refused with an error
message. -/
inductive Upload where
  | absent
  | stored (filename : String)
  | refused (error : String)
deriving DecidableEq, Repr

/-- The file name in `req.file`, if multer stored a file. -/
def Upload.file (upload : Upload) : Option String :=
  match upload with
  | .stored filename => some filename
  | _ => none

/-- The answer of the default error handler of Express to an error that a middleware passes
to `next`: status 500 with a page that is not a JSON body. -/
def expressError : Response :=
  ⟨500, .null⟩

/-- The route `POST /api/auth/register`: `upload.single("profile_image")`, whose error goes
to the error handler of Express, then `registerValidation`, `validate`, `registerUser` on the
sanitized body. -/
def registerRoute (lib : EmailLib) (ctx : Ctx) (db : Store) (body : RegisterBody)
    (upload : Upload) (newId : ObjectId) (salt : Nat) : Store × Response :=
  match upload with
  | .refused _ => (db, expressError)
  | _ =>
    match validate (registerValidation lib body) with
    | some r => (db, r)
    | none => registerUserReq ctx db (registerSanitize lib body) upload.file newId salt

/-! ## Reading a response -/

/-- The token under a key of a JSON object, if there is one. -/
def Json.tokenAt (j : Json) (k : String) : Option Token :=
  match j.get k with
  | some (.token t) => some t
  | _ => none

/-- The string under a key of a JSON object, if there is one. -/
def Json.strAt (j : Json) (k : String) : Option String :=
  match j.get k with
  | some (.str s) => some s
  | _ => none

/-! ## Comparing documents -/

/-- The document with its `refreshToken` blanked. -/
def User.withoutRefreshToken (u : User) : User :=
  { u with refreshToken := none }

/-- The document with its `refreshToken` and its `updatedAt` blanked. -/
def User.withoutSession (u : User) : User :=
  { u with refreshToken := none, updatedAt := 0 }

/-- The document with the given refresh token stored. -/
def User.withToken (u : User) (t : Token) : User :=
  { u with refreshToken := some t }

/-! ## Sample data -/

/-- A request context at clock reading `t`: both secrets set, store healthy. -/
def sampleCtxAt (t : Nat) : Ctx :=
  { JWT_ACCESS_SECRET := "access-secret", JWT_REFRESH_SECRET := "refresh-secret",
    now := t, dbReads := true, dbWrites := true }

/-- The context of a request 200 ms into the second 1700000000. -/
def sampleCtx : Ctx :=
  sampleCtxAt 1700000000200

/-- An administrator who has not logged in yet; her password is `secret1`. -/
def alice : User :=
  { _id := 0x65a1b2c3d4e5f60718293a4b, name := "Alice Doe", email := "alice@example.com",
    phone := "9876543210", password := bcryptHash "secret1" 7, profile_image := none,
    address := none, state := "Karnataka", city := "Bengaluru", country := "India",
    pincode := none, role := "admin", refreshToken := none,
    createdAt := 1690000000000, updatedAt := 1690000000000 }

/-- The payload of the refresh token that `alice` is issued in the second 1700000000. -/
def aliceClaims : Claims :=
  { id := alice._id, role := "admin", iat := 1700000000, exp := 1700604800 }

/-- The refresh token that `alice` is issued in the second 1700000000. -/
def aliceToken : Token :=
  .jwt "refresh-secret" aliceClaims

/-- The document of `alice` after her login at `sampleCtx`. -/
def aliceLoggedIn : User :=
  { alice with refreshToken := some aliceToken, updatedAt := 1700000000200 }

/-- The refresh token that `alice` is issued an hour later, in the second 1700003600. -/
def aliceLaterToken : Token :=
  .jwt "refresh-secret" { id := alice._id, role := "admin", iat := 1700003600, exp := 1700608400 }

/-- The claims of an access token of `alice`, as `authMiddleware` attaches them to a request. -/
def aliceCaller : Claims :=
  { id := alice._id, role := "admin", iat := 1700000000, exp := 1700003600 }

/-- A stand-in for validator.js on ASCII addresses at a domain without provider-specific
rules: an address contains `@`, and normalising lower-cases it. -/
def sampleEmailLib : EmailLib :=
  { isEmail := fun s => s.data.contains '@',
    normalizeEmail := fun s => String.mk (s.data.map Char.toLower) }

/-- A registration form with a mixed-case email address. -/
def aliceForm : RegisterBody :=
  { name := .str "Alice Doe", email := .str "Alice@Example.com", phone := .str "9876543210",
    password := .str "secret1", address := .undefined, state := .str "Karnataka",
    city := .str "Bengaluru", country := .str "India", pincode := .undefined, role := none }

/-- The document that registering `aliceForm` at `sampleCtx` creates, under a library that
lower-cases the address. -/
def aliceRegistered : User :=
  { alice with role := "user", createdAt := 1700000000200, updatedAt := 1700000000200 }

/-! ## middlewares/auth.middleware.js -/

/-- What a middleware does with a request: it calls `next()`, having attached `a` to the
request, or it answers. -/
inductive Gate (α : Type) where
  | next (a : α)
  | respond (r : Response)

/-- The `Authorization` header as `header.split(" ")` sees it: the first word and the words
after it, in order. A word holds no space; the empty header is the empty first word alone. -/
structure AuthHeader where
  scheme : String
  words : List Token
deriving DecidableEq, Repr

/-- The middleware `authMiddleware`. `header` is `req.headers.authorization`, `none` when the
header is absent. The header starts with `"Bearer "` exactly when its first word is `Bearer`
and a word follows; `header.split(" ")[1]` is the first word that follows. On success the
decoded payload is attached as `req.user`. No statement of the `try` block throws
(`jwt.verify` reports through its callback), so the `catch` is not reached. -/
def authMiddleware (ctx : Ctx) (header : Option AuthHeader) : Gate Claims :=
  match header with
  | none => .respond ⟨401, message "No token provided"⟩
  | some h =>
    if h.scheme = "Bearer" then
      match h.words with
      | [] => .respond ⟨401, message "No token provided"⟩
      | token :: _ =>
        match jwtVerify (.str token) ctx.JWT_ACCESS_SECRET ctx.now with
        | .error _ => .respond ⟨401, message "Invalid or expired token"⟩
        | .ok decoded => .next decoded
    else .respond ⟨401, message "No token provided"⟩

/-- The middleware `adminMiddleware`; `user` is `req.user`, `none` when it is not set. -/
def adminMiddleware (user : Option Claims) : Gate Unit :=
  match user with
  | none => .respond ⟨401, message "Not authenticated"⟩
  | some u =>
    if u.role ≠ "admin" then .respond ⟨403, message "Admins only"⟩
    else .next ()

/-! ## controllers/user.controller.js: getUsers, getUserById -/

/-- The regular-expression engine behind `new RegExp(search, "i")` and the `$regex` match of
the store; it is not part of this repository, so it is a parameter. `compiles s` says whether
the constructor accepts the pattern `s` (it throws a `SyntaxError` otherwise), `test s t`
whether the pattern, ignoring case, matches somewhere in `t`. -/
structure RegexLib where
  compiles : String → Bool
  test : String → String → Bool

/-- Insert a document into a list that is ordered newest first, before the first document that
is not newer. -/
def insertNewestFirst (u : User) (l : List User) : List User :=
  match l with
  | [] => [u]
  | v :: vs => if v.createdAt ≤ u.createdAt then u :: v :: vs else v :: insertNewestFirst u vs

/-- The cursor method `.sort({ createdAt: -1 })`: newest first, documents of equal `createdAt`
in natural order. -/
def sortNewestFirst (l : List User) : List User :=
  l.foldr insertNewestFirst []

/-- A field whose value may be `undefined`: `JSON.stringify` leaves it out. -/
def optionalField (k : String) (o : Option String) : List (String × Json) :=
  match o with
  | none => []
  | some s => [(k, .str s)]

/-- The sanitized object that `getUsers` builds for a document; `createdAt` is given in
milliseconds. -/
def listView (u : User) : Json :=
  .obj ([("_id", .str u._id.toHexString), ("name", .str u.name), ("email", .str u.email),
      ("phone", .str u.phone), ("profile_image", .ofOption u.profile_image),
      ("state", .str u.state), ("city", .str u.city), ("country", .str u.country)]
    ++ optionalField "pincode" u.pincode
    ++ [("role", .str u.role), ("createdAt", .num u.createdAt)])

/-- The query of `getUsers`: the documents of which the name, the email, the state or the city
matches the pattern, newest first. -/
def searchUsers (lib : RegexLib) (db : Store) (search : String) : List User :=
  sortNewestFirst (db.filter fun u =>
    lib.test search u.name || lib.test search u.email || lib.test search u.state
      || lib.test search u.city)

/-- The handler `getUsers(req, res)`; `search` is `req.query.search`, `none` when absent, and
`req.query.search || ""` is the pattern. Every exception, that of the `RegExp`
constructor included, ends in the `catch`, which answers 500. -/
def getUsers (lib : RegexLib) (ctx : Ctx) (db : Store) (search : Option String) :
    Store × Response :=
  let attempt : Except String (Store × Response) := do
    let search := search.getD ""
    if !lib.compiles search then
      throw "SyntaxError"
    if !ctx.dbReads then
      throw "MongoError"
    let users := searchUsers lib db search
    return (db, ⟨200, .obj [("users", .arr (users.map listView))]⟩)
  match attempt with
  | .ok r => r
  | .error _ => (db, ⟨500, message "Server error"⟩)

/-- The sanitized object that `getUserById` and `updateUser` build for a document. -/
def detailView (u : User) : Json :=
  .obj ([("_id", .str u._id.toHexString), ("name", .str u.name), ("email", .str u.email),
      ("phone", .str u.phone), ("profile_image", .ofOption u.profile_image)]
    ++ optionalField "address" u.address
    ++ [("state", .str u.state), ("city", .str u.city), ("country", .str u.country)]
    ++ optionalField "pincode" u.pincode
    ++ [("role", .str u.role)])

/-- The handler `getUserById(req, res)`; `id` is `req.params.id`. -/
def getUserById (ctx : Ctx) (db : Store) (id : String) : Store × Response :=
  let attempt : Except String (Store × Response) := do
    let u ← findById ctx db id
    match u with
    | none => return (db, ⟨404, message "User not found"⟩)
    | some u => return (db, ⟨200, .obj [("user", detailView u)]⟩)
  match attempt with
  | .ok r => r
  | .error _ => (db, ⟨500, message "Server error"⟩)

/-! ## controllers/user.controller.js: updateUser -/

/-- A plain body of `PUT /api/users/:id` as `updateUser` reads it: a body that holds, of the
keys that Mongoose does not drop, only the twelve fields below, each with a value of the type
given here. The fields that `updateUserValidation` sanitizes are absent or strings;
`password` is the value as sent; `profile_image` and `refreshToken` are absent, `null` or a
string; `role` is absent or a string. A body with an array in a sanitized field, or with an
update operator or another key that Mongoose acts on, is an `UpdateDoc`. -/
structure UpdateBody where
  name : Option String
  email : Option String
  phone : Option String
  password : JVal String
  profile_image : Option (Option String)
  address : Option String
  state : Option String
  city : Option String
  country : Option String
  pincode : Option String
  role : Option String
  refreshToken : Option (Option Token)
deriving DecidableEq, Repr

/-- The password step of `updateUser`: a truthy `data.password` whose `length` is at least 6
is replaced by its hash (`bcrypt.hash` throws on a value that is not a string, such as an array
of six items); any other value is deleted from the update. The result is the hash to store, if
any. -/
def updatePassword (password : JVal String) (salt : Nat) : Except String (Option Hash) :=
  match password with
  | .str s =>
    if s ≠ "" ∧ 6 ≤ utf16Length s then .ok (some (bcryptHash s salt)) else .ok none
  | .object _ (some n) => if 6 ≤ n then .error "Illegal arguments" else .ok none
  | .arr items => if 6 ≤ items.length then .error "Illegal arguments" else .ok none
  | _ => .ok none

/-- The document after `$set` of a plain update: every field present in the update replaces
the stored one, and the timestamps plugin sets `updatedAt`. `image` is the image path to set,
if any; `hashed` the new password hash, if any. -/
def applyUpdate (data : UpdateBody) (image : Option (Option String)) (hashed : Option Hash)
    (now : Nat) (u : User) : User :=
  { u with
    name := data.name.getD u.name,
    email := data.email.getD u.email,
    phone := data.phone.getD u.phone,
    password := hashed.getD u.password,
    profile_image := image.getD u.profile_image,
    address := match data.address with
      | some a => some a
      | none => u.address,
    state := data.state.getD u.state,
    city := data.city.getD u.city,
    country := data.country.getD u.country,
    pincode := match data.pincode with
      | some p => some p
      | none => u.pincode,
    role := data.role.getD u.role,
    refreshToken := data.refreshToken.getD u.refreshToken,
    updatedAt := now }

/-- The query `User.findByIdAndUpdate(id, data, { new: true })` for a plain update, `f` being
the effect of the update on a document: the string is cast to an ObjectId (an error when it is not one); without
a document of that `_id` the result is `null`; otherwise the first such document is rewritten
and returned, unless another document already holds its new email or phone, which the unique
indexes reject. Schema validators do not run on this query. -/
def findByIdAndUpdate (ctx : Ctx) (db : Store) (id : String) (f : User → User) :
    Except String (Option User × Store) :=
  match castObjectId id with
  | none => .error "CastError"
  | some o =>
    if !ctx.dbWrites then .error "MongoError"
    else
      match db.find? fun u => u._id = o with
      | none => .ok (none, db)
      | some u =>
        if (db.eraseP fun x => x._id = o).any fun x =>
            x.email = (f u).email || x.phone = (f u).phone then
          .error "E11000 duplicate key"
        else .ok (some (f u), updateOne db o f)

/-- The handler `updateUser(req, res)` on a plain body; `id` is `req.params.id`, `file` is
`req.file.filename` when multer stored an upload, `salt` the bcrypt salt drawn for this
request. Every exception ends in the `catch`, which answers 500. For any body see
`updateUserReq`. -/
def updateUser (ctx : Ctx) (db : Store) (id : String) (data : UpdateBody) (file : Option String)
    (salt : Nat) : Store × Response :=
  let attempt : Except String (Store × Response) := do
    let image := match file with
      | some f => some (some ("uploads/" ++ f))
      | none => data.profile_image
    let hashed ← updatePassword data.password salt
    let (user, db') ← findByIdAndUpdate ctx db id (applyUpdate data image hashed ctx.now)
    match user with
    | none => return (db', ⟨404, message "User not found"⟩)
    | some u => return (db', ⟨200, .obj [("message", .str "User updated"), ("user", detailView u)]⟩)
  match attempt with
  | .ok r => r
  | .error _ => (db, ⟨500, message "Server error"⟩)

/-! ## controllers/user.controller.js: updateUser on any body -/

/-- A key of the body of `PUT /api/users/:id` that `updateUser` hands to Mongoose with the
rest of the body, that Mongoose acts on, and that is not one of the twelve fields of
`UpdateDoc` with a value of its type: an update operator such as `$set` with the paths and
values it names, or a path (`_id`, `__v`, `createdAt`, `updatedAt`, or `role`,
`profile_image`, `refreshToken` with a value that is not of the type given there) with its
value. A key that is no path of the schema and no operator is dropped by Mongoose and not
listed. -/
inductive ExtraKey where
  | operator (name : String) (fields : List (String × JVal String))
  | path (name : String) (value : JVal String)
deriving DecidableEq, Repr

/-- The body of `PUT /api/users/:id` as `updateUser` reads it. A field that
`updateUserValidation` sanitizes is absent, a string or an array; `password` is the value as
sent; `profile_image` and `refreshToken` are absent, `null` or a string; `role` is absent or a
string; `extra` holds every other key that Mongoose acts on, in order. -/
structure UpdateDoc where
  name : Option Field
  email : Option Field
  phone : Option Field
  password : JVal String
  profile_image : Option (Option String)
  address : Option Field
  state : Option Field
  city : Option Field
  country : Option Field
  pincode : Option Field
  role : Option String
  refreshToken : Option (Option Token)
  extra : List ExtraKey
deriving DecidableEq, Repr

/-- A plain body as a body. -/
def UpdateBody.toDoc (data : UpdateBody) : UpdateDoc :=
  { name := data.name.map Field.str, email := data.email.map Field.str,
    phone := data.phone.map Field.str, password := data.password,
    profile_image := data.profile_image, address := data.address.map Field.str,
    state := data.state.map Field.str, city := data.city.map Field.str,
    country := data.country.map Field.str, pincode := data.pincode.map Field.str,
    role := data.role, refreshToken := data.refreshToken, extra := [] }

/-- Mongoose casting the fields of an update to the `String` paths of the schema: the plain
body of a body without extra keys, or a `CastError` for an array. -/
def UpdateDoc.cast (data : UpdateDoc) : Except String UpdateBody := do
  let name ← castOptional data.name
  let email ← castOptional data.email
  let phone ← castOptional data.phone
  let address ← castOptional data.address
  let state ← castOptional data.state
  let city ← castOptional data.city
  let country ← castOptional data.country
  let pincode ← castOptional data.pincode
  return ⟨name, email, phone, data.password, data.profile_image, address, state, city,
    country, pincode, data.role, data.refreshToken⟩

/-- What Mongoose and the store make of an update that holds extra keys; their code is not
part of this repository, so this is a parameter. `update data image hashed now` is the update
that `updateUser` hands over (the body `data`, with the image path `image` and the password
hash `hashed` that the handler has put in place of the body's own) at clock reading `now`:
an error when Mongoose refuses the update before any query, else the effect on the document
found, which is the new document or an error of the store. -/
structure MongooseLib where
  update : UpdateDoc → Option (Option String) → Option Hash → Nat →
    Except String (User → Except String User)

/-- The effect of the update that `updateUser` hands to `findByIdAndUpdate`: for a body
without extra keys the fields are cast and set as in `applyUpdate`; a body with extra keys is
left to Mongoose. -/
def updateEffect (mlib : MongooseLib) (data : UpdateDoc) (image : Option (Option String))
    (hashed : Option Hash) (now : Nat) : Except String (User → Except String User) :=
  match data.extra with
  | [] => do
    let plain ← data.cast
    return fun u => .ok (applyUpdate plain image hashed now u)
  | _ :: _ => mlib.update data image hashed now

/-- The query `User.findByIdAndUpdate(id, data, { new: true })` for any update, `effect`
being what the update does: the string is cast to an ObjectId and the update is cast, each an
error when it fails; without a document of that `_id` the result is `null`; otherwise the
first such document is rewritten and returned, unless the store refuses the update or another
document already holds the new email or phone, which the unique indexes reject. Schema
validators do not run on this query. -/
def findByIdAndUpdateReq (ctx : Ctx) (db : Store) (id : String)
    (effect : Except String (User → Except String User)) :
    Except String (Option User × Store) :=
  match castObjectId id with
  | none => .error "CastError"
  | some o =>
    match effect with
    | .error e => .error e
    | .ok f =>
      if !ctx.dbWrites then .error "MongoError"
      else
        match db.find? fun u => u._id = o with
        | none => .ok (none, db)
        | some u =>
          match f u with
          | .error e => .error e
          | .ok v =>
            if (db.eraseP fun x => x._id = o).any fun x =>
                x.email = v.email || x.phone = v.phone then
              .error "E11000 duplicate key"
            else .ok (some v, updateOne db o fun _ => v)

/-- The handler `updateUser(req, res)` on any body; `id` is `req.params.id`, `file` is
`req.file.filename` when multer stored an upload, `salt` the bcrypt salt drawn for this
request. The handler looks at the top-level `password` and sets `profile_image`; the rest of
the body goes to `findByIdAndUpdate` as it is. Every exception ends in the `catch`, which
answers 500. On a plain body this is `updateUser`. -/
def updateUserReq (mlib : MongooseLib) (ctx : Ctx) (db : Store) (id : String) (data : UpdateDoc)
    (file : Option String) (salt : Nat) : Store × Response :=
  let attempt : Except String (Store × Response) := do
    let image := match file with
      | some f => some (some ("uploads/" ++ f))
      | none => data.profile_image
    let hashed ← updatePassword data.password salt
    let (user, db') ← findByIdAndUpdateReq ctx db id (updateEffect mlib data image hashed ctx.now)
    match user with
    | none => return (db', ⟨404, message "User not found"⟩)
    | some u => return (db', ⟨200, .obj [("message", .str "User updated"), ("user", detailView u)]⟩)
  match attempt with
  | .ok r => r
  | .error _ => (db, ⟨500, message "Server error"⟩)

/-! ## middlewares/validation.middleware.js: update -/

/-- The parsed body of `PUT /api/users/:id` before validation: the validated fields are any
values, the others as in `UpdateDoc`. -/
structure UpdateRequest where
  name : JVal String
  email : JVal String
  phone : JVal String
  password : JVal String
  profile_image : Option (Option String)
  address : JVal String
  state : JVal String
  city : JVal String
  country : JVal String
  pincode : JVal String
  role : Option String
  refreshToken : Option (Option Token)
  extra : List ExtraKey
deriving DecidableEq, Repr

/-- The errors of `updateUserValidation`, in the order of the chains and, within a chain, of
its validators; an array is validated item by item. -/
def updateUserValidation (lib : EmailLib) (body : UpdateRequest) : List FieldError :=
  optionalErrors body.name true (fun values =>
      ruleErrors values (fun s => validatorLength s < 3)
          ⟨"Name must be at least 3 characters", "name"⟩
        ++ ruleErrors values (fun s => !matchesName s)
          ⟨"Name must contain only alphabets and spaces", "name"⟩)
    ++ optionalErrors body.email true (fun values =>
      ruleErrors values (fun s => !lib.isEmail s) ⟨"Please provide a valid email address", "email"⟩)
    ++ optionalErrors body.phone true (fun values =>
      ruleErrors values (fun s => !matchesDigits 10 15 s) ⟨"Phone must be 10-15 digits", "phone"⟩)
    ++ optionalErrors body.password false (fun values =>
      ruleErrors values (fun s => validatorLength s < 6)
          ⟨"Password must be at least 6 characters", "password"⟩
        ++ ruleErrors values (fun s => !containsDigit s)
          ⟨"Password must contain at least one number", "password"⟩)
    ++ optionalErrors body.address true (fun values =>
      ruleErrors values (fun s => 150 < validatorLength s)
        ⟨"Address must not exceed 150 characters", "address"⟩)
    ++ optionalErrors body.state true (fun values =>
      ruleErrors values (fun s => s = "") ⟨"State cannot be empty", "state"⟩)
    ++ optionalErrors body.city true (fun values =>
      ruleErrors values (fun s => s = "") ⟨"City cannot be empty", "city"⟩)
    ++ optionalErrors body.country true (fun values =>
      ruleErrors values (fun s => s = "") ⟨"Country cannot be empty", "country"⟩)
    ++ optionalErrors body.pincode true (fun values =>
      ruleErrors values (fun s => !matchesDigits 4 10 s) ⟨"Pincode must be 4-10 digits", "pincode"⟩)

/-- The body after the sanitizers of `updateUserValidation`. -/
def updateSanitize (lib : EmailLib) (body : UpdateRequest) : UpdateDoc :=
  { name := sanitizeOptional trim body.name,
    email := sanitizeOptional (fun s => lib.normalizeEmail (trim s)) body.email,
    phone := sanitizeOptional trim body.phone,
    password := body.password,
    profile_image := body.profile_image,
    address := sanitizeOptional trim body.address,
    state := sanitizeOptional trim body.state,
    city := sanitizeOptional trim body.city,
    country := sanitizeOptional trim body.country,
    pincode := sanitizeOptional trim body.pincode,
    role := body.role,
    refreshToken := body.refreshToken,
    extra := body.extra }

/-! ## routes/users.routes.js -/

/-- A route that starts with `authMiddleware`: the rest of the chain, `k`, runs on the decoded
claims only when the middleware calls `next()`. -/
def authenticated (ctx : Ctx) (header : Option AuthHeader) (db : Store)
    (k : Claims → Store × Response) : Store × Response :=
  match authMiddleware ctx header with
  | .respond r => (db, r)
  | .next user => k user

/-- A route that starts with `authMiddleware, adminMiddleware`. -/
def adminOnly (ctx : Ctx) (header : Option AuthHeader) (db : Store)
    (k : Claims → Store × Response) : Store × Response :=
  authenticated ctx header db fun user =>
    match adminMiddleware (some user) with
    | .respond r => (db, r)
    | .next _ => k user

/-- The route `GET /api/users`: `authMiddleware, adminMiddleware, getUsers`. -/
def getUsersRoute (lib : RegexLib) (ctx : Ctx) (db : Store) (header : Option AuthHeader)
    (search : Option String) : Store × Response :=
  adminOnly ctx header db fun _ => getUsers lib ctx db search

/-- The route `GET /api/users/:id`: `authMiddleware, getUserById`. -/
def getUserByIdRoute (ctx : Ctx) (db : Store) (header : Option AuthHeader) (id : String) :
    Store × Response :=
  authenticated ctx header db fun _ => getUserById ctx db id

/-- The route `PUT /api/users/:id`: `authMiddleware, adminMiddleware`, the multer wrapper
(which answers 400 with the error message when the upload is refused),
`updateUserValidation, validate, updateUser` on the sanitized body. -/
def updateUserRoute (lib : EmailLib) (mlib : MongooseLib) (ctx : Ctx) (db : Store)
    (header : Option AuthHeader) (id : String) (upload : Upload) (body : UpdateRequest)
    (salt : Nat) : Store × Response :=
  adminOnly ctx header db fun _ =>
    match upload with
    | .refused error => (db, ⟨400, message error⟩)
    | .absent =>
      match validate (updateUserValidation lib body) with
      | some r => (db, r)
      | none => updateUserReq mlib ctx db id (updateSanitize lib body) none salt
    | .stored filename =>
      match validate (updateUserValidation lib body) with
      | some r => (db, r)
      | none => updateUserReq mlib ctx db id (updateSanitize lib body) (some filename) salt

/-- The route `DELETE /api/users/:id`: `authMiddleware, adminMiddleware, deleteUser`. -/
def deleteUserRoute (ctx : Ctx) (db : Store) (header : Option AuthHeader) (id : String) :
    Store × Response :=
  adminOnly ctx header db fun user => deleteUser ctx db user id

/-! ## Reading a response: leaves -/

mutual
/-- The password hashes that occur anywhere in a JSON value. -/
def Json.hashes : Json → List Hash
  | .hash h => [h]
  | .arr items => Json.hashesOfItems items
  | .obj fields => Json.hashesOfFields fields
  | _ => []
/-- The password hashes that occur in the items of an array. -/
def Json.hashesOfItems : List Json → List Hash
  | [] => []
  | x :: xs => x.hashes ++ Json.hashesOfItems xs
/-- The password hashes that occur in the fields of an object. -/
def Json.hashesOfFields : List (String × Json) → List Hash
  | [] => []
  | (_, v) :: fields => v.hashes ++ Json.hashesOfFields fields
end

mutual
/-- The tokens that occur anywhere in a JSON value. -/
def Json.tokens : Json → List Token
  | .token t => [t]
  | .arr items => Json.tokensOfItems items
  | .obj fields => Json.tokensOfFields fields
  | _ => []
/-- The tokens that occur in the items of an array. -/
def Json.tokensOfItems : List Json → List Token
  | [] => []
  | x :: xs => x.tokens ++ Json.tokensOfItems xs
/-- The tokens that occur in the fields of an object. -/
def Json.tokensOfFields : List (String × Json) → List Token
  | [] => []
  | (_, v) :: fields => v.tokens ++ Json.tokensOfFields fields
end

/-! ## Predicates of the claims -/

/-- No two documents share an email and no two share a phone. -/
def uniqueIdentity (db : Store) : Prop :=
  (db.map User.email).Nodup ∧ (db.map User.phone).Nodup

instance (db : Store) : Decidable (uniqueIdentity db) := by
  unfold uniqueIdentity
  infer_instance

/-- The registration data with another password. -/
def RegisterData.withPassword (data : RegisterData) (password : String) : RegisterData :=
  { data with password := password }

/-- Whether the characters `s` occur in `t` as a contiguous part. -/
def occursIn (s t : List Char) : Bool :=
  match t with
  | [] => s.isEmpty
  | c :: rest => s.isPrefixOf (c :: rest) || occursIn s rest

/-- Case-insensitive substring containment in the words of the specification: `t`, lower-cased,
has `s`, lower-cased, as a contiguous part. -/
def containsIgnoreCase (s t : String) : Bool :=
  occursIn (s.data.map Char.toLower) (t.data.map Char.toLower)

/-! ## More sample data -/

/-- The form `aliceForm` with a `role` field asking for `admin`. -/
def adminForm : RegisterBody :=
  { aliceForm with role := some "admin" }

/-- A second user, created after `alice`; his city has a parenthesis in its name. -/
def bob : User :=
  { _id := 0x65a1b2c3d4e5f60718293a4c, name := "Bob Ray", email := "bob@example.com",
    phone := "9123456780", password := bcryptHash "hunter22" 9, profile_image := none,
    address := none, state := "Maharashtra", city := "Pune (West)", country := "India",
    pincode := some "411001", role := "user", refreshToken := none,
    createdAt := 1695000000000, updatedAt := 1695000000000 }

/-- A stand-in for the regular-expression engine on patterns without metacharacters: such a
pattern is accepted and matches as a substring, ignoring the case of ASCII letters; any other
pattern is refused. -/
def sampleRegexLib : RegexLib :=
  { compiles := fun s =>
      !s.data.any fun c => [36, 40, 41, 42, 43, 46, 63, 91, 92, 93, 94, 123, 124, 125].contains c.toNat,
    test := containsIgnoreCase }

/-- An access token of `alice`, issued in the second 1700000000. -/
def aliceAccessToken : Token :=
  .jwt "access-secret" aliceCaller

/-- The header `Authorization: Bearer <token>`. -/
def bearer (t : Token) : Option AuthHeader :=
  some { scheme := "Bearer", words := [t] }

/-- An update that asks for the email of `alice`. -/
def takeAliceEmail : UpdateBody :=
  { name := none, email := some "alice@example.com", phone := none, password := .undefined,
    profile_image := none, address := none, state := none, city := none, country := none,
    pincode := none, role := none, refreshToken := none }

/-- The registration data of a third user. -/
def carolData : RegisterData :=
  { name := "Carol Fox", email := "carol@example.com", phone := "9000000001",
    password := "carol123", address := none, state := "Goa", city := "Panaji",
    country := "India", pincode := none }

/-- The registration data with another phone number. -/
def RegisterData.withPhone (data : RegisterData) (phone : String) : RegisterData :=
  { data with phone := phone }

/-- The ObjectId drawn for the third user. -/
def carolId : ObjectId :=
  0x65a1b2c3d4e5f60718293a4d

/-! ## frontend utils/imageUtils.js -/

/-- The data URI that `getImageUrl` returns when there is no image. -/
def placeholderImage : String :=
  "data:image/svg+xml,%3Csvg xmlns='http://www.w3.org/2000/svg' width='120' height='120'%3E%3Crect fill='%23ddd' width='120' height='120'/%3E%3Ctext x='50%25' y='50%25' font-size='18' fill='%23999' text-anchor='middle' dy='.3em'%3ENo Image%3C/text%3E%3C/svg%3E"

/-- The backslash character. -/
def backslash : Char :=
  Char.ofNat 92

/-- The replacement `baseURL.replace(/\/+$/, "")`: trailing slashes removed. -/
def dropTrailingSlashes (s : String) : String :=
  String.mk (s.data.reverse.dropWhile fun c => c = '/').reverse

/-- The replacements `imagePath.replace(/\\/g, "/").replace(/^\/+/, "")`: every backslash
becomes a slash, then leading slashes are removed. -/
def normalizePath (s : String) : String :=
  String.mk ((s.data.map fun c => if c = backslash then '/' else c).dropWhile fun c => c = '/')

/-- The function `getImageUrl(baseURL, imagePath)`; `imagePath` is `none` for `null` or
`undefined`, and the empty string is falsy as well. -/
def getImageUrl (baseURL : String) (imagePath : Option String) : String :=
  match imagePath with
  | none => placeholderImage
  | some path =>
    if path = "" then placeholderImage
    else dropTrailingSlashes baseURL ++ "/" ++ normalizePath path

/-- A string of `n` slashes. -/
def slashes (n : Nat) : String :=
  String.mk (List.replicate n '/')

/-- The path with every backslash written as a slash. -/
def forwardSlashes (s : String) : String :=
  String.mk (s.data.map fun c => if c = backslash then '/' else c)

/-- The document with another password hash, another stored refresh token and another
`updatedAt`. -/
def User.withSecrets (u : User) (h : Hash) (t : Option Token) (updatedAt : Nat) : User :=
  { u with password := h, refreshToken := t, updatedAt := updatedAt }

/-- The fields from which the sanitized objects of `/api/users` are built. -/
def sanitizedFields : List String :=
  ["_id", "name", "email", "phone", "profile_image", "address", "state", "city", "country",
    "pincode", "role", "createdAt"]

/-- The context `sampleCtx` with a store that fails every operation. -/
def storeDown : Ctx :=
  { sampleCtx with dbReads := false, dbWrites := false }

/-- The role claim that a token carries, if it is a signed token. -/
def Token.role (t : Token) : Option String :=
  match t with
  | .jwt _ c => some c.role
  | .raw _ => none

/-- The refresh token that `bob` was issued in the second 1700000000, as a plain user. -/
def bobToken : Token :=
  .jwt "refresh-secret" { id := bob._id, role := "user", iat := 1700000000, exp := 1700604800 }

/-- The document of `bob` after that login. -/
def bobLoggedIn : User :=
  { bob with refreshToken := some bobToken, updatedAt := 1700000000200 }

/-- An update that names only the role. -/
def promote : UpdateBody :=
  { name := none, email := none, phone := none, password := .undefined,
    profile_image := none, address := none, state := none, city := none, country := none,
    pincode := none, role := some "admin", refreshToken := none }

/-- The document of `alice` as a plain user. -/
def aliceDemoted : User :=
  { alice with role := "user" }

/-- The document of `bob` after an administrator has set his role to `admin` at
`sampleCtx`. -/
def bobPromoted : User :=
  { bobLoggedIn with role := "admin", updatedAt := 1700000000200 }

/-- The payload of `bobToken`. -/
def bobClaims : Claims :=
  { id := bob._id, role := "user", iat := 1700000000, exp := 1700604800 }

/-! ## The registration rules in the words of the specification -/

/-- Whether a body value is an array. -/
def JVal.isArray (v : JVal String) : Bool :=
  match v with
  | .arr _ => true
  | _ => false

/-- No field of the registration body is an array. -/
def RegisterBody.noArray (body : RegisterBody) : Bool :=
  !(body.name.isArray || body.email.isArray || body.phone.isArray || body.password.isArray
    || body.address.isArray || body.state.isArray || body.city.isArray || body.country.isArray
    || body.pincode.isArray)

/-- A rule on a field that may be absent: it holds when the field is absent, else it is read
on the trimmed string of the value. -/
def specOptional (v : JVal String) (ok : String → Bool) : Bool :=
  match v with
  | .undefined => true
  | _ => ok (trim (fieldString v))

/-- The rules that the specification states for the body of `POST /api/auth/register`, read
on a body without arrays: the trimmed name has at least 3 characters and only letters and
white space, the email is a valid address, the phone is 10 to 15 digits, the password has at
least 6 characters and a digit, state, city and country are not empty, an address that is
present has at most 150 characters, a pincode that is present is 4 to 10 digits. Characters
are counted as validator.js counts them; an absent required field is the empty string, and a
value that is not a string is read as express-validator writes it. -/
def specRegisterRules (lib : EmailLib) (body : RegisterBody) : Bool :=
  3 ≤ validatorLength (trim (fieldString body.name))
    && matchesName (trim (fieldString body.name))
    && lib.isEmail (trim (fieldString body.email))
    && matchesDigits 10 15 (trim (fieldString body.phone))
    && 6 ≤ validatorLength (fieldString body.password)
    && containsDigit (fieldString body.password)
    && trim (fieldString body.state) ≠ ""
    && trim (fieldString body.city) ≠ ""
    && trim (fieldString body.country) ≠ ""
    && specOptional body.address (fun s => validatorLength s ≤ 150)
    && specOptional body.pincode (fun s => matchesDigits 4 10 s)

/-- The message of the first rule that the body fails, the rules taken in the order in which
the route declares them: name, email, phone, password, address, state, city, country,
pincode. -/
def specFirstViolation (lib : EmailLib) (body : RegisterBody) : Option String :=
  if validatorLength (trim (fieldString body.name)) < 3 then
    some "Name must be at least 3 characters"
  else if !matchesName (trim (fieldString body.name)) then
    some "Name must contain only alphabets and spaces"
  else if !lib.isEmail (trim (fieldString body.email)) then
    some "Please provide a valid email address"
  else if !matchesDigits 10 15 (trim (fieldString body.phone)) then
    some "Phone must be 10-15 digits"
  else if validatorLength (fieldString body.password) < 6 then
    some "Password must be at least 6 characters"
  else if !containsDigit (fieldString body.password) then
    some "Password must contain at least one number"
  else if !specOptional body.address (fun s => validatorLength s ≤ 150) then
    some "Address must not exceed 150 characters"
  else if trim (fieldString body.state) = "" then some "State is required"
  else if trim (fieldString body.city) = "" then some "City is required"
  else if trim (fieldString body.country) = "" then some "Country is required"
  else if !specOptional body.pincode (fun s => matchesDigits 4 10 s) then
    some "Pincode must be 4-10 digits"
  else none

/-- A registration form whose name is too short and whose password has no digit. -/
def shortNameForm : RegisterBody :=
  { aliceForm with name := .str " Al ", password := .str "secret" }

/-- The form `aliceForm` as a JSON body whose `name` is the empty array. -/
def arrayNameForm : RegisterBody :=
  { aliceForm with name := .arr [] }

/-! ## Partial merge in the words of the specification -/

/-- What the specification says of the target record `u` and its state `v` after an update
with body `data` and upload `file`: every field that the body does not name has kept its
value, the image also requiring that no file was uploaded. The field `updatedAt` is not
among them. -/
def keepsUnnamed (data : UpdateDoc) (file : Option String) (u v : User) : Prop :=
  v._id = u._id ∧ v.createdAt = u.createdAt ∧
  (data.name = none → v.name = u.name) ∧
  (data.email = none → v.email = u.email) ∧
  (data.phone = none → v.phone = u.phone) ∧
  (data.password = .undefined → v.password = u.password) ∧
  (file = none → data.profile_image = none → v.profile_image = u.profile_image) ∧
  (data.address = none → v.address = u.address) ∧
  (data.state = none → v.state = u.state) ∧
  (data.city = none → v.city = u.city) ∧
  (data.country = none → v.country = u.country) ∧
  (data.pincode = none → v.pincode = u.pincode) ∧
  (data.role = none → v.role = u.role) ∧
  (data.refreshToken = none → v.refreshToken = u.refreshToken)

instance (data : UpdateDoc) (file : Option String) (u v : User) :
    Decidable (keepsUnnamed data file u v) := by
  unfold keepsUnnamed
  infer_instance

/-- No sanitized field of the body is an array. -/
def UpdateDoc.noArray (data : UpdateDoc) : Bool :=
  match data.cast with
  | .ok _ => true
  | .error _ => false

/-- An update that names only the city. -/
def cityOnly : UpdateBody :=
  { name := none, email := none, phone := none, password := .undefined,
    profile_image := none, address := none, state := none, city := some "Mumbai",
    country := none, pincode := none, role := none, refreshToken := none }

/-- The document of `bob` after the update `cityOnly` at `sampleCtx`. -/
def bobMoved : User :=
  { bob with city := "Mumbai", updatedAt := 1700000000200 }

/-- A request body for `PUT /api/users/:id` that names only the password. -/
def passwordRequest (p : String) : UpdateRequest :=
  { name := .undefined, email := .undefined, phone := .undefined, password := .str p,
    profile_image := none, address := .undefined, state := .undefined, city := .undefined,
    country := .undefined, pincode := .undefined, role := none, refreshToken := none,
    extra := [] }

/-- An update that names only the password. -/
def passwordUpdate (p : String) : UpdateBody :=
  { name := none, email := none, phone := none, password := .str p,
    profile_image := none, address := none, state := none, city := none, country := none,
    pincode := none, role := none, refreshToken := none }

/-- An update that asks for the email of `alice` and for a new password. -/
def takeAliceEmailAndPassword : UpdateBody :=
  { takeAliceEmail with password := .str "newpass1" }

/-- The request body with the one key `$set`, which names the path `password` and the
string `p`. -/
def setPasswordRequest (p : String) : UpdateRequest :=
  { name := .undefined, email := .undefined, phone := .undefined, password := .undefined,
    profile_image := none, address := .undefined, state := .undefined, city := .undefined,
    country := .undefined, pincode := .undefined, role := none, refreshToken := none,
    extra := [.operator "$set" [("password", .str p)]] }

/-- The request body with the one key `password`, whose value is the empty array. -/
def emptyArrayPassword : UpdateRequest :=
  { name := .undefined, email := .undefined, phone := .undefined, password := .arr [],
    profile_image := none, address := .undefined, state := .undefined, city := .undefined,
    country := .undefined, pincode := .undefined, role := none, refreshToken := none,
    extra := [] }

/-- A stand-in for Mongoose on one kind of update with extra keys: the body without a
top-level password whose only extra key is `$set`, naming the path `password` with a string.
That string is stored as it is, and the other fields are set as in a plain update; any other
update with extra keys is refused. -/
def sampleMongooseLib : MongooseLib :=
  { update := fun data image hashed now =>
      match data.extra, hashed, data.cast with
      | [.operator "$set" [("password", .str p)]], none, .ok plain =>
        .ok fun u => .ok (User.withSecrets (applyUpdate plain image none now u) (.raw p)
          (applyUpdate plain image none now u).refreshToken now)
      | _, _, _ => .error "not modelled" }

/-! # Theorems -/

/-! ## Lemmas on identifiers and the store -/

/-- Reading back the digit that `hexDigit` writes. -/
theorem hexValue_hexDigit (d : Nat) (h : d < 16) : hexValue (hexDigit d) = some d := by
  interval_cases d <;> decide

/-- Folding the 16-ary digits of `n`, most significant first, gives `n` back. -/
theorem foldl_hex_digits (n k a : Nat) :
    ((List.range k).reverse.map fun i => n / 16 ^ i % 16).foldl (fun a d => 16 * a + d) a
      = a * 16 ^ k + n % 16 ^ k := by
  induction k generalizing a with
  | zero => simp [Nat.mod_one]
  | succ k ih =>
    rw [List.range_succ, List.reverse_append, List.reverse_singleton, List.singleton_append,
      List.map_cons, List.foldl_cons, ih, Nat.mod_pow_succ]
    ring

/-- The string form of an ObjectId casts back to it. -/
theorem castObjectId_toHexString (o : ObjectId) : castObjectId o.toHexString = some o := by
  have hmap : ∀ l : List Nat, (∀ d ∈ l, d < 16) → (l.map hexDigit).mapM hexValue = some l := by
    intro l
    induction l with
    | nil => intro _; rfl
    | cons d ds ih =>
      intro h
      rw [List.map_cons, List.mapM_cons, hexValue_hexDigit d (h d (List.mem_cons_self _ _)),
        ih fun x hx => h x (List.mem_cons_of_mem _ hx)]
      rfl
  unfold castObjectId ObjectId.toHexString
  simp only [List.length_map, List.length_reverse, List.length_range, if_true]
  have hcomp : (List.range 24).reverse.map (fun i => hexDigit (o.val / 16 ^ i % 16))
      = ((List.range 24).reverse.map fun i => o.val / 16 ^ i % 16).map hexDigit := by
    rw [List.map_map]
    rfl
  rw [hcomp, hmap]
  · simp only [Option.map_some', Option.some.injEq]
    apply Fin.ext
    simp only [foldl_hex_digits, zero_mul, zero_add, Nat.mod_mod]
    exact Nat.mod_eq_of_lt o.isLt
  · intro d hd
    simp only [List.mem_map, List.mem_reverse, List.mem_range] at hd
    obtain ⟨i, _, rfl⟩ := hd
    exact Nat.mod_lt _ (by decide)

/-- Looking a document up by the string form of an ObjectId is looking it up by the ObjectId. -/
theorem findById_toHexString (ctx : Ctx) (db : Store) (o : ObjectId) :
    findById ctx db o.toHexString = findOne ctx db fun u => u._id = o := by
  simp [findById, castObjectId_toHexString]



/-- The document that `findById` returns is the first one with that `_id`, and `updateOne`
rewrites exactly that document. -/
theorem updateOne_split (db : Store) (id : ObjectId) (u : User)
    (h : db.find? (fun x => x._id = id) = some u) :
    ∃ pre post, db = pre ++ u :: post ∧ (∀ x ∈ pre, x._id ≠ id) ∧ u._id = id ∧
      ∀ f, updateOne db id f = pre ++ f u :: post := by
  induction db with
  | nil => simp at h
  | cons r rest ih =>
    by_cases hr : r._id = id
    · have hu : r = u := by simpa [List.find?, hr] using h
      subst hu
      exact ⟨[], rest, rfl, by simp, hr, fun f => by simp [updateOne, hr]⟩
    · have h' : rest.find? (fun x => x._id = id) = some u := by
        simpa [List.find?, hr] using h
      obtain ⟨pre, post, hdb, hpre, hid, hupd⟩ := ih h'
      refine ⟨r :: pre, post, by simp [hdb], ?_, hid, fun f => by simp [updateOne, hr, hupd f]⟩
      intro x hx
      rcases List.mem_cons.mp hx with rfl | hx
      · exact hr
      · exact hpre x hx

/-- A token that verifies is a non-empty string. -/
theorem truthy_of_jwtVerify (tok : JVal Token) (secret : String) (now : Nat) (c : Claims)
    (h : jwtVerify tok secret now = .ok c) :
    truthy tok = true ∧ tok = .str (.jwt secret c) ∧ now / 1000 < c.exp := by
  unfold jwtVerify at h
  split at h
  · rename_i key c'
    split at h
    · simp at h
    · split at h
      · simp at h
      · split at h
        · simp at h
        · rename_i h1 h2 h3
          simp only [Except.ok.injEq] at h
          subst h
          simp only [ne_eq, Decidable.not_not] at h2
          subst h2
          exact ⟨rfl, rfl, by omega⟩
  · simp at h
  · simp at h

/-- Inversion of a successful refresh. -/
theorem refreshToken_ok_inv (ctx : Ctx) (db : Store) (body : Option RefreshBody)
    (h : (refreshToken ctx db body).2.status = 200) :
    ∃ tok c u a r db', body = some ⟨tok⟩ ∧ truthy tok = true ∧
      jwtVerify tok ctx.JWT_REFRESH_SECRET ctx.now = .ok c ∧
      findById ctx db c.id.toHexString = .ok (some u) ∧ storedToken u.refreshToken = tok ∧
      generateAccessToken ctx u = .ok a ∧ generateRefreshToken ctx u = .ok r ∧
      saveRefreshToken ctx db u r = .ok db' ∧
      refreshToken ctx db body = (db', ⟨200, .obj [("success", .bool true),
        ("accessToken", .token a), ("refreshToken", .token r)]⟩) := by
  unfold refreshToken at h ⊢
  simp only [bind, Except.bind, pure, Except.pure, throw, throwThe, MonadExceptOf.throw] at h ⊢
  cases body with
  | none => simp at h
  | some b =>
    obtain ⟨tok⟩ := b
    simp only at h ⊢
    cases ht : truthy tok with
    | false => simp [ht] at h
    | true =>
      cases hv : jwtVerify tok ctx.JWT_REFRESH_SECRET ctx.now with
      | error e => simp [ht, hv] at h
      | ok c =>
        cases hf : findById ctx db c.id.toHexString with
        | error e => simp [ht, hv, hf] at h
        | ok ou =>
          cases ou with
          | none => simp [ht, hv, hf] at h
          | some u =>
            by_cases hs : storedToken u.refreshToken = tok
            · cases ha : generateAccessToken ctx u with
              | error e => simp [ht, hv, hf, hs, ha] at h
              | ok a =>
                cases hr : generateRefreshToken ctx u with
                | error e => simp [ht, hv, hf, hs, ha, hr] at h
                | ok r =>
                  cases hd : saveRefreshToken ctx db u r with
                  | error e => simp [ht, hv, hf, hs, ha, hr, hd] at h
                  | ok db' =>
                    exact ⟨tok, c, u, a, r, db', rfl, ht, hv, hf, hs, ha, hr, hd, by simp [ht, hv, hf, hs, ha, hr, hd]⟩
            · simp [ht, hv, hf, hs] at h

/-- Inversion of a successful login. -/
theorem loginUser_ok_inv (ctx : Ctx) (db : Store) (identifier : String) (password : JVal String)
    (h : (loginUser ctx db identifier password).2.status = 200) :
    ∃ u a r db', findOne ctx db (fun u => u.email = identifier || u.phone = identifier)
        = .ok (some u) ∧
      bcryptCompare password u.password = .ok true ∧
      generateAccessToken ctx u = .ok a ∧ generateRefreshToken ctx u = .ok r ∧
      saveRefreshToken ctx db u r = .ok db' ∧
      loginUser ctx db identifier password = (db', ⟨200, .obj [("success", .bool true),
        ("accessToken", .token a), ("refreshToken", .token r), ("user", loginUserView u)]⟩) := by
  unfold loginUser at h ⊢
  simp only [bind, Except.bind, pure, Except.pure] at h ⊢
  cases hf : findOne ctx db (fun u => u.email = identifier || u.phone = identifier) with
  | error e => simp [hf] at h
  | ok ou =>
    cases ou with
    | none => simp [hf] at h
    | some u =>
      cases hc : bcryptCompare password u.password with
      | error e => simp [hf, hc] at h
      | ok b =>
        cases b with
        | false => simp [hf, hc] at h
        | true =>
          cases ha : generateAccessToken ctx u with
          | error e => simp [hf, hc, ha] at h
          | ok a =>
            cases hr : generateRefreshToken ctx u with
            | error e => simp [hf, hc, ha, hr] at h
            | ok r =>
              cases hd : saveRefreshToken ctx db u r with
              | error e => simp [hf, hc, ha, hr, hd] at h
              | ok db' =>
                exact ⟨u, a, r, db', rfl, hc, ha, hr, hd, by simp [hf, hc, ha, hr, hd]⟩

/-- What `jwtSign` returns when it returns. -/
theorem jwtSign_ok (id : ObjectId) (role secret : String) (expiresIn now : Nat) (t : Token)
    (h : jwtSign id role secret expiresIn now = .ok t) :
    secret ≠ "" ∧
      t = .jwt secret { id := id, role := role, iat := now / 1000, exp := now / 1000 + expiresIn } := by
  unfold jwtSign at h
  split at h
  · simp at h
  · rename_i hs
    simp only [Except.ok.injEq] at h
    exact ⟨hs, h.symm⟩

/-- The effect of a successful `saveRefreshToken` on the collection: the first document with
the user's `_id` now holds the token, and differs from before in `refreshToken` and
`updatedAt` at most. -/
theorem saveRefreshToken_ok (ctx : Ctx) (db db' : Store) (u : User) (t : Token)
    (hf : db.find? (fun x => x._id = u._id) = some u)
    (h : saveRefreshToken ctx db u t = .ok db') :
    ∃ u' pre post, db = pre ++ u :: post ∧ db' = pre ++ u' :: post ∧
      (∀ x ∈ pre, x._id ≠ u._id) ∧ u'.refreshToken = some t ∧
      u'.withoutSession = u.withoutSession := by
  obtain ⟨pre, post, hdb, hpre, _, hupd⟩ := updateOne_split db u._id u hf
  unfold saveRefreshToken at h
  split at h
  · split at h
    · rename_i hsame
      simp only [Except.ok.injEq] at h
      exact ⟨u, pre, post, hdb, by rw [← h, hdb], hpre, hsame, rfl⟩
    · simp only [Except.ok.injEq] at h
      exact ⟨{ u with refreshToken := some t, updatedAt := ctx.now }, pre, post, hdb,
        by rw [← h, hupd], hpre, rfl, rfl⟩
  · simp at h

/-- In a collection whose `_id`s are pairwise distinct, looking a member up by its `_id` returns
that member. -/
theorem find_id_of_mem (db : Store) (u : User) (hids : (db.map User._id).Nodup) (hu : u ∈ db) :
    db.find? (fun x => x._id = u._id) = some u := by
  induction db with
  | nil => simp at hu
  | cons r rest ih =>
    rw [List.map_cons, List.nodup_cons] at hids
    rcases List.mem_cons.mp hu with rfl | hmem
    · simp [List.find?]
    · have hne : r._id ≠ u._id := by
        intro heq
        exact hids.1 (heq ▸ List.mem_map_of_mem User._id hmem)
      simp [List.find?, hne, ih hids.2 hmem]

/-! ## Refresh -/

/-- C1 (the code at the failing input). Alice logs in and is issued `aliceToken`; a refresh
presenting it 300 ms later, in the same second, succeeds, issues the very same token again and
leaves it stored; a second refresh presenting it an hour later succeeds too instead of being
answered 401. -/
theorem refreshToken_reuse_within_one_second :
    (loginUser sampleCtx [alice] "alice@example.com" (.str "secret1")).2.body.tokenAt
        "refreshToken" = some aliceToken ∧
      (loginUser sampleCtx [alice] "alice@example.com" (.str "secret1")).1 = [aliceLoggedIn] ∧
      (refreshToken (sampleCtxAt 1700000000500) [aliceLoggedIn] (some ⟨.str aliceToken⟩)).2.status
        = 200 ∧
      (refreshToken (sampleCtxAt 1700000000500) [aliceLoggedIn]
        (some ⟨.str aliceToken⟩)).2.body.tokenAt "refreshToken" = some aliceToken ∧
      (refreshToken (sampleCtxAt 1700000000500) [aliceLoggedIn] (some ⟨.str aliceToken⟩)).1
        = [aliceLoggedIn] ∧
      (refreshToken (sampleCtxAt 1700003600000) [aliceLoggedIn] (some ⟨.str aliceToken⟩)).2.status
        = 200 := by
  decide

/-- C2. When the presented token verifies under the refresh secret and the lookup finds no
document for the decoded id, or finds one whose stored `refreshToken` is not the presented
token, the handler answers 401 with the body `{ message: "Invalid refresh token" }` (so without
tokens) and returns the collection as it was. -/
theorem refreshToken_rejects_unknown_or_superseded (ctx : Ctx) (db : Store) (tok : JVal Token)
    (c : Claims) (hreads : ctx.dbReads = true)
    (hv : jwtVerify tok ctx.JWT_REFRESH_SECRET ctx.now = .ok c)
    (hu : (∀ u ∈ db, u._id ≠ c.id) ∨
      ∃ u, db.find? (fun x => x._id = c.id) = some u ∧ storedToken u.refreshToken ≠ tok) :
    refreshToken ctx db (some ⟨tok⟩) = (db, ⟨401, message "Invalid refresh token"⟩) := by
  have ht := (truthy_of_jwtVerify tok _ _ c hv).1
  rcases hu with hnone | ⟨u, hfind, hne⟩
  · have hfind : db.find? (fun x => x._id = c.id) = none := by
      rw [List.find?_eq_none]
      intro x hx
      simpa using hnone x hx
    simp [refreshToken, bind, Except.bind, pure, Except.pure, ht, hv, findById_toHexString, findOne, hreads,
      hfind]
  · simp [refreshToken, bind, Except.bind, pure, Except.pure, ht, hv, findById_toHexString, findOne, hreads,
      hfind, hne]

/-- C2, at a superseded token: the stored token of Alice was issued an hour after
`aliceToken`, and `aliceToken` is presented. -/
theorem refreshToken_rejects_unknown_or_superseded_witness :
    (sampleCtxAt 1700007200000).dbReads = true ∧
      jwtVerify (.str aliceToken) (sampleCtxAt 1700007200000).JWT_REFRESH_SECRET
        (sampleCtxAt 1700007200000).now = .ok aliceClaims ∧
      ((∀ u ∈ [alice.withToken aliceLaterToken], u._id ≠ aliceClaims.id) ∨
        ∃ u, [alice.withToken aliceLaterToken].find? (fun x => x._id = aliceClaims.id) = some u ∧
          storedToken u.refreshToken ≠ .str aliceToken) ∧
      refreshToken (sampleCtxAt 1700007200000) [alice.withToken aliceLaterToken]
          (some ⟨.str aliceToken⟩)
        = ([alice.withToken aliceLaterToken], ⟨401, message "Invalid refresh token"⟩) :=
  ⟨rfl, rfl, Or.inr ⟨_, rfl, by decide⟩,
    refreshToken_rejects_unknown_or_superseded _ _ _ _ rfl rfl (Or.inr ⟨_, rfl, by decide⟩)⟩

/-- C3 as stated fails. A successful refresh an hour after the login also moves the
`updatedAt` of the document: with `refreshToken` disregarded, the stored document still differs
from the one before the call. -/
theorem refreshToken_success_moves_updatedAt :
    (refreshToken (sampleCtxAt 1700003600000) [aliceLoggedIn] (some ⟨.str aliceToken⟩)).2.status
        = 200 ∧
      (refreshToken (sampleCtxAt 1700003600000) [aliceLoggedIn]
          (some ⟨.str aliceToken⟩)).1.map User.withoutRefreshToken
        ≠ [aliceLoggedIn].map User.withoutRefreshToken ∧
      (refreshToken (sampleCtxAt 1700003600000) [aliceLoggedIn]
          (some ⟨.str aliceToken⟩)).1.map User.updatedAt = [1700003600000] ∧
      [aliceLoggedIn].map User.updatedAt = [1700000000200] := by
  decide

/-- C3, amended. After a successful refresh the response carries an access token and a refresh
token issued at the clock of this request for the user that the presented token names; the
document of that user (the first with the id) now stores the refresh token of the response and
is otherwise unchanged except for `updatedAt`; all other documents are unchanged. -/
theorem refreshToken_success_frame (ctx : Ctx) (db : Store) (body : Option RefreshBody)
    (h : (refreshToken ctx db body).2.status = 200) :
    ∃ c a r u u' pre post,
      body = some ⟨.str (.jwt ctx.JWT_REFRESH_SECRET c)⟩ ∧ c.id = u._id ∧
      (refreshToken ctx db body).2.body = .obj [("success", .bool true),
        ("accessToken", .token a), ("refreshToken", .token r)] ∧
      a = .jwt ctx.JWT_ACCESS_SECRET ⟨u._id, u.role, ctx.now / 1000, ctx.now / 1000 + 3600⟩ ∧
      r = .jwt ctx.JWT_REFRESH_SECRET ⟨u._id, u.role, ctx.now / 1000, ctx.now / 1000 + 604800⟩ ∧
      db = pre ++ u :: post ∧ (refreshToken ctx db body).1 = pre ++ u' :: post ∧
      (∀ x ∈ pre, x._id ≠ u._id) ∧
      u'.refreshToken = some r ∧ u'.withoutSession = u.withoutSession := by
  obtain ⟨tok, c, u, a, r, db', hbody, _, hv, hf, _, ha, hr, hd, hout⟩ :=
    refreshToken_ok_inv ctx db body h
  have hfind : db.find? (fun x => x._id = c.id) = some u := by
    rw [findById_toHexString] at hf
    unfold findOne at hf
    split at hf
    · simpa using hf
    · simp at hf
  have hid : u._id = c.id := by
    have := List.find?_some hfind
    simpa using this
  rw [← hid] at hfind
  obtain ⟨u', pre, post, hdb, hdb', hpre, htok, hsame⟩ :=
    saveRefreshToken_ok ctx db db' u r hfind hd
  have htokstr := (truthy_of_jwtVerify tok _ _ c hv).2.1
  refine ⟨c, a, r, u, u', pre, post, by rw [hbody, htokstr], hid.symm, by rw [hout],
    (jwtSign_ok _ _ _ _ _ _ ha).2, (jwtSign_ok _ _ _ _ _ _ hr).2, hdb, by rw [hout]; exact hdb',
    hpre, htok, hsame⟩

/-- C3, amended, at a refresh an hour after the login. -/
theorem refreshToken_success_frame_witness :
    (refreshToken (sampleCtxAt 1700003600000) [aliceLoggedIn] (some ⟨.str aliceToken⟩)).2.status
        = 200 ∧
    ∃ c a r u u' pre post,
      some (RefreshBody.mk (.str aliceToken))
        = some ⟨.str (.jwt (sampleCtxAt 1700003600000).JWT_REFRESH_SECRET c)⟩ ∧
      c.id = u._id ∧
      (refreshToken (sampleCtxAt 1700003600000) [aliceLoggedIn]
        (some ⟨.str aliceToken⟩)).2.body = .obj [("success", .bool true),
        ("accessToken", .token a), ("refreshToken", .token r)] ∧
      a = .jwt (sampleCtxAt 1700003600000).JWT_ACCESS_SECRET
        ⟨u._id, u.role, (sampleCtxAt 1700003600000).now / 1000,
          (sampleCtxAt 1700003600000).now / 1000 + 3600⟩ ∧
      r = .jwt (sampleCtxAt 1700003600000).JWT_REFRESH_SECRET
        ⟨u._id, u.role, (sampleCtxAt 1700003600000).now / 1000,
          (sampleCtxAt 1700003600000).now / 1000 + 604800⟩ ∧
      [aliceLoggedIn] = pre ++ u :: post ∧
      (refreshToken (sampleCtxAt 1700003600000) [aliceLoggedIn] (some ⟨.str aliceToken⟩)).1
        = pre ++ u' :: post ∧
      (∀ x ∈ pre, x._id ≠ u._id) ∧
      u'.refreshToken = some r ∧ u'.withoutSession = u.withoutSession :=
  ⟨by decide, refreshToken_success_frame _ _ _ (by decide)⟩

/-- C4 as stated fails: a body without a `refreshToken` field is answered 400, which is
neither 200 nor 401. -/
theorem refreshToken_missing_field_is_400 :
    (refreshToken sampleCtx [alice] (some ⟨.undefined⟩)).2.status = 400 ∧
      ¬ ((refreshToken sampleCtx [alice] (some ⟨.undefined⟩)).2.status = 200 ∨
        (refreshToken sampleCtx [alice] (some ⟨.undefined⟩)).2.status = 401) := by
  decide

/-- C4, amended. Every call of the refresh handler is answered 200 with a new token pair, or
401, or 400; and it is answered 400 exactly when the body is present and its `refreshToken`
field is missing or falsy. -/
theorem refreshToken_status (ctx : Ctx) (db : Store) (body : Option RefreshBody) :
    (((refreshToken ctx db body).2.status = 200 ∧
        ∃ a r, (refreshToken ctx db body).2.body = .obj [("success", .bool true),
          ("accessToken", .token a), ("refreshToken", .token r)]) ∨
      (refreshToken ctx db body).2.status = 401 ∨
      (refreshToken ctx db body).2.status = 400) ∧
    ((refreshToken ctx db body).2.status = 400 ↔
      ∃ b, body = some b ∧ truthy b.refreshToken = false) := by
  unfold refreshToken
  simp only [bind, Except.bind, pure, Except.pure, throw, throwThe, MonadExceptOf.throw]
  cases body with
  | none => simp
  | some b =>
    obtain ⟨tok⟩ := b
    simp only
    cases ht : truthy tok with
    | false => simp [ht]
    | true =>
      cases hv : jwtVerify tok ctx.JWT_REFRESH_SECRET ctx.now with
      | error e => simp [ht, hv]
      | ok c =>
        cases hf : findById ctx db c.id.toHexString with
        | error e => simp [ht, hv, hf]
        | ok ou =>
          cases ou with
          | none => simp [ht, hv, hf]
          | some u =>
            by_cases hs : storedToken u.refreshToken = tok
            · cases ha : generateAccessToken ctx u with
              | error e => simp [ht, hv, hf, hs, ha]
              | ok a =>
                cases hr : generateRefreshToken ctx u with
                | error e => simp [ht, hv, hf, hs, ha, hr]
                | ok r =>
                  cases hd : saveRefreshToken ctx db u r with
                  | error e => simp [ht, hv, hf, hs, ha, hr, hd]
                  | ok db' => simp [ht, hv, hf, hs, ha, hr, hd]
            · simp [ht, hv, hf, hs]

/-! ## Delete -/

/-- The guard of `deleteUser`: when the `:id` string is the string of the caller's id, the
answer is 400 and the collection is returned as it was. -/
theorem deleteUser_same_string (ctx : Ctx) (db : Store) (user : Claims) :
    deleteUser ctx db user user.id.toHexString
      = (db, ⟨400, message "You cannot delete your own account"⟩) := by
  simp [deleteUser, pure, Except.pure]

/-- C5 (the code at the failing input). The caller's token carries Alice's id, whose string
form is lower-case; the `:id` parameter spells the same id in upper case. The strings differ,
so the guard does not fire; the parameter casts to Alice's ObjectId, her document is deleted
and the answer is 200 `User deleted`. -/
theorem deleteUser_own_id_in_upper_case :
    aliceCaller.id = alice._id ∧
      aliceCaller.id.toHexString = "65a1b2c3d4e5f60718293a4b" ∧
      castObjectId "65A1B2C3D4E5F60718293A4B" = some alice._id ∧
      (deleteUser sampleCtx [alice] aliceCaller "65A1B2C3D4E5F60718293A4B").2.status = 200 ∧
      (deleteUser sampleCtx [alice] aliceCaller "65A1B2C3D4E5F60718293A4B").2.body.strAt "message"
        = some "User deleted" ∧
      (deleteUser sampleCtx [alice] aliceCaller "65A1B2C3D4E5F60718293A4B").1 = [] := by
  decide

/-! ## Login -/

/-- With a password that is a string, an unknown identifier and a wrong password are answered
alike: 400 `Invalid credentials`, the collection as it was. -/
theorem loginUser_invalid_credentials (ctx : Ctx) (db : Store) (identifier password : String)
    (hreads : ctx.dbReads = true)
    (h : db.find? (fun u => u.email = identifier || u.phone = identifier) = none ∨
      ∃ u, db.find? (fun u => u.email = identifier || u.phone = identifier) = some u ∧
        bcryptCompare (.str password) u.password = .ok false) :
    loginUser ctx db identifier (.str password) = (db, ⟨400, message "Invalid credentials"⟩) := by
  rcases h with hnone | ⟨u, hfind, hwrong⟩
  · simp [loginUser, bind, Except.bind, pure, Except.pure, findOne, hreads, hnone]
  · simp [loginUser, bind, Except.bind, pure, Except.pure, findOne, hreads, hfind, hwrong]

/-- C6 (the code at the failing input). Both requests pass `loginValidation` and carry the
number 123456 as password. For Alice's address `bcrypt.compare` throws and the answer is 500
`Server error`; for an address that nobody has the answer is 400 `Invalid credentials`. -/
theorem loginRoute_numeric_password_tells_users_apart :
    loginValidation ⟨.str "alice@example.com", .num 123456⟩ = [] ∧
      loginValidation ⟨.str "nobody@example.com", .num 123456⟩ = [] ∧
      (loginRoute sampleCtx [alice] ⟨.str "alice@example.com", .num 123456⟩).2.status = 500 ∧
      (loginRoute sampleCtx [alice] ⟨.str "alice@example.com", .num 123456⟩).2.body.strAt
        "message" = some "Server error" ∧
      (loginRoute sampleCtx [alice] ⟨.str "nobody@example.com", .num 123456⟩).2.status = 400 ∧
      (loginRoute sampleCtx [alice] ⟨.str "nobody@example.com", .num 123456⟩).2.body.strAt
        "message" = some "Invalid credentials" := by
  decide

/-- C7. After a successful login the response carries an access token and a refresh token;
the access token verifies under the access secret and the refresh token under the refresh
secret, at the clock of the request, and each decodes to the `_id` and the stored `role` of the
user that the identifier selects. -/
theorem loginUser_tokens_verify (ctx : Ctx) (db : Store) (identifier : String)
    (password : JVal String) (h : (loginUser ctx db identifier password).2.status = 200) :
    ∃ u a r ca cr,
      db.find? (fun u => u.email = identifier || u.phone = identifier) = some u ∧
      (loginUser ctx db identifier password).2.body.tokenAt "accessToken" = some a ∧
      (loginUser ctx db identifier password).2.body.tokenAt "refreshToken" = some r ∧
      jwtVerify (.str a) ctx.JWT_ACCESS_SECRET ctx.now = .ok ca ∧
      ca.id = u._id ∧ ca.role = u.role ∧
      jwtVerify (.str r) ctx.JWT_REFRESH_SECRET ctx.now = .ok cr ∧
      cr.id = u._id ∧ cr.role = u.role := by
  obtain ⟨u, a, r, db', hf, _, ha, hr, _, hout⟩ := loginUser_ok_inv ctx db identifier password h
  have hfind : db.find? (fun u => u.email = identifier || u.phone = identifier) = some u := by
    unfold findOne at hf
    split at hf
    · simpa using hf
    · simp at hf
  obtain ⟨hsa, rfl⟩ := jwtSign_ok _ _ _ _ _ _ ha
  obtain ⟨hsr, rfl⟩ := jwtSign_ok _ _ _ _ _ _ hr
  refine ⟨u, _, _, ⟨u._id, u.role, ctx.now / 1000, ctx.now / 1000 + 3600⟩,
    ⟨u._id, u.role, ctx.now / 1000, ctx.now / 1000 + 604800⟩, hfind, by rw [hout]; rfl,
    by rw [hout]; rfl, ?_, rfl, rfl, ?_, rfl, rfl⟩
  · simp [jwtVerify, hsa]
  · simp [jwtVerify, hsr]

/-- C7, at Alice's login. -/
theorem loginUser_tokens_verify_witness :
    (loginUser sampleCtx [alice] "alice@example.com" (.str "secret1")).2.status = 200 ∧
    ∃ u a r ca cr,
      [alice].find? (fun u => u.email = "alice@example.com" || u.phone = "alice@example.com")
        = some u ∧
      (loginUser sampleCtx [alice] "alice@example.com" (.str "secret1")).2.body.tokenAt
        "accessToken" = some a ∧
      (loginUser sampleCtx [alice] "alice@example.com" (.str "secret1")).2.body.tokenAt
        "refreshToken" = some r ∧
      jwtVerify (.str a) sampleCtx.JWT_ACCESS_SECRET sampleCtx.now = .ok ca ∧
      ca.id = u._id ∧ ca.role = u.role ∧
      jwtVerify (.str r) sampleCtx.JWT_REFRESH_SECRET sampleCtx.now = .ok cr ∧
      cr.id = u._id ∧ cr.role = u.role :=
  ⟨by decide, loginUser_tokens_verify _ _ _ _ (by decide)⟩

/-- C8 as stated fails. Alice's first login also moves the `updatedAt` of her document: with
`refreshToken` disregarded, the stored document still differs from the one before the call. -/
theorem loginUser_success_moves_updatedAt :
    (loginUser sampleCtx [alice] "alice@example.com" (.str "secret1")).2.status = 200 ∧
      (loginUser sampleCtx [alice] "alice@example.com"
          (.str "secret1")).1.map User.withoutRefreshToken
        ≠ [alice].map User.withoutRefreshToken ∧
      (loginUser sampleCtx [alice] "alice@example.com" (.str "secret1")).1.map User.updatedAt
        = [1700000000200] ∧
      [alice].map User.updatedAt = [1690000000000] := by
  decide

/-- C8, amended. After a successful login the document of the user that the identifier
selects stores the refresh token of the response and is otherwise unchanged except for
`updatedAt`; all other documents are unchanged; and the `user` object of the response has
exactly the keys `id`, `name`, `email`, `phone`, `role`, `profile_image`, filled from that
document. -/
theorem loginUser_success_frame (ctx : Ctx) (db : Store) (identifier : String)
    (password : JVal String) (hids : (db.map User._id).Nodup)
    (h : (loginUser ctx db identifier password).2.status = 200) :
    ∃ a r u u' pre post,
      db.find? (fun u => u.email = identifier || u.phone = identifier) = some u ∧
      (loginUser ctx db identifier password).2.body = .obj [("success", .bool true),
        ("accessToken", .token a), ("refreshToken", .token r), ("user", loginUserView u)] ∧
      (loginUserView u).keys = ["id", "name", "email", "phone", "role", "profile_image"] ∧
      loginUserView u = .obj [("id", .str u._id.toHexString), ("name", .str u.name),
        ("email", .str u.email), ("phone", .str u.phone), ("role", .str u.role),
        ("profile_image", .ofOption u.profile_image)] ∧
      db = pre ++ u :: post ∧ (loginUser ctx db identifier password).1 = pre ++ u' :: post ∧
      (∀ x ∈ pre, x._id ≠ u._id) ∧
      u'.refreshToken = some r ∧ u'.withoutSession = u.withoutSession := by
  obtain ⟨u, a, r, db', hf, _, _, _, hd, hout⟩ := loginUser_ok_inv ctx db identifier password h
  have hfind : db.find? (fun u => u.email = identifier || u.phone = identifier) = some u := by
    unfold findOne at hf
    split at hf
    · simpa using hf
    · simp at hf
  have hbyid := find_id_of_mem db u hids (List.mem_of_find?_eq_some hfind)
  obtain ⟨u', pre, post, hdb, hdb', hpre, htok, hsame⟩ :=
    saveRefreshToken_ok ctx db db' u r hbyid hd
  exact ⟨a, r, u, u', pre, post, hfind, by rw [hout], rfl, rfl, hdb, by rw [hout]; exact hdb',
    hpre, htok, hsame⟩

/-- C8, amended, at Alice's first login. -/
theorem loginUser_success_frame_witness :
    ([alice].map User._id).Nodup ∧
    (loginUser sampleCtx [alice] "alice@example.com" (.str "secret1")).2.status = 200 ∧
    ∃ a r u u' pre post,
      [alice].find? (fun u => u.email = "alice@example.com" || u.phone = "alice@example.com")
        = some u ∧
      (loginUser sampleCtx [alice] "alice@example.com" (.str "secret1")).2.body
        = .obj [("success", .bool true),
          ("accessToken", .token a), ("refreshToken", .token r), ("user", loginUserView u)] ∧
      (loginUserView u).keys = ["id", "name", "email", "phone", "role", "profile_image"] ∧
      loginUserView u = .obj [("id", .str u._id.toHexString), ("name", .str u.name),
        ("email", .str u.email), ("phone", .str u.phone), ("role", .str u.role),
        ("profile_image", .ofOption u.profile_image)] ∧
      [alice] = pre ++ u :: post ∧
      (loginUser sampleCtx [alice] "alice@example.com" (.str "secret1")).1 = pre ++ u' :: post ∧
      (∀ x ∈ pre, x._id ≠ u._id) ∧
      u'.refreshToken = some r ∧ u'.withoutSession = u.withoutSession :=
  ⟨by decide, by decide, loginUser_success_frame _ _ _ _ (by decide) (by decide)⟩

/-- C9 (the code at the failing input). Alice logs in and is issued `aliceToken`; 600 ms later,
in the same second, she logs in again (by phone) and is issued the very same token; a refresh
presenting `aliceToken` an hour later is answered 200, not 401. -/
theorem loginUser_twice_within_one_second :
    (loginUser sampleCtx [alice] "alice@example.com" (.str "secret1")).2.status = 200 ∧
      (loginUser sampleCtx [alice] "alice@example.com" (.str "secret1")).2.body.tokenAt
        "refreshToken" = some aliceToken ∧
      (loginUser sampleCtx [alice] "alice@example.com" (.str "secret1")).1 = [aliceLoggedIn] ∧
      (loginUser (sampleCtxAt 1700000000800) [aliceLoggedIn] "9876543210"
        (.str "secret1")).2.status = 200 ∧
      (loginUser (sampleCtxAt 1700000000800) [aliceLoggedIn] "9876543210"
        (.str "secret1")).2.body.tokenAt "refreshToken" = some aliceToken ∧
      (loginUser (sampleCtxAt 1700000000800) [aliceLoggedIn] "9876543210" (.str "secret1")).1
        = [aliceLoggedIn] ∧
      (refreshToken (sampleCtxAt 1700003600000) [aliceLoggedIn] (some ⟨.str aliceToken⟩)).2.status
        = 200 := by
  decide

/-! ## Register, then login -/

/-- C10 (the code at the failing input). `aliceForm` carries the address `Alice@Example.com`.
For every validator library that accepts this address and normalises it to
`alice@example.com`, the registration is answered 201 and stores the normalised address; the
login with the address as submitted and the right password is answered 400
`Invalid credentials`, while the login with the phone number is answered 200. -/
theorem register_then_login_with_submitted_email (lib : EmailLib)
    (hvalid : lib.isEmail "Alice@Example.com" = true)
    (hnorm : lib.normalizeEmail "Alice@Example.com" = "alice@example.com") :
    (registerRoute lib sampleCtx [] aliceForm .absent alice._id 7).2.status = 201 ∧
      (registerRoute lib sampleCtx [] aliceForm .absent alice._id 7).1 = [aliceRegistered] ∧
      (loginRoute (sampleCtxAt 1700000060000) [aliceRegistered]
        ⟨.str "Alice@Example.com", .str "secret1"⟩).2.status = 400 ∧
      (loginRoute (sampleCtxAt 1700000060000) [aliceRegistered]
        ⟨.str "Alice@Example.com", .str "secret1"⟩).2.body.strAt "message"
        = some "Invalid credentials" ∧
      (loginRoute (sampleCtxAt 1700000060000) [aliceRegistered]
        ⟨.str "9876543210", .str "secret1"⟩).2.status = 200 := by
  have htrim : trim "Alice@Example.com" = "Alice@Example.com" := by decide
  have herrs : registerValidation lib aliceForm = [] := by
    have hrest : registerValidation sampleEmailLib aliceForm = [] := by decide
    simp only [registerValidation, aliceForm, fieldStrings, fieldString, List.map, htrim,
      ruleErrors, List.filter, hvalid] at hrest ⊢
    exact hrest
  have hdata : registerSanitize lib aliceForm
      = registerSanitize sampleEmailLib aliceForm := by
    simp only [registerSanitize, aliceForm, sanitizeField, fieldString, htrim, hnorm]
    decide
  have hreg : registerRoute lib sampleCtx [] aliceForm .absent alice._id 7
      = registerRoute sampleEmailLib sampleCtx [] aliceForm .absent alice._id 7 := by
    have herrs' : registerValidation sampleEmailLib aliceForm = [] := by decide
    simp only [registerRoute, herrs, herrs', hdata]
  rw [hreg]
  decide

/-- C10, for a library that lower-cases addresses. -/
theorem register_then_login_with_submitted_email_witness :
    sampleEmailLib.isEmail "Alice@Example.com" = true ∧
      sampleEmailLib.normalizeEmail "Alice@Example.com" = "alice@example.com" ∧
      (registerRoute sampleEmailLib sampleCtx [] aliceForm .absent alice._id 7).2.status = 201 ∧
      (registerRoute sampleEmailLib sampleCtx [] aliceForm .absent alice._id 7).1
        = [aliceRegistered] ∧
      (loginRoute (sampleCtxAt 1700000060000) [aliceRegistered]
        ⟨.str "Alice@Example.com", .str "secret1"⟩).2.status = 400 ∧
      (loginRoute (sampleCtxAt 1700000060000) [aliceRegistered]
        ⟨.str "Alice@Example.com", .str "secret1"⟩).2.body.strAt "message"
        = some "Invalid credentials" ∧
      (loginRoute (sampleCtxAt 1700000060000) [aliceRegistered]
        ⟨.str "9876543210", .str "secret1"⟩).2.status = 200 :=
  ⟨by decide, by decide,
    register_then_login_with_submitted_email sampleEmailLib (by decide) (by decide)⟩

/-! ## What holds of reuse and of the round trip -/

/-- The first document with a given `_id` in a collection that is split around it. -/
theorem find_split (pre post : Store) (u : User) (id : ObjectId) (hid : u._id = id)
    (hpre : ∀ x ∈ pre, x._id ≠ id) :
    (pre ++ u :: post).find? (fun x => x._id = id) = some u := by
  induction pre with
  | nil => simp [List.find?, hid]
  | cons r rest ih =>
    have hr : r._id ≠ id := hpre r (List.mem_cons_self _ _)
    have hrest : ∀ x ∈ rest, x._id ≠ id := fun x hx => hpre x (List.mem_cons_of_mem _ hx)
    simp [List.find?, hr, ih hrest]

/-- Single use once the clock has moved on. If a refresh succeeds with a token whose `iat` is
not the second of that request, the token issued differs from the one presented, and every
later refresh presenting the old token again is answered 401 and changes nothing. -/
theorem refreshToken_single_use_in_later_second (ctx ctx' : Ctx) (db : Store) (c : Claims)
    (hlater : c.iat ≠ ctx.now / 1000)
    (h : (refreshToken ctx db (some ⟨.str (.jwt ctx.JWT_REFRESH_SECRET c)⟩)).2.status = 200) :
    (refreshToken ctx' (refreshToken ctx db (some ⟨.str (.jwt ctx.JWT_REFRESH_SECRET c)⟩)).1
        (some ⟨.str (.jwt ctx.JWT_REFRESH_SECRET c)⟩)).2.status = 401 ∧
      (refreshToken ctx' (refreshToken ctx db (some ⟨.str (.jwt ctx.JWT_REFRESH_SECRET c)⟩)).1
        (some ⟨.str (.jwt ctx.JWT_REFRESH_SECRET c)⟩)).1
        = (refreshToken ctx db (some ⟨.str (.jwt ctx.JWT_REFRESH_SECRET c)⟩)).1 := by
  obtain ⟨tok, c₁, u, a, r, db', hbody, _, hv, hf, _, _, hr, hd, hout⟩ :=
    refreshToken_ok_inv ctx db _ h
  have htok : tok = .str (.jwt ctx.JWT_REFRESH_SECRET c) := by
    simp only [Option.some.injEq, RefreshBody.mk.injEq] at hbody
    exact hbody.symm
  subst htok
  have hc : c₁ = c := by
    have := (truthy_of_jwtVerify _ _ _ c₁ hv).2.1
    simp only [JVal.str.injEq, Token.jwt.injEq, true_and] at this
    exact this.symm
  subst hc
  have hfind : db.find? (fun x => x._id = c₁.id) = some u := by
    rw [findById_toHexString] at hf
    unfold findOne at hf
    split at hf
    · simpa using hf
    · simp at hf
  have hid : u._id = c₁.id := by
    have := List.find?_some hfind
    simpa using this
  rw [← hid] at hfind
  obtain ⟨u', pre, post, _, hdb', hpre, hstored, hsame⟩ :=
    saveRefreshToken_ok ctx db db' u r hfind hd
  have hid' : u'._id = c₁.id := by
    have := congrArg User._id hsame
    simpa [User.withoutSession, hid] using this
  have hfind' : db'.find? (fun x => x._id = c₁.id) = some u' := by
    rw [hdb']
    exact find_split pre post u' c₁.id hid' (by rw [← hid]; exact hpre)
  have hne : storedToken u'.refreshToken ≠ .str (.jwt ctx.JWT_REFRESH_SECRET c₁) := by
    rw [hstored, (jwtSign_ok _ _ _ _ _ _ hr).2]
    simp only [storedToken, ne_eq, JVal.str.injEq, Token.jwt.injEq, true_and]
    intro heq
    exact hlater (congrArg Claims.iat heq).symm
  rw [hout]
  simp only
  unfold refreshToken
  simp only [bind, Except.bind, pure, Except.pure, truthy]
  cases hv' : jwtVerify (.str (.jwt ctx.JWT_REFRESH_SECRET c₁)) ctx'.JWT_REFRESH_SECRET ctx'.now with
  | error e => simp
  | ok c₂ =>
    have hc₂ : c₂ = c₁ := by
      have := (truthy_of_jwtVerify _ _ _ c₂ hv').2.1
      simp only [JVal.str.injEq, Token.jwt.injEq] at this
      exact this.2.symm
    subst hc₂
    by_cases hreads : ctx'.dbReads = true
    · simp [findById_toHexString, findOne, hreads, hfind', hne]
    · simp [findById_toHexString, findOne, hreads]

/-- Inversion of a successful registration. -/
theorem registerUser_ok_inv (ctx : Ctx) (db : Store) (data : RegisterData) (file : Option String)
    (newId : ObjectId) (salt : Nat)
    (h : (registerUser ctx db data file newId salt).2.status = 201) :
    db.find? (fun u => u.email = data.email) = none ∧
      db.find? (fun u => u.phone = data.phone) = none ∧
      (∀ x ∈ db, x._id ≠ newId) ∧
      schemaValid (newUserDoc ctx data file newId salt) = true ∧
      registerUser ctx db data file newId salt
        = (db ++ [newUserDoc ctx data file newId salt],
          ⟨201, .obj [("success", .bool true), ("message", .str "User registered"),
            ("user", registerUserView (newUserDoc ctx data file newId salt))]⟩) := by
  unfold registerUser at h ⊢
  simp only [bind, Except.bind, pure, Except.pure] at h ⊢
  cases he : findOne ctx db (fun u => u.email = data.email) with
  | error e => simp [he] at h
  | ok oe =>
    cases oe with
    | some x => simp [he] at h
    | none =>
      cases hp : findOne ctx db (fun u => u.phone = data.phone) with
      | error e => simp [he, hp] at h
      | ok op =>
        cases op with
        | some x => simp [he, hp] at h
        | none =>
          cases hc : create ctx db (newUserDoc ctx data file newId salt) with
          | error e => simp [he, hp, hc] at h
          | ok db' =>
            have hreads : ctx.dbReads = true := by
              unfold findOne at he
              split at he
              · assumption
              · simp at he
            have he' : db.find? (fun u => u.email = data.email) = none := by
              simpa [findOne, hreads] using he
            have hp' : db.find? (fun u => u.phone = data.phone) = none := by
              simpa [findOne, hreads] using hp
            unfold create at hc
            split at hc
            · simp at hc
            · split at hc
              · simp at hc
              · rename_i hvalid
                split at hc
                · simp at hc
                · rename_i hdup
                  simp only [Except.ok.injEq] at hc
                  subst hc
                  refine ⟨he', hp', ?_, by simpa using hvalid, by simp [he, hp]⟩
                  intro x hx heq
                  apply hdup
                  simp only [List.any_eq_true]
                  exact ⟨x, hx, by simp [heq, newUserDoc]⟩

/-- A login succeeds when the identifier selects a document whose hash was computed from the
password, both secrets are set and the store is healthy. -/
theorem loginUser_ok (ctx : Ctx) (db : Store) (identifier password : String) (u : User)
    (salt : Nat)
    (hfind : db.find? (fun u => u.email = identifier || u.phone = identifier) = some u)
    (hpw : u.password = bcryptHash password salt)
    (hsa : ctx.JWT_ACCESS_SECRET ≠ "") (hsr : ctx.JWT_REFRESH_SECRET ≠ "")
    (hreads : ctx.dbReads = true) (hwrites : ctx.dbWrites = true) :
    (loginUser ctx db identifier (.str password)).2.status = 200 := by
  unfold loginUser
  simp only [bind, Except.bind, pure, Except.pure, findOne, hreads, hfind, if_true,
    bcryptCompare, hpw, bcryptHash, beq_self_eq_true, Bool.not_true, Bool.false_eq_true,
    if_false, generateAccessToken, generateRefreshToken, jwtSign, hsa, hsr, saveRefreshToken,
    hwrites]
  by_cases hsame : u.refreshToken = some (Token.jwt ctx.JWT_REFRESH_SECRET
      ⟨u._id, u.role, ctx.now / 1000, ctx.now / 1000 + 604800⟩)
  · simp [hsame]
  · simp [hsame]

/-- Round trip on the stored identity. After a registration answered 201, a login with the
email as stored (trimmed and normalised) and the password, and a login with the stored phone
number and the password, are both answered 200; provided both secrets are set, the store is
healthy, and no older document has the new email as its phone number or the new phone number
as its email. -/
theorem register_then_login_stored_identity (ctx ctx' : Ctx) (db : Store) (data : RegisterData)
    (file : Option String) (newId : ObjectId) (salt : Nat)
    (hreg : (registerUser ctx db data file newId salt).2.status = 201)
    (hcross : ∀ x ∈ db, x.phone ≠ data.email ∧ x.email ≠ data.phone)
    (hsa : ctx'.JWT_ACCESS_SECRET ≠ "") (hsr : ctx'.JWT_REFRESH_SECRET ≠ "")
    (hreads : ctx'.dbReads = true) (hwrites : ctx'.dbWrites = true) :
    (loginUser ctx' (registerUser ctx db data file newId salt).1 data.email
        (.str data.password)).2.status = 200 ∧
      (loginUser ctx' (registerUser ctx db data file newId salt).1 data.phone
        (.str data.password)).2.status = 200 := by
  obtain ⟨he, hp, _, _, hout⟩ := registerUser_ok_inv ctx db data file newId salt hreg
  rw [hout]
  simp only
  rw [List.find?_eq_none] at he hp
  constructor
  · apply loginUser_ok ctx' _ data.email data.password (newUserDoc ctx data file newId salt) salt
      _ rfl hsa hsr hreads hwrites
    rw [List.find?_append]
    have hnone : db.find? (fun u => u.email = data.email || u.phone = data.email) = none := by
      rw [List.find?_eq_none]
      intro x hx
      have h1 := he x hx
      have h2 := (hcross x hx).1
      simp at h1
      simp [h1, h2]
    simp [hnone, List.find?, newUserDoc]
  · apply loginUser_ok ctx' _ data.phone data.password (newUserDoc ctx data file newId salt) salt
      _ rfl hsa hsr hreads hwrites
    rw [List.find?_append]
    have hnone : db.find? (fun u => u.email = data.phone || u.phone = data.phone) = none := by
      rw [List.find?_eq_none]
      intro x hx
      have h1 := hp x hx
      have h2 := (hcross x hx).2
      simp at h1
      simp [h1, h2]
    simp [hnone, List.find?, newUserDoc]


/-! ## Registration -/

/-- Whether `User.create` accepts a document: the write succeeds, the document passes the
schema, and no stored document has its `_id`, email or phone. -/
theorem create_cases (ctx : Ctx) (db : Store) (doc : User) :
    (create ctx db doc = .ok (db ++ [doc]) ∧ ctx.dbWrites = true ∧ schemaValid doc = true ∧
        ∀ x ∈ db, x._id ≠ doc._id ∧ x.email ≠ doc.email ∧ x.phone ≠ doc.phone) ∨
      ((∃ e, create ctx db doc = .error e) ∧
        ¬ (ctx.dbWrites = true ∧ schemaValid doc = true ∧
          ∀ x ∈ db, x._id ≠ doc._id ∧ x.email ≠ doc.email ∧ x.phone ≠ doc.phone)) := by
  unfold create
  by_cases hw : ctx.dbWrites = true
  · by_cases hv : schemaValid doc = true
    · by_cases hd : (db.any fun u =>
          u._id = doc._id || u.email = doc.email || u.phone = doc.phone) = true
      · right
        refine ⟨⟨"E11000 duplicate key", by simp [hw, hv, hd]⟩, ?_⟩
        rintro ⟨_, _, hall⟩
        simp only [List.any_eq_true, Bool.or_eq_true, decide_eq_true_eq] at hd
        obtain ⟨x, hx, hx'⟩ := hd
        have := hall x hx
        tauto
      · left
        refine ⟨by simp [hw, hv, hd], hw, hv, ?_⟩
        intro x hx
        simp only [List.any_eq_true, Bool.or_eq_true, decide_eq_true_eq, not_exists, not_and,
          not_or] at hd
        have := hd x hx
        tauto
    · right
      exact ⟨⟨"ValidationError", by simp [hw, hv]⟩, fun h => hv h.2.1⟩
  · right
    exact ⟨⟨"MongoError", by simp [hw]⟩, fun h => hw h.1⟩

/-- A registration that is not answered 201 returns the collection as it was. -/
theorem registerUser_store_unchanged (ctx : Ctx) (db : Store) (data : RegisterData)
    (file : Option String) (newId : ObjectId) (salt : Nat)
    (h : (registerUser ctx db data file newId salt).2.status ≠ 201) :
    (registerUser ctx db data file newId salt).1 = db := by
  unfold registerUser at h ⊢
  simp only [bind, Except.bind, pure, Except.pure] at h ⊢
  cases he : findOne ctx db (fun u => u.email = data.email) with
  | error e => simp [he]
  | ok oe =>
    cases oe with
    | some x => simp [he]
    | none =>
      cases hp : findOne ctx db (fun u => u.phone = data.phone) with
      | error e => simp [he, hp]
      | ok op =>
        cases op with
        | some x => simp [he, hp]
        | none =>
          cases hc : create ctx db (newUserDoc ctx data file newId salt) with
          | error e => simp [he, hp, hc]
          | ok db' => simp [he, hp, hc] at h

/-- C11. When the store answers reads and a stored document has the email of the registration,
or one has its phone, `registerUser` answers 400 (`Email already registered` or
`Phone already registered`) and returns the collection as it was. -/
theorem registerUser_rejects_duplicate (ctx : Ctx) (db : Store) (data : RegisterData)
    (file : Option String) (newId : ObjectId) (salt : Nat) (hreads : ctx.dbReads = true)
    (hdup : (∃ u ∈ db, u.email = data.email) ∨ (∃ u ∈ db, u.phone = data.phone)) :
    (registerUser ctx db data file newId salt).2.status = 400 ∧
      (registerUser ctx db data file newId salt).1 = db ∧
      ((registerUser ctx db data file newId salt).2.body = message "Email already registered" ∨
        (registerUser ctx db data file newId salt).2.body = message "Phone already registered") := by
  unfold registerUser
  simp only [bind, Except.bind, pure, Except.pure, findOne, hreads, if_true]
  cases he : db.find? (fun u => decide (u.email = data.email)) with
  | some x => simp
  | none =>
    cases hp : db.find? (fun u => decide (u.phone = data.phone)) with
    | some x => simp
    | none =>
      exfalso
      rw [List.find?_eq_none] at he hp
      rcases hdup with ⟨u, hu, heq⟩ | ⟨u, hu, heq⟩
      · exact he u hu (by simpa using heq)
      · exact hp u hu (by simpa using heq)

/-- C11, at a second registration of Alice's phone number under a new email. -/
theorem registerUser_rejects_duplicate_witness :
    sampleCtx.dbReads = true ∧
      ((∃ u ∈ [alice, bob], u.email = (carolData.withPhone "9876543210").email) ∨
        (∃ u ∈ [alice, bob], u.phone = (carolData.withPhone "9876543210").phone)) ∧
      (registerUser sampleCtx [alice, bob] (carolData.withPhone "9876543210") none carolId 5).2.status
        = 400 ∧
      (registerUser sampleCtx [alice, bob] (carolData.withPhone "9876543210") none carolId 5).1
        = [alice, bob] ∧
      ((registerUser sampleCtx [alice, bob] (carolData.withPhone "9876543210") none
          carolId 5).2.body = message "Email already registered" ∨
        (registerUser sampleCtx [alice, bob] (carolData.withPhone "9876543210") none
          carolId 5).2.body = message "Phone already registered") :=
  ⟨rfl, Or.inr ⟨alice, by decide, rfl⟩,
    registerUser_rejects_duplicate _ _ _ _ _ _ rfl (Or.inr ⟨alice, by decide, rfl⟩)⟩

/-- The answer to a registration does not depend on the password submitted, nor on the salt
drawn. -/
theorem registerUser_response_ignores_password (ctx : Ctx) (db : Store) (data : RegisterData)
    (file : Option String) (newId : ObjectId) (salt : Nat) (password : String) (salt' : Nat) :
    (registerUser ctx db (data.withPassword password) file newId salt').2
      = (registerUser ctx db data file newId salt).2 := by
  have hvalid : schemaValid (newUserDoc ctx (data.withPassword password) file newId salt')
      = schemaValid (newUserDoc ctx data file newId salt) := by
    simp [schemaValid, newUserDoc, RegisterData.withPassword, bcryptHash]
  have hview : registerUserView (newUserDoc ctx (data.withPassword password) file newId salt')
      = registerUserView (newUserDoc ctx data file newId salt) := rfl
  unfold registerUser
  simp only [bind, Except.bind, pure, Except.pure, RegisterData.withPassword]
  cases he : findOne ctx db (fun u => u.email = data.email) with
  | error e => simp
  | ok oe =>
    cases oe with
    | some x => simp
    | none =>
      cases hp : findOne ctx db (fun u => u.phone = data.phone) with
      | error e => simp
      | ok op =>
        cases op with
        | some x => simp
        | none =>
          simp only [Option.isSome_none, Bool.false_eq_true, if_false]
          rcases create_cases ctx db (newUserDoc ctx (data.withPassword password) file newId salt')
            with ⟨h1, c1⟩ | ⟨⟨e1, h1⟩, c1⟩ <;>
          rcases create_cases ctx db (newUserDoc ctx data file newId salt)
            with ⟨h2, c2⟩ | ⟨⟨e2, h2⟩, c2⟩
          · simp only [RegisterData.withPassword] at h1
            rw [h1, h2]
            simp only [RegisterData.withPassword] at hview
            simp [hview]
          · exact absurd (by rw [← hvalid]; exact c1) c2
          · exact absurd (by rw [hvalid]; exact c2) c1
          · simp only [RegisterData.withPassword] at h1
            rw [h1, h2]

/-- C12. After a registration answered 201 the collection has one more document, whose
`password` is the bcrypt hash of the submitted password under the salt drawn, and not the
plaintext. The body is `success`, `message` and a `user` object with exactly the keys `id`,
`name`, `email`, `phone`, `profile_image`, filled from that document; no hash and no token
occurs in it; and the answer is the same whatever password is submitted. -/
theorem registerUser_success_hides_password (ctx : Ctx) (db : Store) (data : RegisterData)
    (file : Option String) (newId : ObjectId) (salt : Nat)
    (h : (registerUser ctx db data file newId salt).2.status = 201) :
    ∃ doc, (registerUser ctx db data file newId salt).1 = db ++ [doc] ∧
      doc.password = bcryptHash data.password salt ∧ doc.password ≠ .raw data.password ∧
      (registerUser ctx db data file newId salt).2.body
        = .obj [("success", .bool true), ("message", .str "User registered"),
          ("user", .obj [("id", .str doc._id.toHexString), ("name", .str doc.name),
            ("email", .str doc.email), ("phone", .str doc.phone),
            ("profile_image", .ofOption doc.profile_image)])] ∧
      (registerUser ctx db data file newId salt).2.body.hashes = [] ∧
      (registerUser ctx db data file newId salt).2.body.tokens = [] ∧
      ∀ password salt', (registerUser ctx db (data.withPassword password) file newId salt').2
        = (registerUser ctx db data file newId salt).2 := by
  obtain ⟨_, _, _, _, hout⟩ := registerUser_ok_inv ctx db data file newId salt h
  refine ⟨newUserDoc ctx data file newId salt, by rw [hout], rfl, ?_, by rw [hout]; rfl, ?_, ?_,
    fun password salt' =>
      registerUser_response_ignores_password ctx db data file newId salt password salt'⟩
  · simp [newUserDoc, bcryptHash]
  · rw [hout]
    cases hf : file <;>
      simp [registerUserView, newUserDoc, Json.hashes, Json.hashesOfFields, Json.ofOption, hf]
  · rw [hout]
    cases hf : file <;>
      simp [registerUserView, newUserDoc, Json.tokens, Json.tokensOfFields, Json.ofOption, hf]

/-- C12, at the registration of Carol. -/
theorem registerUser_success_hides_password_witness :
    (registerUser sampleCtx [alice, bob] carolData none carolId 5).2.status = 201 ∧
    ∃ doc, (registerUser sampleCtx [alice, bob] carolData none carolId 5).1
        = [alice, bob] ++ [doc] ∧
      doc.password = bcryptHash carolData.password 5 ∧ doc.password ≠ .raw carolData.password ∧
      (registerUser sampleCtx [alice, bob] carolData none carolId 5).2.body
        = .obj [("success", .bool true), ("message", .str "User registered"),
          ("user", .obj [("id", .str doc._id.toHexString), ("name", .str doc.name),
            ("email", .str doc.email), ("phone", .str doc.phone),
            ("profile_image", .ofOption doc.profile_image)])] ∧
      (registerUser sampleCtx [alice, bob] carolData none carolId 5).2.body.hashes = [] ∧
      (registerUser sampleCtx [alice, bob] carolData none carolId 5).2.body.tokens = [] ∧
      ∀ password salt',
        (registerUser sampleCtx [alice, bob] (carolData.withPassword password) none carolId
          salt').2
        = (registerUser sampleCtx [alice, bob] carolData none carolId 5).2 :=
  ⟨by decide, registerUser_success_hides_password _ _ _ _ _ _ (by decide)⟩

/-- The answers of `validate` have status 400. -/
theorem validate_status (errors : List FieldError) (r : Response) (h : validate errors = some r) :
    r.status = 400 := by
  unfold validate at h
  split at h
  · simp at h
  · simp only [Option.some.injEq] at h
    rw [← h]

/-- The two outcomes of `registerUserReq`: 201 and one added document, with the role `user`
and no refresh token, or another answer and the collection as it was. -/
theorem registerUserReq_cases (ctx : Ctx) (db : Store) (fields : RegisterFields)
    (file : Option String) (newId : ObjectId) (salt : Nat) :
    ((registerUserReq ctx db fields file newId salt).2.status = 201 ∧
        ∃ doc, (registerUserReq ctx db fields file newId salt).1 = db ++ [doc] ∧
          doc.role = "user" ∧ doc.refreshToken = none) ∨
      ((registerUserReq ctx db fields file newId salt).2.status ≠ 201 ∧
        (registerUserReq ctx db fields file newId salt).1 = db) := by
  unfold registerUserReq
  simp only [bind, Except.bind, pure, Except.pure, throw, throwThe, MonadExceptOf.throw]
  cases he : findOne ctx db (fun u => fields.email.selects u.email) with
  | error e => exact Or.inr (by simp)
  | ok oe =>
    cases oe with
    | some x => exact Or.inr (by simp)
    | none =>
      cases hp : findOne ctx db (fun u => fields.phone.selects u.phone) with
      | error e => exact Or.inr (by simp)
      | ok op =>
        cases op with
        | some x => exact Or.inr (by simp)
        | none =>
          cases hpw : fields.password with
          | str p =>
            cases hd : castRegisterData fields p with
            | error e => exact Or.inr (by simp [hd])
            | ok data =>
              cases hc : create ctx db (newUserDoc ctx data file newId salt) with
              | error e => exact Or.inr (by simp [hd, hc])
              | ok db' =>
                rcases create_cases ctx db (newUserDoc ctx data file newId salt) with
                  ⟨hok, _⟩ | ⟨⟨e, herr⟩, _⟩
                · rw [hok] at hc
                  simp only [Except.ok.injEq] at hc
                  subst hc
                  exact Or.inl ⟨by simp [hd, hok], newUserDoc ctx data file newId salt,
                    by simp [hd, hok], rfl, rfl⟩
                · rw [herr] at hc
                  cases hc
          | undefined => exact Or.inr (by simp)
          | null => exact Or.inr (by simp)
          | bool b => exact Or.inr (by simp)
          | num n => exact Or.inr (by simp)
          | object r l => exact Or.inr (by simp)
          | arr items => exact Or.inr (by simp)

/-- C13. Whatever the body of a registration request, a `role` field included, the request
is either answered 201 and has added one document, whose `role` is `user` and whose
`refreshToken` is `null`, or it is not answered 201 and has left the collection as it was. -/
theorem registerRoute_role_and_session (lib : EmailLib) (ctx : Ctx) (db : Store)
    (body : RegisterBody) (upload : Upload) (newId : ObjectId) (salt : Nat) :
    ((registerRoute lib ctx db body upload newId salt).2.status = 201 ∧
        ∃ doc, (registerRoute lib ctx db body upload newId salt).1 = db ++ [doc] ∧
          doc.role = "user" ∧ doc.refreshToken = none) ∨
      ((registerRoute lib ctx db body upload newId salt).2.status ≠ 201 ∧
        (registerRoute lib ctx db body upload newId salt).1 = db) := by
  have hafter : ∀ file,
      ((match validate (registerValidation lib body) with
          | some r => (db, r)
          | none => registerUserReq ctx db (registerSanitize lib body) file newId salt).2.status
            = 201 ∧
        ∃ doc, (match validate (registerValidation lib body) with
          | some r => (db, r)
          | none => registerUserReq ctx db (registerSanitize lib body) file newId salt).1
            = db ++ [doc] ∧ doc.role = "user" ∧ doc.refreshToken = none) ∨
      ((match validate (registerValidation lib body) with
          | some r => (db, r)
          | none => registerUserReq ctx db (registerSanitize lib body) file newId salt).2.status
            ≠ 201 ∧
        (match validate (registerValidation lib body) with
          | some r => (db, r)
          | none => registerUserReq ctx db (registerSanitize lib body) file newId salt).1
            = db) := by
    intro file
    cases hv : validate (registerValidation lib body) with
    | some r =>
      right
      have := validate_status _ _ hv
      simp [this]
    | none => exact registerUserReq_cases ctx db _ file newId salt
  unfold registerRoute
  cases upload with
  | refused e =>
    right
    simp [expressError]
  | absent =>
    simp only [Upload.file]
    exact hafter none
  | stored f =>
    simp only [Upload.file]
    exact hafter (some f)

/-- The `role` field of a registration form is not read: the form `adminForm`, which asks for
`admin`, creates the same document as `aliceForm`, with the role `user`. -/
theorem registerRoute_ignores_role :
    adminForm.role = some "admin" ∧
      (registerRoute sampleEmailLib sampleCtx [] adminForm .absent alice._id 7).2.status = 201 ∧
      (registerRoute sampleEmailLib sampleCtx [] adminForm .absent alice._id 7).1
        = [aliceRegistered] ∧
      aliceRegistered.role = "user" ∧ aliceRegistered.refreshToken = none := by
  decide

/-! ## The uniqueness invariant -/

/-- Rewriting a document with a function that keeps a field keeps the column of that field. -/
theorem updateOne_map_of_preserves {β : Type} (g : User → β) (f : User → User)
    (hf : ∀ u, g (f u) = g u) (db : Store) (id : ObjectId) :
    (updateOne db id f).map g = db.map g := by
  induction db with
  | nil => rfl
  | cons r rest ih =>
    unfold updateOne
    split
    · simp [hf]
    · simp [ih]

/-- Storing a refresh token changes no email and no phone. -/
theorem saveRefreshToken_identities (ctx : Ctx) (db db' : Store) (u : User) (t : Token)
    (h : saveRefreshToken ctx db u t = .ok db') :
    db'.map User.email = db.map User.email ∧ db'.map User.phone = db.map User.phone := by
  unfold saveRefreshToken at h
  split at h
  · split at h
    · simp only [Except.ok.injEq] at h
      subst h
      exact ⟨rfl, rfl⟩
    · simp only [Except.ok.injEq] at h
      subst h
      exact ⟨updateOne_map_of_preserves User.email
          (fun r => { r with refreshToken := some t, updatedAt := ctx.now }) (fun _ => rfl) _ _,
        updateOne_map_of_preserves User.phone
          (fun r => { r with refreshToken := some t, updatedAt := ctx.now }) (fun _ => rfl) _ _⟩
  · simp at h

/-- A login changes no email and no phone. -/
theorem loginUser_identities (ctx : Ctx) (db : Store) (identifier : String)
    (password : JVal String) :
    (loginUser ctx db identifier password).1.map User.email = db.map User.email ∧
      (loginUser ctx db identifier password).1.map User.phone = db.map User.phone := by
  unfold loginUser
  simp only [bind, Except.bind, pure, Except.pure]
  cases hf : findOne ctx db (fun u => u.email = identifier || u.phone = identifier) with
  | error e => simp [hf]
  | ok ou =>
    cases ou with
    | none => simp [hf]
    | some u =>
      cases hc : bcryptCompare password u.password with
      | error e => simp [hf, hc]
      | ok b =>
        cases b with
        | false => simp [hf, hc]
        | true =>
          cases ha : generateAccessToken ctx u with
          | error e => simp [hf, hc, ha]
          | ok a =>
            cases hr : generateRefreshToken ctx u with
            | error e => simp [hf, hc, ha, hr]
            | ok r =>
              cases hd : saveRefreshToken ctx db u r with
              | error e => simp [hf, hc, ha, hr, hd]
              | ok db' => simpa [hf, hc, ha, hr, hd] using saveRefreshToken_identities ctx db db' u r hd

/-- A refresh changes no email and no phone. -/
theorem refreshToken_identities (ctx : Ctx) (db : Store) (body : Option RefreshBody) :
    (refreshToken ctx db body).1.map User.email = db.map User.email ∧
      (refreshToken ctx db body).1.map User.phone = db.map User.phone := by
  by_cases h : (refreshToken ctx db body).2.status = 200
  · obtain ⟨_, _, u, _, r, db', _, _, _, _, _, _, _, hd, hout⟩ := refreshToken_ok_inv ctx db body h
    rw [hout]
    exact saveRefreshToken_identities ctx db db' u r hd
  · unfold refreshToken at h ⊢
    simp only [bind, Except.bind, pure, Except.pure, throw, throwThe, MonadExceptOf.throw] at h ⊢
    cases body with
    | none => simp
    | some b =>
      obtain ⟨tok⟩ := b
      simp only at h ⊢
      cases ht : truthy tok with
      | false => simp [ht]
      | true =>
        cases hv : jwtVerify tok ctx.JWT_REFRESH_SECRET ctx.now with
        | error e => simp [ht, hv]
        | ok c =>
          cases hf : findById ctx db c.id.toHexString with
          | error e => simp [ht, hv, hf]
          | ok ou =>
            cases ou with
            | none => simp [ht, hv, hf]
            | some u =>
              by_cases hs : storedToken u.refreshToken = tok
              · cases ha : generateAccessToken ctx u with
                | error e => simp [ht, hv, hf, hs, ha]
                | ok a =>
                  cases hr : generateRefreshToken ctx u with
                  | error e => simp [ht, hv, hf, hs, ha, hr]
                  | ok r =>
                    cases hd : saveRefreshToken ctx db u r with
                    | error e => simp [ht, hv, hf, hs, ha, hr, hd]
                    | ok db' => simp [ht, hv, hf, hs, ha, hr, hd] at h
              · simp [ht, hv, hf, hs]

/-- After a deletion the collection is a sublist of the one before. -/
theorem deleteUser_sublist (ctx : Ctx) (db : Store) (user : Claims) (id : String) :
    (deleteUser ctx db user id).1.Sublist db := by
  unfold deleteUser
  simp only [bind, Except.bind, pure, Except.pure]
  by_cases hself : user.id.toHexString = id
  · simp [hself]
  · cases hd : findByIdAndDelete ctx db id with
    | error e => simp [hself, hd]
    | ok r =>
      obtain ⟨u, db'⟩ := r
      have hsub : db'.Sublist db := by
        unfold findByIdAndDelete at hd
        split at hd
        · simp at hd
        · split at hd
          · simp only [Except.ok.injEq, Prod.mk.injEq] at hd
            rw [← hd.2]
            exact List.eraseP_sublist _
          · simp at hd
      cases u <;> simp [hself, hd, hsub]

/-- Replacing one document keeps a column free of duplicates when no other document has the
new value. -/
theorem nodup_map_replace {β : Type} (g : User → β) (pre post : Store) (u v : User)
    (h : ((pre ++ u :: post).map g).Nodup) (hv : ∀ x ∈ pre ++ post, g x ≠ g v) :
    ((pre ++ v :: post).map g).Nodup := by
  rw [List.map_append, List.map_cons, List.nodup_middle] at h ⊢
  rw [List.nodup_cons] at h ⊢
  refine ⟨?_, h.2⟩
  intro hmem
  rw [← List.map_append, List.mem_map] at hmem
  obtain ⟨x, hx, hgx⟩ := hmem
  exact hv x hx hgx

/-- A successful `findByIdAndUpdate` keeps emails and phones unique. -/
theorem findByIdAndUpdate_unique (ctx : Ctx) (db db' : Store) (id : String) (f : User → User)
    (r : Option User) (hu : uniqueIdentity db)
    (h : findByIdAndUpdate ctx db id f = .ok (r, db')) : uniqueIdentity db' := by
  unfold findByIdAndUpdate at h
  split at h
  · simp at h
  · rename_i o _
    split at h
    · simp at h
    · split at h
      · simp only [Except.ok.injEq, Prod.mk.injEq] at h
        rw [← h.2]
        exact hu
      · rename_i u hfind
        split at h
        · simp at h
        · rename_i hcheck
          simp only [Except.ok.injEq, Prod.mk.injEq] at h
          obtain ⟨pre, post, hdb, hpre, hid, hupd⟩ := updateOne_split db o u hfind
          rw [← h.2, hupd f]
          have herase : (db.eraseP fun x => x._id = o) = pre ++ post := by
            rw [hdb, List.eraseP_append_right _ (by simpa using hpre),
              List.eraseP_cons_of_pos (by simpa using hid)]
          rw [herase] at hcheck
          simp only [List.any_eq_true, Bool.or_eq_true, decide_eq_true_eq, not_exists, not_and,
            not_or] at hcheck
          rw [hdb] at hu
          exact ⟨nodup_map_replace User.email pre post u (f u) hu.1 fun x hx => (hcheck x hx).1,
            nodup_map_replace User.phone pre post u (f u) hu.2 fun x hx => (hcheck x hx).2⟩

/-- An update keeps emails and phones unique. -/
theorem updateUser_unique (ctx : Ctx) (db : Store) (id : String) (data : UpdateBody)
    (file : Option String) (salt : Nat) (hu : uniqueIdentity db) :
    uniqueIdentity (updateUser ctx db id data file salt).1 := by
  unfold updateUser
  simp only [bind, Except.bind, pure, Except.pure]
  cases hp : updatePassword data.password salt with
  | error e => simpa [hp] using hu
  | ok hashed =>
    simp only [hp]
    generalize hf : applyUpdate data _ hashed ctx.now = f
    cases hq : findByIdAndUpdate ctx db id f with
    | error e => simpa [hq] using hu
    | ok r =>
      obtain ⟨user, db'⟩ := r
      have := findByIdAndUpdate_unique ctx db db' id f user hu hq
      cases user <;> simpa [hq] using this

/-- A registration keeps emails and phones unique. -/
theorem registerUser_unique (ctx : Ctx) (db : Store) (data : RegisterData)
    (file : Option String) (newId : ObjectId) (salt : Nat) (hu : uniqueIdentity db) :
    uniqueIdentity (registerUser ctx db data file newId salt).1 := by
  by_cases h : (registerUser ctx db data file newId salt).2.status = 201
  · obtain ⟨he, hp, _, _, hout⟩ := registerUser_ok_inv ctx db data file newId salt h
    rw [hout]
    rw [List.find?_eq_none] at he hp
    unfold uniqueIdentity at hu ⊢
    simp only [List.map_append, List.map_cons, List.map_nil]
    constructor
    · rw [List.nodup_append]
      refine ⟨hu.1, List.nodup_singleton _, ?_⟩
      intro a ha hb
      rw [List.mem_singleton] at hb
      rw [List.mem_map] at ha
      obtain ⟨x, hx, rfl⟩ := ha
      have := he x hx
      simp [newUserDoc] at hb
      simp [hb] at this
    · rw [List.nodup_append]
      refine ⟨hu.2, List.nodup_singleton _, ?_⟩
      intro a ha hb
      rw [List.mem_singleton] at hb
      rw [List.mem_map] at ha
      obtain ⟨x, hx, rfl⟩ := ha
      have := hp x hx
      simp [newUserDoc] at hb
      simp [hb] at this
  · rw [registerUser_store_unchanged ctx db data file newId salt h]
    exact hu

/-- C14. In a collection where no two documents share an email and no two share a phone, this
still holds after one call of `registerUser`, `loginUser`, `refreshToken`, `updateUser` or
`deleteUser`, whatever the input. For `registerUser` and `updateUser` this rests on the
unique indexes on `email` and `phone`. -/
theorem handlers_keep_identities_unique (ctx : Ctx) (db : Store) (hu : uniqueIdentity db)
    (data : RegisterData) (file : Option String) (newId : ObjectId) (salt : Nat)
    (identifier : String) (password : JVal String) (body : Option RefreshBody)
    (id : String) (update : UpdateBody) (user : Claims) :
    uniqueIdentity (registerUser ctx db data file newId salt).1 ∧
      uniqueIdentity (loginUser ctx db identifier password).1 ∧
      uniqueIdentity (refreshToken ctx db body).1 ∧
      uniqueIdentity (updateUser ctx db id update file salt).1 ∧
      uniqueIdentity (deleteUser ctx db user id).1 := by
  refine ⟨registerUser_unique ctx db data file newId salt hu, ?_, ?_,
    updateUser_unique ctx db id update file salt hu, ?_⟩
  · obtain ⟨he, hp⟩ := loginUser_identities ctx db identifier password
    unfold uniqueIdentity
    rw [he, hp]
    exact hu
  · obtain ⟨he, hp⟩ := refreshToken_identities ctx db body
    unfold uniqueIdentity
    rw [he, hp]
    exact hu
  · have hsub := deleteUser_sublist ctx db user id
    exact ⟨hu.1.sublist (hsub.map _), hu.2.sublist (hsub.map _)⟩

/-- C14, at the collection of Alice and Bob: Carol registers, Alice logs in, a refresh presents
her token, an update asks Alice's email for Bob, and Alice deletes Bob. -/
theorem handlers_keep_identities_unique_witness :
    uniqueIdentity [alice, bob] ∧
      uniqueIdentity (registerUser sampleCtx [alice, bob] carolData none carolId 5).1 ∧
      uniqueIdentity (loginUser sampleCtx [alice, bob] "alice@example.com" (.str "secret1")).1 ∧
      uniqueIdentity (refreshToken sampleCtx [alice, bob] (some ⟨.str aliceToken⟩)).1 ∧
      uniqueIdentity (updateUser sampleCtx [alice, bob] bob._id.toHexString takeAliceEmail
        none 5).1 ∧
      uniqueIdentity (deleteUser sampleCtx [alice, bob] aliceCaller bob._id.toHexString).1 :=
  ⟨by decide,
    handlers_keep_identities_unique sampleCtx [alice, bob] (by decide) carolData none carolId 5
      "alice@example.com" (.str "secret1") (some ⟨.str aliceToken⟩) bob._id.toHexString
      takeAliceEmail aliceCaller⟩

/-- The unique index at work: the update that asks Alice's email for Bob is answered 500 and
changes nothing. -/
theorem updateUser_duplicate_email_is_refused :
    (updateUser sampleCtx [alice, bob] bob._id.toHexString takeAliceEmail none 5).2.status = 500 ∧
      (updateUser sampleCtx [alice, bob] bob._id.toHexString takeAliceEmail none 5).1
        = [alice, bob] := by
  decide

/-! ## The middlewares and the routes of `/api/users` -/

/-- What `authMiddleware` does, by the shape of the header. -/
theorem authMiddleware_bearer (ctx : Ctx) (tok : Token) (rest : List Token) :
    authMiddleware ctx (some ⟨"Bearer", tok :: rest⟩)
      = match jwtVerify (.str tok) ctx.JWT_ACCESS_SECRET ctx.now with
        | .error _ => .respond ⟨401, message "Invalid or expired token"⟩
        | .ok decoded => .next decoded := by
  simp [authMiddleware]

/-- Without a `Bearer` word followed by a token, `authMiddleware` answers 401
`No token provided`. -/
theorem authMiddleware_no_bearer (ctx : Ctx) (header : Option AuthHeader)
    (h : ¬ ∃ tok rest, header = some ⟨"Bearer", tok :: rest⟩) :
    authMiddleware ctx header = .respond ⟨401, message "No token provided"⟩ := by
  unfold authMiddleware
  cases header with
  | none => rfl
  | some hd =>
    obtain ⟨scheme, words⟩ := hd
    simp only
    by_cases hs : scheme = "Bearer"
    · subst hs
      cases words with
      | nil => simp
      | cons tok rest => exact absurd ⟨tok, rest, rfl⟩ h
    · simp [hs]

/-- C15. `authMiddleware` calls `next()` with claims `c` attached as `req.user` exactly when
the header is present, starts with `Bearer ` and the word after it (`header.split(" ")[1]`)
verifies under the access secret at the clock of the request, decoding to `c`; and whenever it
does not call `next()` it answers 401. -/
theorem authMiddleware_next_iff (ctx : Ctx) (header : Option AuthHeader) :
    (∀ c, authMiddleware ctx header = .next c ↔
        ∃ tok rest, header = some ⟨"Bearer", tok :: rest⟩ ∧
          jwtVerify (.str tok) ctx.JWT_ACCESS_SECRET ctx.now = .ok c) ∧
      ((∃ c, authMiddleware ctx header = .next c) ∨
        ∃ m, authMiddleware ctx header = .respond ⟨401, message m⟩) := by
  by_cases hb : ∃ tok rest, header = some ⟨"Bearer", tok :: rest⟩
  · obtain ⟨tok, rest, rfl⟩ := hb
    rw [authMiddleware_bearer]
    cases hv : jwtVerify (.str tok) ctx.JWT_ACCESS_SECRET ctx.now with
    | error e =>
      refine ⟨fun c => ⟨fun h => by simp at h, ?_⟩, Or.inr ⟨_, rfl⟩⟩
      rintro ⟨tok', rest', heq, hv'⟩
      simp only [Option.some.injEq, AuthHeader.mk.injEq, List.cons.injEq, true_and] at heq
      rw [← heq.1, hv] at hv'
      simp at hv'
    | ok d =>
      refine ⟨fun c => ⟨fun h => ⟨tok, rest, rfl, ?_⟩, ?_⟩, Or.inl ⟨d, rfl⟩⟩
      · simp only [Gate.next.injEq] at h
        rw [hv, h]
      · rintro ⟨tok', rest', heq, hv'⟩
        simp only [Option.some.injEq, AuthHeader.mk.injEq, List.cons.injEq, true_and] at heq
        rw [← heq.1, hv] at hv'
        simp only [Except.ok.injEq] at hv'
        rw [hv']
  · rw [authMiddleware_no_bearer ctx header hb]
    refine ⟨fun c => ⟨fun h => by simp at h, ?_⟩, Or.inr ⟨_, rfl⟩⟩
    rintro ⟨tok, rest, heq, _⟩
    exact absurd ⟨tok, rest, heq⟩ hb

/-- C16. `adminMiddleware` calls `next()` exactly when `req.user` is set and its role is
`admin`; with `req.user` set and any other role it answers 403 `Admins only`; without
`req.user` it answers 401 `Not authenticated`. -/
theorem adminMiddleware_cases :
    (∀ user, adminMiddleware user = .next () ↔ ∃ u, user = some u ∧ u.role = "admin") ∧
      (∀ u, u.role ≠ "admin" →
        adminMiddleware (some u) = .respond ⟨403, message "Admins only"⟩) ∧
      adminMiddleware none = .respond ⟨401, message "Not authenticated"⟩ := by
  refine ⟨fun user => ?_, fun u hu => by simp [adminMiddleware, hu], rfl⟩
  cases user with
  | none => simp [adminMiddleware]
  | some u =>
    by_cases hr : u.role = "admin"
    · simp [adminMiddleware, hr]
    · simp [adminMiddleware, hr]

/-- The two outcomes of `authMiddleware`: it calls `next()` with the claims of a verified
bearer token, or it answers 401. -/
theorem authMiddleware_cases (ctx : Ctx) (header : Option AuthHeader) :
    (∃ tok rest c, header = some ⟨"Bearer", tok :: rest⟩ ∧
        jwtVerify (.str tok) ctx.JWT_ACCESS_SECRET ctx.now = .ok c ∧
        authMiddleware ctx header = .next c) ∨
      ∃ m, authMiddleware ctx header = .respond ⟨401, message m⟩ := by
  by_cases hb : ∃ tok rest, header = some ⟨"Bearer", tok :: rest⟩
  · obtain ⟨tok, rest, rfl⟩ := hb
    rw [authMiddleware_bearer]
    cases hv : jwtVerify (.str tok) ctx.JWT_ACCESS_SECRET ctx.now with
    | error e => exact Or.inr ⟨_, rfl⟩
    | ok d => exact Or.inl ⟨tok, rest, d, rfl, hv, rfl⟩
  · exact Or.inr ⟨_, authMiddleware_no_bearer ctx header hb⟩

/-- C17. On `GET /users`, `PUT /users/:id` and `DELETE /users/:id` either the request carries
a bearer token that verifies under the access secret with the role `admin`, and then the rest
of the chain runs on its claims; or the rest of the chain does not run, the answer is 401 or
403 and the collection is as it was. On `GET /users/:id` the same holds with a verified bearer
token of any role and the answer 401. -/
theorem users_routes_gated (rlib : RegexLib) (elib : EmailLib) (mlib : MongooseLib) (ctx : Ctx)
    (db : Store) (header : Option AuthHeader) (search : Option String) (id : String)
    (upload : Upload) (body : UpdateRequest) (salt : Nat) :
    ((∃ tok rest c, header = some ⟨"Bearer", tok :: rest⟩ ∧
          jwtVerify (.str tok) ctx.JWT_ACCESS_SECRET ctx.now = .ok c ∧ c.role = "admin" ∧
          ∀ k, adminOnly ctx header db k = k c) ∨
        ∃ r, (r.status = 401 ∨ r.status = 403) ∧
          (∀ k, adminOnly ctx header db k = (db, r)) ∧
          getUsersRoute rlib ctx db header search = (db, r) ∧
          updateUserRoute elib mlib ctx db header id upload body salt = (db, r) ∧
          deleteUserRoute ctx db header id = (db, r)) ∧
      ((∃ tok rest c, header = some ⟨"Bearer", tok :: rest⟩ ∧
          jwtVerify (.str tok) ctx.JWT_ACCESS_SECRET ctx.now = .ok c ∧
          ∀ k, authenticated ctx header db k = k c) ∨
        ∃ r, r.status = 401 ∧
          (∀ k, authenticated ctx header db k = (db, r)) ∧
          getUserByIdRoute ctx db header id = (db, r)) := by
  rcases authMiddleware_cases ctx header with ⟨tok, rest, c, hh, hv, hnext⟩ | ⟨m, hresp⟩
  · have hauth : ∀ k, authenticated ctx header db k = k c := fun k => by
      simp [authenticated, hnext]
    refine ⟨?_, Or.inl ⟨tok, rest, c, hh, hv, hauth⟩⟩
    by_cases hr : c.role = "admin"
    · exact Or.inl ⟨tok, rest, c, hh, hv, hr, fun k => by
        simp [adminOnly, hauth, adminMiddleware, hr]⟩
    · have hadmin : ∀ k, adminOnly ctx header db k
          = (db, ⟨403, message "Admins only"⟩) := fun k => by
        simp [adminOnly, hauth, adminMiddleware, hr]
      exact Or.inr ⟨_, Or.inr rfl, hadmin, hadmin _, hadmin _, hadmin _⟩
  · have hauth : ∀ k, authenticated ctx header db k = (db, ⟨401, message m⟩) := fun k => by
      simp [authenticated, hresp]
    have hadmin : ∀ k, adminOnly ctx header db k = (db, ⟨401, message m⟩) := fun k => by
      simp [adminOnly, hauth]
    exact ⟨Or.inr ⟨_, Or.inl rfl, hadmin, hadmin _, hadmin _, hadmin _⟩,
      Or.inr ⟨_, rfl, hauth, hauth _⟩⟩

/-- C18. In an environment whose access secret and refresh secret differ, a token that
`generateRefreshToken` produced is answered 401 by `authMiddleware` when it is presented as
bearer token, and a token that `generateAccessToken` produced is answered 401 by the refresh
handler; at any later clock reading and for any collection. -/
theorem secrets_are_separate (ctx : Ctx) (user : User) (now : Nat) (reads writes : Bool)
    (db : Store) (rest : List Token) (access refresh : Token)
    (hne : ctx.JWT_ACCESS_SECRET ≠ ctx.JWT_REFRESH_SECRET)
    (ha : generateAccessToken ctx user = .ok access)
    (hr : generateRefreshToken ctx user = .ok refresh) :
    authMiddleware ⟨ctx.JWT_ACCESS_SECRET, ctx.JWT_REFRESH_SECRET, now, reads, writes⟩
        (some ⟨"Bearer", refresh :: rest⟩)
        = .respond ⟨401, message "Invalid or expired token"⟩ ∧
      refreshToken ⟨ctx.JWT_ACCESS_SECRET, ctx.JWT_REFRESH_SECRET, now, reads, writes⟩ db
        (some ⟨.str access⟩) = (db, ⟨401, message "Invalid or expired refresh token"⟩) := by
  obtain ⟨hsa, rfl⟩ := jwtSign_ok _ _ _ _ _ _ ha
  obtain ⟨hsr, rfl⟩ := jwtSign_ok _ _ _ _ _ _ hr
  constructor
  · rw [authMiddleware_bearer]
    simp [jwtVerify, hsa, Ne.symm hne]
  · simp [refreshToken, bind, Except.bind, pure, Except.pure, truthy, jwtVerify, hsr, hne]

/-- C18, at tokens issued for Alice. -/
theorem secrets_are_separate_witness :
    sampleCtx.JWT_ACCESS_SECRET ≠ sampleCtx.JWT_REFRESH_SECRET ∧
      generateAccessToken sampleCtx alice = .ok aliceAccessToken ∧
      generateRefreshToken sampleCtx alice = .ok aliceToken ∧
      authMiddleware ⟨sampleCtx.JWT_ACCESS_SECRET, sampleCtx.JWT_REFRESH_SECRET, 1700000060000,
          true, true⟩ (some ⟨"Bearer", aliceToken :: []⟩)
        = .respond ⟨401, message "Invalid or expired token"⟩ ∧
      refreshToken ⟨sampleCtx.JWT_ACCESS_SECRET, sampleCtx.JWT_REFRESH_SECRET, 1700000060000,
          true, true⟩ [alice] (some ⟨.str aliceAccessToken⟩)
        = ([alice], ⟨401, message "Invalid or expired refresh token"⟩) :=
  ⟨by decide, rfl, rfl,
    secrets_are_separate sampleCtx alice 1700000060000 true true [alice] [] aliceAccessToken
      aliceToken (by decide) rfl rfl⟩

/-- C19. With the secrets set, `generateAccessToken` returns a token signed with the access
secret whose payload is the `_id` and the `role` of the user, the second of issue and an
expiry exactly 3600 seconds later; `generateRefreshToken` returns one signed with the refresh
secret, with the same `id`, `role` and second of issue and an expiry exactly 604800 seconds
later. -/
theorem token_payload_and_expiry (ctx : Ctx) (user : User) (hsa : ctx.JWT_ACCESS_SECRET ≠ "")
    (hsr : ctx.JWT_REFRESH_SECRET ≠ "") :
    ∃ ca cr, generateAccessToken ctx user = .ok (.jwt ctx.JWT_ACCESS_SECRET ca) ∧
      generateRefreshToken ctx user = .ok (.jwt ctx.JWT_REFRESH_SECRET cr) ∧
      ca.id = user._id ∧ ca.role = user.role ∧ ca.iat = ctx.now / 1000 ∧
      ca.exp = ca.iat + 3600 ∧
      cr.id = user._id ∧ cr.role = user.role ∧ cr.iat = ctx.now / 1000 ∧
      cr.exp = cr.iat + 604800 := by
  refine ⟨⟨user._id, user.role, ctx.now / 1000, ctx.now / 1000 + 3600⟩,
    ⟨user._id, user.role, ctx.now / 1000, ctx.now / 1000 + 604800⟩, ?_, ?_, rfl, rfl, rfl, rfl,
    rfl, rfl, rfl, rfl⟩
  · simp [generateAccessToken, jwtSign, hsa]
  · simp [generateRefreshToken, jwtSign, hsr]

/-- C19, at the tokens issued for Alice. -/
theorem token_payload_and_expiry_witness :
    sampleCtx.JWT_ACCESS_SECRET ≠ "" ∧ sampleCtx.JWT_REFRESH_SECRET ≠ "" ∧
    ∃ ca cr, generateAccessToken sampleCtx alice = .ok (.jwt sampleCtx.JWT_ACCESS_SECRET ca) ∧
      generateRefreshToken sampleCtx alice = .ok (.jwt sampleCtx.JWT_REFRESH_SECRET cr) ∧
      ca.id = alice._id ∧ ca.role = alice.role ∧ ca.iat = sampleCtx.now / 1000 ∧
      ca.exp = ca.iat + 3600 ∧
      cr.id = alice._id ∧ cr.role = alice.role ∧ cr.iat = sampleCtx.now / 1000 ∧
      cr.exp = cr.iat + 604800 :=
  ⟨by decide, by decide, token_payload_and_expiry sampleCtx alice (by decide) (by decide)⟩

/-! ## The list of users -/

/-- Inserting a document adds it and nothing else. -/
theorem mem_insertNewestFirst (u x : User) (l : List User) :
    x ∈ insertNewestFirst u l ↔ x = u ∨ x ∈ l := by
  induction l with
  | nil => simp [insertNewestFirst]
  | cons v vs ih =>
    unfold insertNewestFirst
    split
    · simp
    · simp only [List.mem_cons, ih]
      tauto

/-- Sorting keeps the documents. -/
theorem mem_sortNewestFirst (x : User) (l : List User) : x ∈ sortNewestFirst l ↔ x ∈ l := by
  induction l with
  | nil => simp [sortNewestFirst]
  | cons v vs ih =>
    have : sortNewestFirst (v :: vs) = insertNewestFirst v (sortNewestFirst vs) := rfl
    rw [this, mem_insertNewestFirst, ih, List.mem_cons]

/-- With a pattern that the engine accepts and a store that answers reads, `getUsers` answers
200 with the views of the documents that `searchUsers` selects. -/
theorem getUsers_ok (lib : RegexLib) (ctx : Ctx) (db : Store) (search : Option String)
    (hc : lib.compiles (search.getD "") = true) (hr : ctx.dbReads = true) :
    getUsers lib ctx db search
      = (db, ⟨200, .obj [("users", .arr ((searchUsers lib db (search.getD "")).map listView))]⟩) := by
  simp [getUsers, bind, Except.bind, pure, Except.pure, hc, hr]

/-- For a pattern that the engine matches as a substring, ignoring case, the documents
selected are those of which the name, the email, the state or the city contains it. -/
theorem searchUsers_of_substring_pattern (lib : RegexLib) (db : Store) (s : String)
    (hs : ∀ t, lib.test s t = containsIgnoreCase s t) (u : User) :
    u ∈ searchUsers lib db s ↔
      u ∈ db ∧ (containsIgnoreCase s u.name || containsIgnoreCase s u.email
        || containsIgnoreCase s u.state || containsIgnoreCase s u.city) = true := by
  unfold searchUsers
  rw [mem_sortNewestFirst, List.mem_filter]
  simp only [hs]

/-- C20 (the code at the failing input). The search string is `(`, which the city of Bob
contains. For every engine that refuses the pattern `(`, as the `RegExp` constructor does, the
handler answers 500 `Server error` instead of a list with Bob. -/
theorem getUsers_parenthesis_is_500 (lib : RegexLib) (hrefused : lib.compiles "(" = false) :
    containsIgnoreCase "(" bob.city = true ∧
      (getUsers lib sampleCtx [alice, bob] (some "(")).2.status = 500 ∧
      (getUsers lib sampleCtx [alice, bob] (some "(")).2.body.strAt "message"
        = some "Server error" := by
  refine ⟨by decide, ?_, ?_⟩
  · simp [getUsers, bind, Except.bind, pure, Except.pure, throw, throwThe, MonadExceptOf.throw,
      hrefused]
  · simp [getUsers, bind, Except.bind, pure, Except.pure, throw, throwThe, MonadExceptOf.throw,
      hrefused]
    decide

/-- C20, for a stand-in engine that refuses patterns with metacharacters. -/
theorem getUsers_parenthesis_is_500_witness :
    sampleRegexLib.compiles "(" = false ∧
      containsIgnoreCase "(" bob.city = true ∧
      (getUsers sampleRegexLib sampleCtx [alice, bob] (some "(")).2.status = 500 ∧
      (getUsers sampleRegexLib sampleCtx [alice, bob] (some "(")).2.body.strAt "message"
        = some "Server error" :=
  ⟨by decide, getUsers_parenthesis_is_500 sampleRegexLib (by decide)⟩


set_option maxRecDepth 8000

/-! ## The image URL -/

/-- Dropping a leading run of one character in front of a list that does not start with
it. -/
theorem dropWhile_replicate_append (a : Char) (n : Nat) (l : List Char)
    (h : l.head? ≠ some a) :
    (List.replicate n a ++ l).dropWhile (fun c => c = a) = l := by
  induction n with
  | zero =>
    cases l with
    | nil => rfl
    | cons c cs =>
      have hc : c ≠ a := fun hca => h (by simp [hca])
      simp [List.dropWhile, hc]
  | succ n ih => simpa [List.replicate_succ, List.dropWhile] using ih

/-- Trailing slashes after a base that does not end in one are dropped, and only they. -/
theorem dropTrailingSlashes_append (b : String) (k : Nat) (hb : b.data.getLast? ≠ some '/') :
    dropTrailingSlashes (b ++ slashes k) = b := by
  unfold dropTrailingSlashes slashes
  have hhead : b.data.reverse.head? ≠ some '/' := by
    rw [List.head?_reverse]
    exact hb
  simp only [String.data_append, List.reverse_append, List.reverse_replicate]
  rw [dropWhile_replicate_append '/' k _ hhead, List.reverse_reverse]

/-- Leading slashes in front of a path without backslash that does not start with a slash are
dropped, and nothing else changes. -/
theorem normalizePath_append (p : String) (m : Nat) (hp : backslash ∉ p.data)
    (hhead : p.data.head? ≠ some '/') :
    normalizePath (slashes m ++ p) = p := by
  unfold normalizePath slashes
  have hmap : (p.data.map fun c => if c = backslash then '/' else c) = p.data := by
    rw [List.map_congr_left (g := id)]
    · exact List.map_id _
    · intro c hc
      have : c ≠ backslash := fun h => hp (h ▸ hc)
      simp [this]
  have hslash : ('/' : Char) ≠ backslash := by decide
  simp only [String.data_append, List.map_append, List.map_replicate, hslash, if_false, hmap]
  rw [dropWhile_replicate_append '/' m _ hhead]

/-- Claim C28, counterexample: with no trailing slash on the base and an empty path (no
leading slash, no remainder) the function returns the placeholder and not the join. -/
theorem getImageUrl_empty_path_is_placeholder :
    "http://localhost:5000".data.getLast? ≠ some '/' ∧
    backslash ∉ "".data ∧ "".data.head? ≠ some '/' ∧
    getImageUrl ("http://localhost:5000" ++ slashes 0) (some (slashes 0 ++ ""))
      ≠ "http://localhost:5000" ++ "/" ++ "" := by
  decide

/-- Claim C28, amended: a missing or empty path gives the placeholder whatever the base; a
base without trailing slash followed by any number of slashes, and a non-empty path argument
made of any number of slashes followed by a remainder without backslash and without leading
slash, gives base, one slash, remainder; a path with backslashes gives the URL of the same
path written with slashes. -/
theorem getImageUrl_spec (b p : String) (k m : Nat)
    (hb : b.data.getLast? ≠ some '/') (hp : backslash ∉ p.data)
    (hhead : p.data.head? ≠ some '/') (hne : slashes m ++ p ≠ "") :
    getImageUrl (b ++ slashes k) (some (slashes m ++ p)) = b ++ "/" ++ p ∧
    (∀ base, getImageUrl base none = placeholderImage ∧
      getImageUrl base (some "") = placeholderImage) ∧
    (∀ base q, getImageUrl base (some q) = getImageUrl base (some (forwardSlashes q))) := by
  refine ⟨?_, fun base => ⟨rfl, rfl⟩, ?_⟩
  · simp only [getImageUrl, hne, if_false]
    rw [dropTrailingSlashes_append b k hb, normalizePath_append p m hp hhead]
  · intro base q
    have hnorm : normalizePath (forwardSlashes q) = normalizePath q := by
      unfold normalizePath forwardSlashes
      simp only [List.map_map]
      congr 2
      apply List.map_congr_left
      intro c _
      by_cases hc : c = backslash
      · simp [hc]
      · simp [hc]
    have hempty : forwardSlashes q = "" ↔ q = "" := by
      unfold forwardSlashes
      constructor
      · intro h
        have hd := congrArg String.data h
        simp at hd
        exact String.ext hd
      · intro h
        subst h
        rfl
    by_cases hq : q = ""
    · subst hq
      rfl
    · have hq2 : forwardSlashes q ≠ "" := fun h => hq (hempty.mp h)
      simp only [getImageUrl, hq, hq2, if_false, hnorm]

/-- Claim C28, witness: a base with two trailing slashes and a path with two leading
slashes. -/
theorem getImageUrl_spec_witness :
    getImageUrl ("http://localhost:5000" ++ slashes 2) (some (slashes 2 ++ "uploads/a.png"))
      = "http://localhost:5000" ++ "/" ++ "uploads/a.png" ∧
    (∀ base, getImageUrl base none = placeholderImage ∧
      getImageUrl base (some "") = placeholderImage) ∧
    (∀ base q, getImageUrl base (some q) = getImageUrl base (some (forwardSlashes q))) :=
  getImageUrl_spec "http://localhost:5000" "uploads/a.png" 2 2 (by decide) (by decide)
    (by decide) (by decide)

/-- A Windows-style stored path gives the URL of the same path with slashes. -/
theorem getImageUrl_backslash_example :
    getImageUrl "http://localhost:5000/" (some (String.mk [backslash] ++ "uploads" ++ String.mk [backslash] ++ "a.png"))
      = "http://localhost:5000/uploads/a.png" := by
  decide

/-! ## The list of users -/

/-- Inserting into a list that is ordered newest first keeps it ordered. -/
theorem pairwise_insertNewestFirst (u : User) (l : List User)
    (h : l.Pairwise fun a b => b.createdAt ≤ a.createdAt) :
    (insertNewestFirst u l).Pairwise fun a b => b.createdAt ≤ a.createdAt := by
  induction l with
  | nil => simp [insertNewestFirst]
  | cons v vs ih =>
    rw [List.pairwise_cons] at h
    unfold insertNewestFirst
    by_cases hv : v.createdAt ≤ u.createdAt
    · rw [if_pos hv]
      refine List.pairwise_cons.mpr ⟨?_, List.pairwise_cons.mpr h⟩
      intro x hx
      rcases List.mem_cons.mp hx with rfl | hx
      · exact hv
      · exact le_trans (h.1 x hx) hv
    · rw [if_neg hv]
      refine List.pairwise_cons.mpr ⟨?_, ih h.2⟩
      intro x hx
      rcases (mem_insertNewestFirst u x vs).mp hx with rfl | hx
      · exact le_of_lt (not_le.mp hv)
      · exact h.1 x hx

/-- The sorted list is ordered newest first. -/
theorem pairwise_sortNewestFirst (l : List User) :
    (sortNewestFirst l).Pairwise fun a b => b.createdAt ≤ a.createdAt := by
  induction l with
  | nil => simp [sortNewestFirst]
  | cons v vs ih => exact pairwise_insertNewestFirst v _ ih

/-- Inserting a document gives a rearrangement of the list with the document in front. -/
theorem perm_insertNewestFirst (u : User) (l : List User) :
    (insertNewestFirst u l).Perm (u :: l) := by
  induction l with
  | nil => simp [insertNewestFirst]
  | cons v vs ih =>
    unfold insertNewestFirst
    by_cases hv : v.createdAt ≤ u.createdAt
    · rw [if_pos hv]
    · rw [if_neg hv]
      exact ((List.Perm.cons v ih).trans (List.Perm.swap u v vs))

/-- Sorting rearranges the list. -/
theorem perm_sortNewestFirst (l : List User) : (sortNewestFirst l).Perm l := by
  induction l with
  | nil => simp [sortNewestFirst]
  | cons v vs ih => exact (perm_insertNewestFirst v _).trans (List.Perm.cons v ih)

/-- The handler `getUsers` never changes the store. -/
theorem getUsers_store (lib : RegexLib) (ctx : Ctx) (db : Store) (search : Option String) :
    (getUsers lib ctx db search).1 = db := by
  by_cases hc : lib.compiles (search.getD "") = true
  · by_cases hr : ctx.dbReads = true
    · rw [getUsers_ok lib ctx db search hc hr]
    · simp [getUsers, bind, Except.bind, pure, Except.pure, hc, hr]
  · simp [getUsers, bind, Except.bind, pure, Except.pure, hc]

/-- Claim C21: for every store and search string, `getUsers` leaves the store unchanged, and
it answers either 500 or 200 with the views of a list of documents that is ordered by
`createdAt`, newest first, and is a rearrangement of the documents that the pattern
selects. -/
theorem getUsers_newest_first (lib : RegexLib) (ctx : Ctx) (db : Store) (search : Option String) :
    (getUsers lib ctx db search).1 = db ∧
    ((getUsers lib ctx db search).2.status = 500 ∨
      ∃ l : List User,
        (getUsers lib ctx db search).2.status = 200 ∧
        (getUsers lib ctx db search).2.body = .obj [("users", .arr (l.map listView))] ∧
        l.Pairwise (fun a b => b.createdAt ≤ a.createdAt) ∧
        l.Perm (db.filter fun u =>
          lib.test (search.getD "") u.name || lib.test (search.getD "") u.email
            || lib.test (search.getD "") u.state || lib.test (search.getD "") u.city)) := by
  refine ⟨getUsers_store lib ctx db search, ?_⟩
  by_cases hc : lib.compiles (search.getD "") = true
  · by_cases hr : ctx.dbReads = true
    · right
      refine ⟨searchUsers lib db (search.getD ""), ?_, ?_, pairwise_sortNewestFirst _,
        perm_sortNewestFirst _⟩
      · rw [getUsers_ok lib ctx db search hc hr]
      · rw [getUsers_ok lib ctx db search hc hr]
    · left
      simp [getUsers, bind, Except.bind, pure, Except.pure, hc, hr]
  · left
    simp [getUsers, bind, Except.bind, pure, Except.pure, hc]

/-- The list for the store of Alice (older) and Bob (newer): Bob comes first, and the store
is as before. -/
theorem getUsers_example :
    (getUsers sampleRegexLib sampleCtx [alice, bob] none).1 = [alice, bob] ∧
    (getUsers sampleRegexLib sampleCtx [alice, bob] none).2.status = 200 ∧
    searchUsers sampleRegexLib [alice, bob] "" = [bob, alice] := by
  decide

/-! ## Sanitized records -/

/-- The list view of a document holds no hash and no token. -/
theorem listView_leaves (u : User) : (listView u).hashes = [] ∧ (listView u).tokens = [] := by
  cases hi : u.profile_image <;> cases hp : u.pincode <;>
    simp [listView, optionalField, Json.ofOption, Json.hashes, Json.hashesOfFields, Json.tokens,
      Json.tokensOfFields, hi, hp]

/-- The detail view of a document holds no hash and no token. -/
theorem detailView_leaves (u : User) :
    (detailView u).hashes = [] ∧ (detailView u).tokens = [] := by
  cases hi : u.profile_image <;> cases hp : u.pincode <;> cases ha : u.address <;>
    simp [detailView, optionalField, Json.ofOption, Json.hashes, Json.hashesOfFields, Json.tokens,
      Json.tokensOfFields, hi, hp, ha]

/-- An array of list views holds no hash and no token. -/
theorem listView_items_leaves (l : List User) :
    Json.hashesOfItems (l.map listView) = [] ∧ Json.tokensOfItems (l.map listView) = [] := by
  induction l with
  | nil => simp [Json.hashesOfItems, Json.tokensOfItems]
  | cons u us ih =>
    simp [Json.hashesOfItems, Json.tokensOfItems, ih, (listView_leaves u).1, (listView_leaves u).2]

/-- The body `{ message }` holds no hash and no token. -/
theorem message_leaves (m : String) : (message m).hashes = [] ∧ (message m).tokens = [] := by
  simp [message, Json.hashes, Json.hashesOfFields, Json.tokens, Json.tokensOfFields]

/-- The hashes and tokens of an object whose only field is `v`, and of one with a string
field in front of `v`. -/
theorem wrapped_leaves (k m s : String) (v : Json) :
    (Json.obj [(k, v)]).hashes = v.hashes ∧ (Json.obj [(k, v)]).tokens = v.tokens ∧
    (Json.obj [(m, .str s), (k, v)]).hashes = v.hashes ∧
    (Json.obj [(m, .str s), (k, v)]).tokens = v.tokens := by
  refine ⟨?_, ?_, ?_, ?_⟩
  · show v.hashes ++ [] = v.hashes
    simp
  · show v.tokens ++ [] = v.tokens
    simp
  · show [] ++ (v.hashes ++ []) = v.hashes
    simp
  · show [] ++ (v.tokens ++ []) = v.tokens
    simp

/-- No body of `getUsers` holds a hash or a token. -/
theorem getUsers_leaves (lib : RegexLib) (ctx : Ctx) (db : Store) (search : Option String) :
    (getUsers lib ctx db search).2.body.hashes = [] ∧
      (getUsers lib ctx db search).2.body.tokens = [] := by
  by_cases hc : lib.compiles (search.getD "") = true
  · by_cases hr : ctx.dbReads = true
    · rw [getUsers_ok lib ctx db search hc hr]
      simp [Json.hashes, Json.hashesOfFields, Json.tokens, Json.tokensOfFields,
        listView_items_leaves]
    · simpa [getUsers, bind, Except.bind, pure, Except.pure, hc, hr] using
        message_leaves "Server error"
  · simpa [getUsers, bind, Except.bind, pure, Except.pure, hc] using message_leaves "Server error"

/-- No body of `getUserById` holds a hash or a token. -/
theorem getUserById_leaves (ctx : Ctx) (db : Store) (id : String) :
    (getUserById ctx db id).2.body.hashes = [] ∧ (getUserById ctx db id).2.body.tokens = [] := by
  cases hf : findById ctx db id with
  | error e =>
    simpa [getUserById, bind, Except.bind, pure, Except.pure, hf] using
      message_leaves "Server error"
  | ok found =>
    cases found with
    | none =>
      simpa [getUserById, bind, Except.bind, pure, Except.pure, hf] using
        message_leaves "User not found"
    | some u =>
      simp only [getUserById, bind, Except.bind, pure, Except.pure, hf]
      rw [(wrapped_leaves "user" "" "" (detailView u)).1,
        (wrapped_leaves "user" "" "" (detailView u)).2.1]
      exact detailView_leaves u

/-- No body of `updateUser` holds a hash or a token. -/
theorem updateUser_leaves (ctx : Ctx) (db : Store) (id : String) (data : UpdateBody)
    (file : Option String) (salt : Nat) :
    (updateUser ctx db id data file salt).2.body.hashes = [] ∧
      (updateUser ctx db id data file salt).2.body.tokens = [] := by
  cases hp : updatePassword data.password salt with
  | error e =>
    simpa [updateUser, bind, Except.bind, pure, Except.pure, hp] using
      message_leaves "Server error"
  | ok hashed =>
    cases hf : findByIdAndUpdate ctx db id (applyUpdate data
        (match file with
          | some f => some (some ("uploads/" ++ f))
          | none => data.profile_image) hashed ctx.now) with
    | error e =>
      simpa [updateUser, bind, Except.bind, pure, Except.pure, hp, hf] using
        message_leaves "Server error"
    | ok r =>
      obtain ⟨found, db'⟩ := r
      cases found with
      | none =>
        simpa [updateUser, bind, Except.bind, pure, Except.pure, hp, hf] using
          message_leaves "User not found"
      | some u =>
        simp only [updateUser, bind, Except.bind, pure, Except.pure, hp, hf]
        rw [(wrapped_leaves "user" "message" "User updated" (detailView u)).2.2.1,
          (wrapped_leaves "user" "message" "User updated" (detailView u)).2.2.2]
        exact detailView_leaves u

/-- The keys of both views are among the sanitized fields. -/
theorem view_keys (u : User) :
    (∀ k ∈ (listView u).keys, k ∈ sanitizedFields) ∧
      (∀ k ∈ (detailView u).keys, k ∈ sanitizedFields) := by
  cases hp : u.pincode <;> cases ha : u.address <;>
    simp [listView, detailView, optionalField, Json.keys, sanitizedFields, hp, ha]

/-- Claim C22: for every input and every store, the bodies of `getUsers`, `getUserById` and
`updateUser` hold no password hash and no token; the keys of the user objects they return are
among `_id`, `name`, `email`, `phone`, `profile_image`, `address`, `state`, `city`, `country`,
`pincode`, `role` and `createdAt`, and the objects do not depend on the stored password hash,
refresh token or `updatedAt`. -/
theorem user_responses_are_sanitized (lib : RegexLib) (ctx : Ctx) (db : Store)
    (search : Option String) (id : String) (data : UpdateBody) (file : Option String)
    (salt : Nat) (u : User) (h : Hash) (t : Option Token) (updatedAt : Nat) :
    ((getUsers lib ctx db search).2.body.hashes = [] ∧
      (getUsers lib ctx db search).2.body.tokens = []) ∧
    ((getUserById ctx db id).2.body.hashes = [] ∧
      (getUserById ctx db id).2.body.tokens = []) ∧
    ((updateUser ctx db id data file salt).2.body.hashes = [] ∧
      (updateUser ctx db id data file salt).2.body.tokens = []) ∧
    (∀ k ∈ (listView u).keys, k ∈ sanitizedFields) ∧
    (∀ k ∈ (detailView u).keys, k ∈ sanitizedFields) ∧
    listView (u.withSecrets h t updatedAt) = listView u ∧
    detailView (u.withSecrets h t updatedAt) = detailView u :=
  ⟨getUsers_leaves lib ctx db search, getUserById_leaves ctx db id,
    updateUser_leaves ctx db id data file salt, (view_keys u).1, (view_keys u).2, rfl, rfl⟩

/-- The detail of Bob as an example: found, and without hash or token, although the stored
document has a password hash. -/
theorem getUserById_example :
    (getUserById sampleCtx [alice, bob] bob._id.toHexString).2.status = 200 ∧
    (getUserById sampleCtx [alice, bob] bob._id.toHexString).2.body.hashes = [] ∧
    (getUserById sampleCtx [aliceLoggedIn, bob] alice._id.toHexString).2.body.tokens = [] ∧
    aliceLoggedIn.refreshToken ≠ none := by
  decide

/-! ## Deleting -/

/-- C25 (the code at the failing input). The `:id` parameter is `123`, which is not the
caller's id and not the id of any record; the query throws on it and the handler answers 500
`Server error`, not 404. -/
theorem deleteUser_malformed_id_is_500 :
    aliceCaller.id.toHexString ≠ "123" ∧
      (∀ u ∈ [alice, bob], u._id.toHexString ≠ "123") ∧
      castObjectId "123" = none ∧
      (deleteUser sampleCtx [alice, bob] aliceCaller "123").2.status = 500 ∧
      (deleteUser sampleCtx [alice, bob] aliceCaller "123").2.body.strAt "message"
        = some "Server error" ∧
      (deleteUser sampleCtx [alice, bob] aliceCaller "123").1 = [alice, bob] := by
  decide

/-- For a parameter that is the string of an ObjectId other than the caller's string, and a
store that takes the write: without a record of that id the answer is 404 and the store is
unchanged; with one, the answer is 200, the first record of that id is removed and every other
record stays as it is, in place. -/
theorem deleteUser_frame (ctx : Ctx) (db : Store) (user : Claims) (id : String) (o : ObjectId)
    (hcast : castObjectId id = some o) (hw : ctx.dbWrites = true)
    (hother : user.id.toHexString ≠ id) :
    ((∀ u ∈ db, u._id ≠ o) →
      deleteUser ctx db user id = (db, ⟨404, message "User not found"⟩)) ∧
    (∀ pre post u, db = pre ++ u :: post → u._id = o → (∀ x ∈ pre, x._id ≠ o) →
      deleteUser ctx db user id = (pre ++ post, ⟨200, message "User deleted"⟩)) := by
  constructor
  · intro hnone
    have hfind : db.find? (fun u => decide (u._id = o)) = none := by
      rw [List.find?_eq_none]
      intro x hx
      simpa using hnone x hx
    have herase : db.eraseP (fun u => decide (u._id = o)) = db := by
      apply List.eraseP_of_forall_not
      intro x hx
      simpa using hnone x hx
    simp [deleteUser, findByIdAndDelete, bind, Except.bind, pure, Except.pure, hother, hcast, hw,
      hfind, herase]
  · intro pre post u hdb hu hpre
    have hfind : db.find? (fun u => decide (u._id = o)) = some u := by
      rw [hdb]
      exact find_split pre post u o hu hpre
    have herase : db.eraseP (fun u => decide (u._id = o)) = pre ++ post := by
      rw [hdb]
      rw [List.eraseP_append_right _ (fun x hx => by simpa using hpre x hx)]
      simp [List.eraseP_cons, hu]
    simp [deleteUser, findByIdAndDelete, bind, Except.bind, pure, Except.pure, hother, hcast, hw,
      hfind, herase]

/-- An instance of `deleteUser_frame`: Alice deletes Bob, and asks for an id that no record
has. -/
theorem deleteUser_frame_example :
    (deleteUser sampleCtx [alice, bob] aliceCaller bob._id.toHexString).1 = [alice] ∧
    (deleteUser sampleCtx [alice, bob] aliceCaller bob._id.toHexString).2.status = 200 ∧
    (deleteUser sampleCtx [alice, bob] aliceCaller carolId.toHexString).1 = [alice, bob] ∧
    (deleteUser sampleCtx [alice, bob] aliceCaller carolId.toHexString).2.status = 404 := by
  decide

/-! ## The catch-all -/

/-- C26 (the code at the failing input). Alice presents her stored, unexpired refresh token
while the store fails: the `catch` of `refreshToken` answers 401 `Invalid or expired refresh
token`, not 500; with a healthy store the same request is answered 200. -/
theorem refreshToken_store_down_is_401 :
    (jwtVerify (.str aliceToken) storeDown.JWT_REFRESH_SECRET storeDown.now).toOption
        = some aliceClaims ∧
      aliceLoggedIn.refreshToken = some aliceToken ∧
      (findById storeDown [aliceLoggedIn] aliceClaims.id.toHexString).toBool = false ∧
      (refreshToken storeDown [aliceLoggedIn] (some ⟨.str aliceToken⟩)).2.status = 401 ∧
      (refreshToken storeDown [aliceLoggedIn] (some ⟨.str aliceToken⟩)).2.body.strAt "message"
        = some "Invalid or expired refresh token" ∧
      (refreshToken (sampleCtxAt 1700003600000) [aliceLoggedIn]
        (some ⟨.str aliceToken⟩)).2.status = 200 := by
  decide

/-- With a store that fails every operation, the six other handlers answer 500 with the fixed
body `Server error` and leave the store alone (`deleteUser` after its self-deletion guard,
which touches no store). -/
theorem handlers_answer_500_when_store_down (lib : RegexLib) (ctx : Ctx) (db : Store)
    (hr : ctx.dbReads = false) (hw : ctx.dbWrites = false)
    (data : RegisterData) (file : Option String) (newId : ObjectId) (salt : Nat)
    (identifier : String) (password : JVal String) (search : Option String) (id : String)
    (update : UpdateBody) (user : Claims) (hother : user.id.toHexString ≠ id) :
    registerUser ctx db data file newId salt = (db, ⟨500, message "Server error"⟩) ∧
    loginUser ctx db identifier password = (db, ⟨500, message "Server error"⟩) ∧
    getUsers lib ctx db search = (db, ⟨500, message "Server error"⟩) ∧
    getUserById ctx db id = (db, ⟨500, message "Server error"⟩) ∧
    updateUser ctx db id update file salt = (db, ⟨500, message "Server error"⟩) ∧
    deleteUser ctx db user id = (db, ⟨500, message "Server error"⟩) := by
  refine ⟨?_, ?_, ?_, ?_, ?_, ?_⟩
  · simp [registerUser, findOne, bind, Except.bind, hr]
  · simp [loginUser, findOne, bind, Except.bind, hr]
  · by_cases hc : lib.compiles (search.getD "") = true <;>
      simp [getUsers, bind, Except.bind, pure, Except.pure, hc, hr]
  · cases hcast : castObjectId id <;>
      simp [getUserById, findById, findOne, bind, Except.bind, hcast, hr]
  · cases hp : updatePassword update.password salt with
    | error e => simp [updateUser, bind, Except.bind, hp]
    | ok hashed =>
      cases hcast : castObjectId id <;>
        simp [updateUser, findByIdAndUpdate, bind, Except.bind, hp, hcast, hw]
  · cases hcast : castObjectId id <;>
      simp [deleteUser, findByIdAndDelete, bind, Except.bind, pure, Except.pure, hother, hcast, hw]

/-- An instance of `handlers_answer_500_when_store_down`. -/
theorem handlers_answer_500_when_store_down_example :
    (loginUser storeDown [alice] "alice@example.com" (.str "secret1")).2.status = 500 ∧
    (loginUser storeDown [alice] "alice@example.com" (.str "secret1")).2.body.strAt "message"
      = some "Server error" ∧
    (getUserById storeDown [alice] alice._id.toHexString).2.status = 500 := by
  decide

/-! ## Roles at refresh -/

/-- Claim C29: on a successful refresh, the role claim of both new tokens is the role stored
on the record that the id of the presented token selects, whatever role claim the presented
token carries. -/
theorem refreshToken_roles_from_store (ctx : Ctx) (db : Store) (tok : JVal Token) (c : Claims)
    (u : User)
    (hv : jwtVerify tok ctx.JWT_REFRESH_SECRET ctx.now = .ok c)
    (hu : db.find? (fun x => x._id = c.id) = some u)
    (h : (refreshToken ctx db (some ⟨tok⟩)).2.status = 200) :
    ((refreshToken ctx db (some ⟨tok⟩)).2.body.tokenAt "accessToken").bind Token.role
        = some u.role ∧
      ((refreshToken ctx db (some ⟨tok⟩)).2.body.tokenAt "refreshToken").bind Token.role
        = some u.role := by
  obtain ⟨tok', c', u', a, r, db', hb, _, hv', hf, _, ha, hr, _, hres⟩ :=
    refreshToken_ok_inv ctx db _ h
  simp only [Option.some.injEq, RefreshBody.mk.injEq] at hb
  subst hb
  rw [hv] at hv'
  simp only [Except.ok.injEq] at hv'
  subst hv'
  rw [findById_toHexString] at hf
  unfold findOne at hf
  split at hf
  · simp only [Except.ok.injEq] at hf
    rw [hu] at hf
    simp only [Option.some.injEq] at hf
    subst hf
    have ha' := (jwtSign_ok _ _ _ _ _ _ ha).2
    have hr' := (jwtSign_ok _ _ _ _ _ _ hr).2
    rw [hres, ha', hr']
    simp [Json.tokenAt, Json.get, Token.role]
  · simp at hf

/-- Claim C29, witness: Bob presents the token he was issued as a plain user after an
administrator has set his stored role to `admin`; both new tokens carry `admin`. -/
theorem refreshToken_roles_from_store_witness :
    bobToken.role = some "user" ∧
    (updateUser sampleCtx [alice, bobLoggedIn] bob._id.toHexString promote none 0).1
      = [alice, bobPromoted] ∧
    (((refreshToken (sampleCtxAt 1700003600000) [alice, bobPromoted]
        (some ⟨.str bobToken⟩)).2.body.tokenAt "accessToken").bind Token.role
      = some bobPromoted.role ∧
    ((refreshToken (sampleCtxAt 1700003600000) [alice, bobPromoted]
        (some ⟨.str bobToken⟩)).2.body.tokenAt "refreshToken").bind Token.role
      = some bobPromoted.role) :=
  ⟨by decide, by decide,
    refreshToken_roles_from_store (sampleCtxAt 1700003600000) [alice, bobPromoted]
      (.str bobToken) bobClaims bobPromoted (by rfl) (by decide) (by decide)⟩

/-! ## The access gate and the store -/

/-- Claim C30: the outcome of `authMiddleware` is the same under any two contexts that agree
on the access secret and the clock, and a route behind it, run on any two stores, gets the
same outcome of the middleware: the same 401 on both, or the rest of the chain on both with
the same claims. -/
theorem authMiddleware_ignores_store (access refresh refresh' : String) (now : Nat)
    (reads writes reads' writes' : Bool) (header : Option AuthHeader) (db db' : Store)
    (k : Store → Claims → Store × Response) :
    authMiddleware ⟨access, refresh, now, reads, writes⟩ header
      = authMiddleware ⟨access, refresh', now, reads', writes'⟩ header ∧
    ((∃ r, r.status = 401 ∧
        authMiddleware ⟨access, refresh, now, reads, writes⟩ header = .respond r ∧
        authenticated ⟨access, refresh, now, reads, writes⟩ header db (k db) = (db, r) ∧
        authenticated ⟨access, refresh, now, reads, writes⟩ header db' (k db') = (db', r)) ∨
      (∃ c, authMiddleware ⟨access, refresh, now, reads, writes⟩ header = .next c ∧
        authenticated ⟨access, refresh, now, reads, writes⟩ header db (k db) = k db c ∧
        authenticated ⟨access, refresh, now, reads, writes⟩ header db' (k db') = k db' c)) := by
  refine ⟨rfl, ?_⟩
  cases hm : authMiddleware ⟨access, refresh, now, reads, writes⟩ header with
  | next c =>
    right
    exact ⟨c, rfl, by simp [authenticated, hm], by simp [authenticated, hm]⟩
  | respond r =>
    left
    refine ⟨r, ?_, rfl, by simp [authenticated, hm], by simp [authenticated, hm]⟩
    rcases authMiddleware_cases ⟨access, refresh, now, reads, writes⟩ header with
      ⟨_, _, c, _, _, hnext⟩ | ⟨m, hresp⟩
    · rw [hm] at hnext
      cases hnext
    · rw [hm] at hresp
      cases hresp
      rfl

/-- An access token of Alice is accepted as that of an administrator after her record has
been deleted or her stored role changed: with it, Bob is listed, read and deleted. -/
theorem authMiddleware_ignores_store_example :
    (getUsersRoute sampleRegexLib sampleCtx [bob] (bearer aliceAccessToken) none).2.status = 200 ∧
    (getUsersRoute sampleRegexLib sampleCtx [aliceDemoted, bob] (bearer aliceAccessToken)
      none).2.status = 200 ∧
    (deleteUserRoute sampleCtx [aliceDemoted, bob] (bearer aliceAccessToken)
      bob._id.toHexString).1 = [aliceDemoted] ∧
    (getUserByIdRoute sampleCtx [] (bearer aliceAccessToken) alice._id.toHexString).2.status
      = 404 := by
  decide

/-! ## The handlers on any body and on a body of strings -/

/-- On an identifier that is a string, `loginUserReq` is `loginUser`. -/
theorem loginUserReq_str (ctx : Ctx) (db : Store) (identifier : String) (password : JVal String) :
    loginUserReq ctx db (.str identifier) password = loginUser ctx db identifier password := by
  rfl

/-- Casting the fields of a body of strings gives the body back. -/
theorem castRegisterData_toFields (data : RegisterData) :
    castRegisterData data.toFields data.password = .ok data := by
  obtain ⟨name, email, phone, password, address, state, city, country, pincode⟩ := data
  cases address <;> cases pincode <;> rfl

/-- On a body of strings, `registerUserReq` is `registerUser`. -/
theorem registerUserReq_toFields (ctx : Ctx) (db : Store) (data : RegisterData)
    (file : Option String) (newId : ObjectId) (salt : Nat) :
    registerUserReq ctx db data.toFields file newId salt
      = registerUser ctx db data file newId salt := by
  have hcast := castRegisterData_toFields data
  unfold registerUserReq registerUser
  simp only [bind, Except.bind, pure, Except.pure]
  have he : (fun u : User => data.toFields.email.selects u.email)
      = fun u => decide (u.email = data.email) := rfl
  have hp : (fun u : User => data.toFields.phone.selects u.phone)
      = fun u => decide (u.phone = data.phone) := rfl
  have hpw : data.toFields.password = .str data.password := rfl
  rw [he, hp, hpw]
  simp only [hcast]

/-- Casting the fields of a plain body gives the body back. -/
theorem cast_toDoc (data : UpdateBody) : data.toDoc.cast = .ok data := by
  obtain ⟨name, email, phone, password, image, address, state, city, country, pincode, role,
    token⟩ := data
  cases name <;> cases email <;> cases phone <;> cases address <;> cases state <;>
    cases city <;> cases country <;> cases pincode <;> rfl

/-- Rewriting the first document of an id to the value that a function has on it is applying
the function to it. -/
theorem updateOne_const (db : Store) (o : ObjectId) (u : User) (f : User → User)
    (h : db.find? (fun x => x._id = o) = some u) :
    updateOne db o (fun _ => f u) = updateOne db o f := by
  obtain ⟨pre, post, _, _, _, hupd⟩ := updateOne_split db o u h
  rw [hupd, hupd]

/-- For an update that Mongoose accepts and that the store applies without error,
`findByIdAndUpdateReq` is `findByIdAndUpdate`. -/
theorem findByIdAndUpdateReq_ok (ctx : Ctx) (db : Store) (id : String) (f : User → User) :
    findByIdAndUpdateReq ctx db id (.ok fun u => .ok (f u)) = findByIdAndUpdate ctx db id f := by
  unfold findByIdAndUpdateReq findByIdAndUpdate
  cases hcast : castObjectId id with
  | none => rfl
  | some o =>
    simp only
    by_cases hw : ctx.dbWrites = true
    · simp only [hw, Bool.not_true, Bool.false_eq_true, if_false]
      cases hfind : db.find? (fun u => decide (u._id = o)) with
      | none => rfl
      | some u =>
        simp only
        rw [updateOne_const db o u f hfind]
    · simp [hw]

/-- On a plain body, `updateUserReq` is `updateUser`, whatever Mongoose does with extra
keys. -/
theorem updateUserReq_toDoc (mlib : MongooseLib) (ctx : Ctx) (db : Store) (id : String)
    (data : UpdateBody) (file : Option String) (salt : Nat) :
    updateUserReq mlib ctx db id data.toDoc file salt = updateUser ctx db id data file salt := by
  unfold updateUserReq updateUser
  simp only [bind, Except.bind, pure, Except.pure]
  have hpw : data.toDoc.password = data.password := rfl
  have himg : data.toDoc.profile_image = data.profile_image := rfl
  rw [hpw, himg]
  cases hp : updatePassword data.password salt with
  | error e => rfl
  | ok hashed =>
    simp only
    have heff : ∀ image, updateEffect mlib data.toDoc image hashed ctx.now
        = .ok fun u => .ok (applyUpdate data image hashed ctx.now u) := by
      intro image
      unfold updateEffect
      have hextra : data.toDoc.extra = [] := rfl
      rw [hextra]
      simp only [bind, Except.bind, pure, Except.pure, cast_toDoc]
    rw [heff, findByIdAndUpdateReq_ok]

/-! ## Registration: the validation rules -/

/-- The errors of a validator on one value. -/
theorem ruleErrors_singleton (s : String) (fails : String → Bool) (e : FieldError) :
    ruleErrors [s] fails e = if fails s = true then [e] else [] := by
  unfold ruleErrors
  by_cases h : fails s = true
  · simp [List.filter, h]
  · simp [List.filter, h]

/-- A value that is not an array is validated as one string. -/
theorem fieldStrings_of_not_array (v : JVal String) (h : v.isArray = false) :
    fieldStrings v = [fieldString v] := by
  cases v <;> first | rfl | simp [JVal.isArray] at h

/-- The errors of an `optional()` chain with `trim` and one validator on a value that is not
an array. -/
theorem optionalErrors_rule (v : JVal String) (h : v.isArray = false) (fails ok : String → Bool)
    (hok : ∀ s, ok s = !fails s) (e : FieldError) :
    optionalErrors v true (fun values => ruleErrors values fails e)
      = if specOptional v ok = true then [] else [e] := by
  cases v with
  | arr items => simp [JVal.isArray] at h
  | undefined => simp [optionalErrors, specOptional]
  | null =>
    simp [optionalErrors, specOptional, fieldStrings, ruleErrors_singleton, hok]
    split <;> simp_all
  | bool b =>
    simp [optionalErrors, specOptional, fieldStrings, ruleErrors_singleton, hok]
    split <;> simp_all
  | num n =>
    simp [optionalErrors, specOptional, fieldStrings, ruleErrors_singleton, hok]
    split <;> simp_all
  | str s =>
    simp [optionalErrors, specOptional, fieldStrings, ruleErrors_singleton, hok]
    split <;> simp_all
  | object r l =>
    simp [optionalErrors, specOptional, fieldStrings, ruleErrors_singleton, hok]
    split <;> simp_all

/-- The fields of a body without arrays. -/
theorem noArray_fields (body : RegisterBody) (h : body.noArray = true) :
    body.name.isArray = false ∧ body.email.isArray = false ∧ body.phone.isArray = false ∧
    body.password.isArray = false ∧ body.address.isArray = false ∧
    body.state.isArray = false ∧ body.city.isArray = false ∧ body.country.isArray = false ∧
    body.pincode.isArray = false := by
  simpa [RegisterBody.noArray, and_assoc] using h

/-- On a body without arrays, the message of the first error of `registerValidation` is that
of the first rule failed, in the order of the route. -/
theorem registerValidation_head (lib : EmailLib) (body : RegisterBody)
    (harr : body.noArray = true) :
    (registerValidation lib body).head?.map FieldError.msg = specFirstViolation lib body := by
  obtain ⟨hn, he, hp, hpw, ha, hs, hc, hco, hpin⟩ := noArray_fields body harr
  unfold registerValidation specFirstViolation
  simp only [fieldStrings_of_not_array _ hn, fieldStrings_of_not_array _ he,
    fieldStrings_of_not_array _ hp, fieldStrings_of_not_array _ hpw,
    fieldStrings_of_not_array _ hs, fieldStrings_of_not_array _ hc,
    fieldStrings_of_not_array _ hco, List.map, ruleErrors_singleton,
    optionalErrors_rule body.address ha (fun s => decide (150 < validatorLength s))
      (fun s => decide (validatorLength s ≤ 150))
      (fun s => by by_cases h : 150 < validatorLength s <;> simp [h]; omega),
    optionalErrors_rule body.pincode hpin (fun s => !matchesDigits 4 10 s)
      (fun s => matchesDigits 4 10 s) (fun s => by simp)]
  by_cases h1 : validatorLength (trim (fieldString body.name)) < 3
  · simp [h1]
  by_cases h2 : matchesName (trim (fieldString body.name)) = true
  swap
  · simp [h1, h2]
  by_cases h3 : lib.isEmail (trim (fieldString body.email)) = true
  swap
  · simp [h1, h2, h3]
  by_cases h4 : matchesDigits 10 15 (trim (fieldString body.phone)) = true
  swap
  · simp [h1, h2, h3, h4]
  by_cases h5 : validatorLength (fieldString body.password) < 6
  · simp [h1, h2, h3, h4, h5]
  by_cases h6 : containsDigit (fieldString body.password) = true
  swap
  · simp [h1, h2, h3, h4, h5, h6]
  by_cases h7 : specOptional body.address (fun s => decide (validatorLength s ≤ 150)) = true
  swap
  · simp [h1, h2, h3, h4, h5, h6, h7]
  by_cases h8 : trim (fieldString body.state) = ""
  · simp [h1, h2, h3, h4, h5, h6, h7, h8]
  by_cases h9 : trim (fieldString body.city) = ""
  · simp [h1, h2, h3, h4, h5, h6, h7, h8, h9]
  by_cases h10 : trim (fieldString body.country) = ""
  · simp [h1, h2, h3, h4, h5, h6, h7, h8, h9, h10]
  by_cases h11 : specOptional body.pincode (fun s => matchesDigits 4 10 s) = true
  · simp [h1, h2, h3, h4, h5, h6, h7, h8, h9, h10, h11]
  · simp [h1, h2, h3, h4, h5, h6, h7, h8, h9, h10, h11]

/-- A cascade of rules: when the message of this rule and those of the later rules are not
empty, the message of the first failed rule is not empty. -/
theorem cascade_ne_empty (c : Prop) [Decidable c] (s : String) (rest : Option String)
    (m : String) (hs : s ≠ "") (hrest : rest = some m → m ≠ "") :
    (if c then some s else rest) = some m → m ≠ "" := by
  intro h
  by_cases hc : c
  · rw [if_pos hc] at h
    cases h
    exact hs
  · rw [if_neg hc] at h
    exact hrest h

/-- The message of a failed rule is not empty. -/
theorem specFirstViolation_ne_empty (lib : EmailLib) (body : RegisterBody) (m : String)
    (h : specFirstViolation lib body = some m) : m ≠ "" := by
  unfold specFirstViolation at h
  revert h
  iterate 11 refine cascade_ne_empty _ _ _ _ (by decide) ?_
  intro h
  cases h

/-- A cascade of rules finds no failure exactly when this rule holds and the later rules
find none. -/
theorem cascade_eq_none (c : Prop) [Decidable c] (s : String) (rest : Option String) :
    (if c then some s else rest) = none ↔ ¬ c ∧ rest = none := by
  by_cases hc : c
  · simp [hc]
  · simp [hc]

/-- No rule fails exactly when the rules of the specification hold. -/
theorem specFirstViolation_eq_none (lib : EmailLib) (body : RegisterBody) :
    specFirstViolation lib body = none ↔ specRegisterRules lib body = true := by
  unfold specFirstViolation specRegisterRules
  simp only [cascade_eq_none, Bool.and_eq_true, decide_eq_true_eq, not_lt, Bool.not_eq_true,
    Bool.not_eq_true', Bool.not_eq_false, and_true, ne_eq]
  tauto

/-- The length that validator.js compares is at most the number of characters. -/
theorem validatorLength_le_length (s : String) : validatorLength s ≤ s.length := by
  unfold validatorLength
  exact List.length_filter_le _ _

/-- Claim C27, the code at the failing input: the JSON body `arrayNameForm` has the name `[]`,
which is not a name of three letters. For every validator library that accepts the address of
the form, the body passes `registerValidation` (an array is validated item by item), reaches
`registerUser`, and is answered 500 `Server error`, not 400; nothing is created. And a form
that fails the name rule, sent with an upload that multer refuses, is answered 500 by the
error handler of Express before the validation runs. -/
theorem registerRoute_array_name_is_500 (lib : EmailLib)
    (hvalid : lib.isEmail "Alice@Example.com" = true) :
    arrayNameForm.name = .arr [] ∧
      registerValidation lib arrayNameForm = [] ∧
      (registerRoute lib sampleCtx [] arrayNameForm .absent alice._id 7).2.status = 500 ∧
      (registerRoute lib sampleCtx [] arrayNameForm .absent alice._id 7).2.body.strAt "message"
        = some "Server error" ∧
      (registerRoute lib sampleCtx [] arrayNameForm .absent alice._id 7).1 = [] ∧
      specFirstViolation lib shortNameForm = some "Name must be at least 3 characters" ∧
      (registerRoute lib sampleCtx [] shortNameForm (.refused "Invalid file type")
        alice._id 7).2.status = 500 ∧
      (registerRoute lib sampleCtx [] shortNameForm (.refused "Invalid file type")
        alice._id 7).1 = [] := by
  have htrim : trim "Alice@Example.com" = "Alice@Example.com" := by decide
  have herrs : registerValidation lib arrayNameForm = [] := by
    have hrest : registerValidation sampleEmailLib arrayNameForm = [] := by decide
    simp only [registerValidation, arrayNameForm, aliceForm, fieldStrings, fieldString, List.map,
      htrim, ruleErrors, List.filter, hvalid] at hrest ⊢
    exact hrest
  have hroute : registerRoute lib sampleCtx [] arrayNameForm .absent alice._id 7
      = ([], ⟨500, message "Server error"⟩) := by
    unfold registerRoute
    simp only [herrs, validate]
    simp [registerUserReq, registerSanitize, arrayNameForm, aliceForm, findOne, sampleCtx,
      sampleCtxAt, castRegisterData, Field.cast, sanitizeField, bind, Except.bind, pure,
      Except.pure]
  have hfirst : specFirstViolation lib shortNameForm
      = some "Name must be at least 3 characters" := by
    unfold specFirstViolation
    rw [if_pos (by decide)]
  refine ⟨rfl, herrs, ?_, ?_, ?_, hfirst, rfl, rfl⟩
  · rw [hroute]
  · rw [hroute]
    rfl
  · rw [hroute]

/-- Claim C27, witness: the same for a library that accepts every address with an `@`. -/
theorem registerRoute_array_name_is_500_witness :
    sampleEmailLib.isEmail "Alice@Example.com" = true ∧
      arrayNameForm.name = .arr [] ∧
      registerValidation sampleEmailLib arrayNameForm = [] ∧
      (registerRoute sampleEmailLib sampleCtx [] arrayNameForm .absent alice._id 7).2.status
        = 500 ∧
      (registerRoute sampleEmailLib sampleCtx [] arrayNameForm .absent
        alice._id 7).2.body.strAt "message" = some "Server error" ∧
      (registerRoute sampleEmailLib sampleCtx [] arrayNameForm .absent alice._id 7).1 = [] ∧
      specFirstViolation sampleEmailLib shortNameForm
        = some "Name must be at least 3 characters" ∧
      (registerRoute sampleEmailLib sampleCtx [] shortNameForm (.refused "Invalid file type")
        alice._id 7).2.status = 500 ∧
      (registerRoute sampleEmailLib sampleCtx [] shortNameForm (.refused "Invalid file type")
        alice._id 7).1 = [] :=
  ⟨by decide, registerRoute_array_name_is_500 sampleEmailLib (by decide)⟩

/-- For a request whose upload multer does not refuse and whose body holds no array: either
the body satisfies the rules of the specification and the request reaches `registerUser` (with
the sanitized body), or it fails one of them, the answer is 400 with the message of the first
failed rule, and the store is as before. -/
theorem registerRoute_validates_without_arrays (lib : EmailLib) (ctx : Ctx) (db : Store)
    (body : RegisterBody) (upload : Upload) (newId : ObjectId) (salt : Nat)
    (hupload : ∀ e, upload ≠ .refused e) (harr : body.noArray = true) :
    (specRegisterRules lib body = true ∧
      3 ≤ (trim (fieldString body.name)).length ∧ 6 ≤ (fieldString body.password).length ∧
      registerRoute lib ctx db body upload newId salt
        = registerUserReq ctx db (registerSanitize lib body) upload.file newId salt) ∨
    (specRegisterRules lib body = false ∧
      ∃ m, specFirstViolation lib body = some m ∧
        (registerRoute lib ctx db body upload newId salt).1 = db ∧
        (registerRoute lib ctx db body upload newId salt).2.status = 400 ∧
        (registerRoute lib ctx db body upload newId salt).2.body.strAt "message" = some m) := by
  have hroute : registerRoute lib ctx db body upload newId salt
      = match validate (registerValidation lib body) with
        | some r => (db, r)
        | none => registerUserReq ctx db (registerSanitize lib body) upload.file newId salt := by
    unfold registerRoute
    cases upload with
    | refused e => exact absurd rfl (hupload e)
    | absent => rfl
    | stored f => rfl
  have hhead := registerValidation_head lib body harr
  cases hv : registerValidation lib body with
  | nil =>
    left
    rw [hv] at hhead
    have hrules := (specFirstViolation_eq_none lib body).mp hhead.symm
    refine ⟨hrules, ?_, ?_, by rw [hroute]; simp [validate, hv]⟩
    · have h3 : 3 ≤ validatorLength (trim (fieldString body.name)) := by
        unfold specRegisterRules at hrules
        simp only [Bool.and_eq_true, decide_eq_true_eq] at hrules
        exact hrules.1.1.1.1.1.1.1.1.1.1
      exact le_trans h3 (validatorLength_le_length _)
    · have h6 : 6 ≤ validatorLength (fieldString body.password) := by
        unfold specRegisterRules at hrules
        simp only [Bool.and_eq_true, decide_eq_true_eq] at hrules
        exact hrules.1.1.1.1.1.1.2
      exact le_trans h6 (validatorLength_le_length _)
  | cons first rest =>
    right
    rw [hv] at hhead
    have hsome : specFirstViolation lib body = some first.msg := by
      rw [← hhead]
      rfl
    have hne := specFirstViolation_ne_empty lib body first.msg hsome
    refine ⟨?_, first.msg, hsome, ?_, ?_, ?_⟩
    · cases hr : specRegisterRules lib body with
      | false => rfl
      | true =>
        have := (specFirstViolation_eq_none lib body).mpr hr
        rw [hsome] at this
        cases this
    · rw [hroute]
      simp [validate, hv]
    · rw [hroute]
      simp [validate, hv]
    · rw [hroute]
      simp [validate, hv, Json.strAt, Json.get, hne]

/-- Two requests as examples: the form of Alice passes and creates her record; a form with a
name of two letters and a password without digit is answered 400 with the message of the
name rule, which comes first, and creates nothing. -/
theorem registerRoute_validates_example :
    aliceForm.noArray = true ∧
    specRegisterRules sampleEmailLib aliceForm = true ∧
    (registerRoute sampleEmailLib sampleCtx [] aliceForm .absent alice._id 7).2.status = 201 ∧
    shortNameForm.noArray = true ∧
    specRegisterRules sampleEmailLib shortNameForm = false ∧
    (registerValidation sampleEmailLib shortNameForm).map FieldError.msg
      = ["Name must be at least 3 characters", "Password must contain at least one number"] ∧
    (registerRoute sampleEmailLib sampleCtx [] shortNameForm .absent alice._id 7).2.status
      = 400 ∧
    (registerRoute sampleEmailLib sampleCtx [] shortNameForm .absent alice._id 7).2.body.strAt
      "message" = some "Name must be at least 3 characters" ∧
    (registerRoute sampleEmailLib sampleCtx [] shortNameForm .absent alice._id 7).1 = [] := by
  decide

/-! ## Updating: any body without extra keys -/

/-- A sequence of two steps succeeds only when both do. -/
theorem except_bind_ok {α β : Type} (x : Except String α) (f : α → Except String β) (b : β)
    (h : x.bind f = .ok b) : ∃ a, x = .ok a ∧ f a = .ok b := by
  cases x with
  | error e => simp [Except.bind] at h
  | ok a => exact ⟨a, rfl, h⟩

/-- A field that is absent is absent after the cast. -/
theorem castOptional_none (v : Option Field) (r : Option String) (h : castOptional v = .ok r)
    (hv : v = none) : r = none := by
  subst hv
  simpa [castOptional] using h.symm

/-- The plain body that the cast of a body gives: an absent field is absent, and the fields
that are not cast are the same. -/
theorem cast_fields (data : UpdateDoc) (plain : UpdateBody) (h : data.cast = .ok plain) :
    (data.name = none → plain.name = none) ∧ (data.email = none → plain.email = none) ∧
    (data.phone = none → plain.phone = none) ∧ (data.address = none → plain.address = none) ∧
    (data.state = none → plain.state = none) ∧ (data.city = none → plain.city = none) ∧
    (data.country = none → plain.country = none) ∧
    (data.pincode = none → plain.pincode = none) ∧
    plain.password = data.password ∧ plain.profile_image = data.profile_image ∧
    plain.role = data.role ∧ plain.refreshToken = data.refreshToken := by
  unfold UpdateDoc.cast at h
  simp only [bind, pure, Except.pure] at h
  obtain ⟨name, h1, h⟩ := except_bind_ok _ _ _ h
  obtain ⟨email, h2, h⟩ := except_bind_ok _ _ _ h
  obtain ⟨phone, h3, h⟩ := except_bind_ok _ _ _ h
  obtain ⟨address, h4, h⟩ := except_bind_ok _ _ _ h
  obtain ⟨state, h5, h⟩ := except_bind_ok _ _ _ h
  obtain ⟨city, h6, h⟩ := except_bind_ok _ _ _ h
  obtain ⟨country, h7, h⟩ := except_bind_ok _ _ _ h
  obtain ⟨pincode, h8, h⟩ := except_bind_ok _ _ _ h
  simp only [Except.ok.injEq] at h
  subst h
  exact ⟨castOptional_none _ _ h1, castOptional_none _ _ h2, castOptional_none _ _ h3,
    castOptional_none _ _ h4, castOptional_none _ _ h5, castOptional_none _ _ h6,
    castOptional_none _ _ h7, castOptional_none _ _ h8, rfl, rfl, rfl, rfl⟩

/-- The outcomes of `findByIdAndUpdateReq`: an error; no document of that id, and nothing
done; or the first document of that id rewritten in place to what the update makes of it. -/
theorem findByIdAndUpdateReq_cases (ctx : Ctx) (db : Store) (id : String)
    (effect : Except String (User → Except String User)) :
    (∃ e, findByIdAndUpdateReq ctx db id effect = .error e) ∨
    (findByIdAndUpdateReq ctx db id effect = .ok (none, db)) ∨
    (∃ o f u v pre post, castObjectId id = some o ∧ effect = .ok f ∧ f u = .ok v ∧
      db = pre ++ u :: post ∧ (∀ x ∈ pre, x._id ≠ o) ∧ u._id = o ∧
      findByIdAndUpdateReq ctx db id effect = .ok (some v, pre ++ v :: post)) := by
  unfold findByIdAndUpdateReq
  cases hcast : castObjectId id with
  | none => exact Or.inl ⟨_, rfl⟩
  | some o =>
    cases heff : effect with
    | error e => exact Or.inl ⟨e, rfl⟩
    | ok f =>
      by_cases hw : ctx.dbWrites = true
      · cases hfind : db.find? (fun u => u._id = o) with
        | none => exact Or.inr (Or.inl (by simp [hw, hfind]))
        | some u =>
          cases hf : f u with
          | error e => exact Or.inl ⟨e, by simp [hw, hfind, hf]⟩
          | ok v =>
            by_cases hdup : ((db.eraseP fun x => x._id = o).any fun x =>
                x.email = v.email || x.phone = v.phone) = true
            · exact Or.inl ⟨"E11000 duplicate key", by
                simp only [hw, hfind, hf]
                simp [hdup]⟩
            · obtain ⟨pre, post, hdb, hpre, hid, hupd⟩ := updateOne_split db o u hfind
              refine Or.inr (Or.inr ⟨o, f, u, v, pre, post, rfl, rfl, hf, hdb, hpre, hid, ?_⟩)
              simp only [hw, hfind, hf]
              simp [hdup, hupd]
      · exact Or.inl ⟨"MongoError", by simp [hw]⟩

/-- The outcomes of `updateUserReq` on a body without extra keys: 500 or 404 with the store
as before, or 200 with the first document of that id rewritten in place by the plain update
that the cast of the body gives. -/
theorem updateUserReq_cases (mlib : MongooseLib) (ctx : Ctx) (db : Store) (id : String)
    (data : UpdateDoc) (file : Option String) (salt : Nat) (hextra : data.extra = []) :
    updateUserReq mlib ctx db id data file salt = (db, ⟨500, message "Server error"⟩) ∨
    updateUserReq mlib ctx db id data file salt = (db, ⟨404, message "User not found"⟩) ∨
    (∃ o hashed plain u pre post v, castObjectId id = some o ∧
      updatePassword data.password salt = .ok hashed ∧ data.cast = .ok plain ∧
      db = pre ++ u :: post ∧ (∀ x ∈ pre, x._id ≠ o) ∧ u._id = o ∧
      v = applyUpdate plain
        (match file with
          | some f => some (some ("uploads/" ++ f))
          | none => data.profile_image) hashed ctx.now u ∧
      updateUserReq mlib ctx db id data file salt
        = (pre ++ v :: post,
            ⟨200, .obj [("message", .str "User updated"), ("user", detailView v)]⟩)) := by
  unfold updateUserReq
  simp only [bind, Except.bind, pure, Except.pure]
  cases hp : updatePassword data.password salt with
  | error e => exact Or.inl (by simp)
  | ok hashed =>
    simp only []
    have heff : ∀ image, updateEffect mlib data image hashed ctx.now
        = match data.cast with
          | .ok plain => .ok fun u => .ok (applyUpdate plain image hashed ctx.now u)
          | .error e => .error e := by
      intro image
      unfold updateEffect
      rw [hextra]
      simp only [bind, Except.bind, pure, Except.pure]
      cases data.cast <;> rfl
    rcases findByIdAndUpdateReq_cases ctx db id (updateEffect mlib data
        (match file with
          | some f => some (some ("uploads/" ++ f))
          | none => data.profile_image) hashed ctx.now) with
      ⟨e, he⟩ | hnone | ⟨o, f, u, v, pre, post, hcast, hf, hfu, hdb, hpre, hid, hok⟩
    · exact Or.inl (by simp [he])
    · exact Or.inr (Or.inl (by simp [hnone]))
    · rw [heff] at hf
      cases hc : data.cast with
      | error e =>
        rw [hc] at hf
        cases hf
      | ok plain =>
        rw [hc] at hf
        simp only [Except.ok.injEq] at hf
        subst hf
        simp only [Except.ok.injEq] at hfu
        exact Or.inr (Or.inr ⟨o, hashed, plain, u, pre, post, v, hcast, rfl, rfl, hdb, hpre,
          hid, hfu.symm, by simp [hok]⟩)

/-! ## Updating: partial merge -/

/-- The document after the update has kept every field that the body does not name. -/
theorem applyUpdate_keepsUnnamed (data : UpdateDoc) (plain : UpdateBody)
    (hc : data.cast = .ok plain) (file : Option String) (hashed : Option Hash)
    (salt now : Nat) (u : User) (hp : updatePassword data.password salt = .ok hashed) :
    keepsUnnamed data file u (applyUpdate plain
      (match file with
        | some f => some (some ("uploads/" ++ f))
        | none => data.profile_image) hashed now u) := by
  obtain ⟨hname, hemail, hphone, haddress, hstate, hcity, hcountry, hpincode, _, _, hrole,
    htoken⟩ := cast_fields data plain hc
  unfold keepsUnnamed applyUpdate
  refine ⟨rfl, rfl, ?_, ?_, ?_, ?_, ?_, ?_, ?_, ?_, ?_, ?_, ?_, ?_⟩
  · intro h
    simp [hname h]
  · intro h
    simp [hemail h]
  · intro h
    simp [hphone h]
  · intro h
    rw [h] at hp
    simp only [updatePassword, Except.ok.injEq] at hp
    simp [← hp]
  · intro hfile himage
    simp [hfile, himage]
  · intro h
    simp [haddress h]
  · intro h
    simp [hstate h]
  · intro h
    simp [hcity h]
  · intro h
    simp [hcountry h]
  · intro h
    simp [hpincode h]
  · intro h
    simp [hrole, h]
  · intro h
    simp [htoken, h]

/-- Claim C24, counterexample: an update of Bob whose body names only the city also changes
his `updatedAt`. -/
theorem updateUser_moves_updatedAt :
    cityOnly.toDoc.extra = [] ∧
    (updateUserReq sampleMongooseLib sampleCtx [alice, bob] bob._id.toHexString cityOnly.toDoc
      none 0).2.status = 200 ∧
    (updateUserReq sampleMongooseLib sampleCtx [alice, bob] bob._id.toHexString cityOnly.toDoc
      none 0).1 = [alice, bobMoved] ∧
    bobMoved.updatedAt ≠ bob.updatedAt := by
  decide

/-- Claim C24, amended: for a parameter that is the string of an ObjectId and a body without
update operators or other extra keys, whatever Mongoose does with such keys, an update either
leaves the store as it was and does not answer 200, or answers 200, and then the first record
of that id has kept every field that the body does not name (the image when no file was
uploaded either) except `updatedAt`, which is the time of the update, and every other record
is unchanged and in place; when no record has that id, no field of the body is an array, the
store takes the write and the password step does not throw, the answer is 404 and the store is
unchanged. -/
theorem updateUser_partial_merge (mlib : MongooseLib) (ctx : Ctx) (db : Store) (id : String)
    (data : UpdateDoc) (file : Option String) (salt : Nat) (o : ObjectId)
    (hcast : castObjectId id = some o) (hextra : data.extra = []) :
    (((updateUserReq mlib ctx db id data file salt).1 = db ∧
        (updateUserReq mlib ctx db id data file salt).2.status ≠ 200) ∨
      (∃ pre u post v, db = pre ++ u :: post ∧ (∀ x ∈ pre, x._id ≠ o) ∧ u._id = o ∧
        (updateUserReq mlib ctx db id data file salt).1 = pre ++ v :: post ∧
        (updateUserReq mlib ctx db id data file salt).2.status = 200 ∧
        keepsUnnamed data file u v ∧ v.updatedAt = ctx.now)) ∧
    ((∀ u ∈ db, u._id ≠ o) → ctx.dbWrites = true →
      (∃ hashed, updatePassword data.password salt = .ok hashed) → data.noArray = true →
      updateUserReq mlib ctx db id data file salt = (db, ⟨404, message "User not found"⟩)) := by
  constructor
  · rcases updateUserReq_cases mlib ctx db id data file salt hextra with
      h | h | ⟨o', hashed, plain, u, pre, post, v, hcast', hp, hc, hdb, hpre, hid, hv, h⟩
    · exact Or.inl (by simp [h])
    · exact Or.inl (by simp [h])
    · rw [hcast] at hcast'
      simp only [Option.some.injEq] at hcast'
      subst hcast'
      refine Or.inr ⟨pre, u, post, v, hdb, hpre, hid, by simp [h], by simp [h], ?_, ?_⟩
      · rw [hv]
        exact applyUpdate_keepsUnnamed data plain hc file hashed salt ctx.now u hp
      · rw [hv]
        rfl
  · intro hnone hw hp harr
    obtain ⟨hashed, hp⟩ := hp
    have hfind : db.find? (fun u => decide (u._id = o)) = none := by
      rw [List.find?_eq_none]
      intro x hx
      simpa using hnone x hx
    cases hc : data.cast with
    | error e => simp [UpdateDoc.noArray, hc] at harr
    | ok plain =>
      simp [updateUserReq, findByIdAndUpdateReq, updateEffect, hextra, bind, Except.bind, pure,
        Except.pure, hp, hcast, hw, hfind, hc]

/-- Claim C24, witness: the update of Bob that names only the city, and the same update for an
id that no record has. -/
theorem updateUser_partial_merge_witness :
    castObjectId bob._id.toHexString = some bob._id ∧ cityOnly.toDoc.extra = [] ∧
    keepsUnnamed cityOnly.toDoc none bob bobMoved ∧ bobMoved.updatedAt = sampleCtx.now ∧
    castObjectId carolId.toHexString = some carolId ∧ (∀ u ∈ [alice, bob], u._id ≠ carolId) ∧
    cityOnly.toDoc.noArray = true ∧
    updateUserReq sampleMongooseLib sampleCtx [alice, bob] carolId.toHexString cityOnly.toDoc
      none 0 = ([alice, bob], ⟨404, message "User not found"⟩) ∧
    ((((updateUserReq sampleMongooseLib sampleCtx [alice, bob] bob._id.toHexString
          cityOnly.toDoc none 0).1 = [alice, bob] ∧
        (updateUserReq sampleMongooseLib sampleCtx [alice, bob] bob._id.toHexString
          cityOnly.toDoc none 0).2.status ≠ 200) ∨
      (∃ pre u post v, [alice, bob] = pre ++ u :: post ∧ (∀ x ∈ pre, x._id ≠ bob._id) ∧
        u._id = bob._id ∧
        (updateUserReq sampleMongooseLib sampleCtx [alice, bob] bob._id.toHexString
          cityOnly.toDoc none 0).1 = pre ++ v :: post ∧
        (updateUserReq sampleMongooseLib sampleCtx [alice, bob] bob._id.toHexString
          cityOnly.toDoc none 0).2.status = 200 ∧
        keepsUnnamed cityOnly.toDoc none u v ∧ v.updatedAt = sampleCtx.now)) ∧
    ((∀ u ∈ [alice, bob], u._id ≠ bob._id) → sampleCtx.dbWrites = true →
      (∃ hashed, updatePassword cityOnly.toDoc.password 0 = .ok hashed) →
      cityOnly.toDoc.noArray = true →
      updateUserReq sampleMongooseLib sampleCtx [alice, bob] bob._id.toHexString cityOnly.toDoc
        none 0 = ([alice, bob], ⟨404, message "User not found"⟩))) :=
  ⟨by decide, by decide, by decide, by decide, by decide, by decide, by decide,
    (updateUser_partial_merge sampleMongooseLib sampleCtx [alice, bob] carolId.toHexString
      cityOnly.toDoc none 0 carolId (by decide) (by decide)).2 (by decide) (by decide)
      ⟨none, rfl⟩ (by decide),
    updateUser_partial_merge sampleMongooseLib sampleCtx [alice, bob] bob._id.toHexString
      cityOnly.toDoc none 0 bob._id (by decide) (by decide)⟩

/-! ## Updating: the password -/

/-- Claim C23, counterexample: a password of six letters without a digit is refused by the
route with 400, and a password of eight characters with a digit sent along with an email that
another record holds is refused by the store; neither is stored. -/
theorem updateUser_long_password_not_stored :
    "abcdef".length = 6 ∧
    (updateUserRoute sampleEmailLib sampleMongooseLib sampleCtx [alice, bob]
      (bearer aliceAccessToken) bob._id.toHexString .absent (passwordRequest "abcdef")
      5).2.status = 400 ∧
    (updateUserRoute sampleEmailLib sampleMongooseLib sampleCtx [alice, bob]
      (bearer aliceAccessToken) bob._id.toHexString .absent (passwordRequest "abcdef")
      5).2.body.strAt "message" = some "Password must contain at least one number" ∧
    (updateUserRoute sampleEmailLib sampleMongooseLib sampleCtx [alice, bob]
      (bearer aliceAccessToken) bob._id.toHexString .absent (passwordRequest "abcdef")
      5).1 = [alice, bob] ∧
    "newpass1".length = 8 ∧ takeAliceEmailAndPassword.toDoc.extra = [] ∧
    (updateUserReq sampleMongooseLib sampleCtx [alice, bob] bob._id.toHexString
      takeAliceEmailAndPassword.toDoc none 5).2.status = 500 ∧
    (updateUserReq sampleMongooseLib sampleCtx [alice, bob] bob._id.toHexString
      takeAliceEmailAndPassword.toDoc none 5).1 = [alice, bob] ∧
    bob.password ≠ bcryptHash "abcdef" 5 ∧ bob.password ≠ bcryptHash "newpass1" 5 := by
  decide

/-- The password step on a string: the hash when the string has at least 6 UTF-16 units,
nothing otherwise. -/
theorem updatePassword_str (p : String) (salt : Nat) :
    updatePassword (.str p) salt
      = .ok (if 6 ≤ utf16Length p then some (bcryptHash p salt) else none) := by
  unfold updatePassword
  by_cases h6 : 6 ≤ utf16Length p
  · have hne : p ≠ "" := by
      intro h
      subst h
      simp [utf16Length] at h6
    simp [h6, hne]
  · simp [h6]

/-- The password step stores nothing for a value that is not a string of at least 6 UTF-16
units. -/
theorem updatePassword_none (v : JVal String) (salt : Nat) (hashed : Option Hash)
    (h : updatePassword v salt = .ok hashed) (hshort : ∀ p, v = .str p → utf16Length p < 6) :
    hashed = none := by
  cases v with
  | str p =>
    rw [updatePassword_str] at h
    have hlt : ¬ 6 ≤ utf16Length p := not_le.mpr (hshort p rfl)
    simpa [hlt] using h.symm
  | undefined => simpa [updatePassword] using h.symm
  | null => simpa [updatePassword] using h.symm
  | bool b => simpa [updatePassword] using h.symm
  | num n => simpa [updatePassword] using h.symm
  | object r l =>
    cases l with
    | none => simpa [updatePassword] using h.symm
    | some n =>
      by_cases hn : 6 ≤ n
      · simp [updatePassword, hn] at h
      · simpa [updatePassword, hn] using h.symm
  | arr items =>
    by_cases hn : 6 ≤ items.length
    · simp [updatePassword, hn] at h
    · simpa [updatePassword, hn] using h.symm

/-- On a body without extra keys, a password that is not a string of at least 6 UTF-16 units
leaves every stored hash as it was. -/
theorem updateUserReq_password_kept (mlib : MongooseLib) (ctx : Ctx) (db : Store) (id : String)
    (data : UpdateDoc) (file : Option String) (salt : Nat) (hextra : data.extra = [])
    (hshort : ∀ p, data.password = .str p → utf16Length p < 6) :
    (updateUserReq mlib ctx db id data file salt).1.map User.password
      = db.map User.password := by
  rcases updateUserReq_cases mlib ctx db id data file salt hextra with
    h | h | ⟨o, hashed, plain, u, pre, post, v, _, hpw, _, hdb, _, _, hv, h⟩
  · rw [h]
  · rw [h]
  · have hnone : hashed = none := updatePassword_none _ salt hashed hpw hshort
    have hkeep : v.password = u.password := by
      rw [hv, hnone]
      rfl
    rw [h, hdb]
    simp [hkeep]

/-- On a body without extra keys, a password that is a string of at least 6 UTF-16 units is
stored as its bcrypt hash when the update is answered 200, and otherwise the store is as it
was. -/
theorem updateUserReq_password_hashed (mlib : MongooseLib) (ctx : Ctx) (db : Store)
    (id : String) (data : UpdateDoc) (file : Option String) (salt : Nat)
    (hextra : data.extra = []) (p : String) (hstr : data.password = .str p)
    (hlen : 6 ≤ utf16Length p) :
    ((updateUserReq mlib ctx db id data file salt).1 = db ∧
      (updateUserReq mlib ctx db id data file salt).2.status ≠ 200) ∨
    (∃ o u, castObjectId id = some o ∧
      (updateUserReq mlib ctx db id data file salt).2.status = 200 ∧
      (updateUserReq mlib ctx db id data file salt).1.find? (fun x => x._id = o) = some u ∧
      u.password = bcryptHash p salt ∧ u.password ≠ .raw p) := by
  rcases updateUserReq_cases mlib ctx db id data file salt hextra with
    h | h | ⟨o, hashed, plain, u, pre, post, v, hcast, hpw, _, hdb, hpre, hid, hv, h⟩
  · exact Or.inl (by simp [h])
  · exact Or.inl (by simp [h])
  · right
    have hsome : hashed = some (bcryptHash p salt) := by
      rw [hstr, updatePassword_str] at hpw
      simpa [hlen] using hpw.symm
    have hvid : v._id = o := by
      rw [hv]
      exact hid
    have hvpw : v.password = bcryptHash p salt := by
      rw [hv, hsome]
      rfl
    refine ⟨o, v, hcast, by simp [h], ?_, hvpw, ?_⟩
    · rw [h]
      exact find_split pre post v o hvid hpre
    · rw [hvpw]
      simp [bcryptHash]

/-- The number of UTF-16 units of a string is at least the length that validator.js
compares. -/
theorem validatorLength_le_utf16Length (s : String) : validatorLength s ≤ utf16Length s := by
  have hlen : ∀ l : List Char, l.length ≤ (l.map fun c => if c.toNat < 0x10000 then 1 else 2).sum := by
    intro l
    induction l with
    | nil => simp
    | cons c cs ih =>
      simp only [List.length_cons, List.map_cons, List.sum_cons]
      split <;> omega
  exact le_trans (validatorLength_le_length s) (hlen s.data)

/-- A string password that passes `updateUserValidation` has at least 6 characters and a
digit. -/
theorem updateUserValidation_password (lib : EmailLib) (body : UpdateRequest) (p : String)
    (hp : body.password = .str p) (hv : validate (updateUserValidation lib body) = none) :
    6 ≤ validatorLength p ∧ containsDigit p = true := by
  have hnil : updateUserValidation lib body = [] := by
    cases he : updateUserValidation lib body with
    | nil => rfl
    | cons first rest => simp [validate, he] at hv
  unfold updateUserValidation at hnil
  rw [hp] at hnil
  simp only [List.append_eq_nil] at hnil
  have h4 := hnil.1.1.1.1.1.2
  simp only [optionalErrors, fieldStrings, fieldString, Bool.false_eq_true, if_false,
    ruleErrors_singleton, List.append_eq_nil] at h4
  by_cases h6 : validatorLength p < 6
  · simp [h6] at h4
  · by_cases hd : containsDigit p = true
    · exact ⟨not_lt.mp h6, hd⟩
    · simp [hd] at h4

/-- The route `PUT /api/users/:id` either answers without running the handler, with another
status than 200 and the store as it was, or the body has passed the validation and the answer
is that of `updateUserReq` on the sanitized body. -/
theorem updateUserRoute_cases (lib : EmailLib) (mlib : MongooseLib) (ctx : Ctx) (db : Store)
    (header : Option AuthHeader) (id : String) (upload : Upload) (body : UpdateRequest)
    (salt : Nat) :
    ((updateUserRoute lib mlib ctx db header id upload body salt).1 = db ∧
      (updateUserRoute lib mlib ctx db header id upload body salt).2.status ≠ 200) ∨
    (validate (updateUserValidation lib body) = none ∧
      updateUserRoute lib mlib ctx db header id upload body salt
        = updateUserReq mlib ctx db id (updateSanitize lib body) upload.file salt) := by
  unfold updateUserRoute adminOnly authenticated
  rcases authMiddleware_cases ctx header with ⟨_, _, c, _, _, hnext⟩ | ⟨m, hresp⟩
  · rw [hnext]
    simp only [adminMiddleware]
    by_cases hrole : c.role = "admin"
    · cases upload with
      | refused e => exact Or.inl (by simp [hrole])
      | absent =>
        cases hv : validate (updateUserValidation lib body) with
        | some r =>
          have := validate_status _ _ hv
          exact Or.inl (by simp [hrole, this])
        | none => exact Or.inr ⟨rfl, by simp [hrole, Upload.file]⟩
      | stored f =>
        cases hv : validate (updateUserValidation lib body) with
        | some r =>
          have := validate_status _ _ hv
          exact Or.inl (by simp [hrole, this])
        | none => exact Or.inr ⟨rfl, by simp [hrole, Upload.file]⟩
    · exact Or.inl (by simp [hrole])
  · rw [hresp]
    exact Or.inl (by simp)

/-- On the route, for a body without extra keys: either no stored hash changes, or the
password of the body is a string with at least 6 characters and a digit, the answer is 200 and
the record of that id holds the bcrypt hash of that string. -/
theorem updateUserRoute_password (lib : EmailLib) (mlib : MongooseLib) (ctx : Ctx) (db : Store)
    (header : Option AuthHeader) (id : String) (upload : Upload) (body : UpdateRequest)
    (salt : Nat) (hextra : body.extra = []) :
    (updateUserRoute lib mlib ctx db header id upload body salt).1.map User.password
        = db.map User.password ∨
    (∃ p o u, body.password = .str p ∧ 6 ≤ validatorLength p ∧ containsDigit p = true ∧
      castObjectId id = some o ∧
      (updateUserRoute lib mlib ctx db header id upload body salt).2.status = 200 ∧
      (updateUserRoute lib mlib ctx db header id upload body salt).1.find?
        (fun x => x._id = o) = some u ∧
      u.password = bcryptHash p salt ∧ u.password ≠ .raw p) := by
  rcases updateUserRoute_cases lib mlib ctx db header id upload body salt with
    ⟨hdb, _⟩ | ⟨hv, hroute⟩
  · exact Or.inl (by rw [hdb])
  · have hex : (updateSanitize lib body).extra = [] := hextra
    have hpw : (updateSanitize lib body).password = body.password := rfl
    by_cases hstr : ∃ p, body.password = .str p ∧ 6 ≤ utf16Length p
    · obtain ⟨p, hp, hlen⟩ := hstr
      obtain ⟨h6, hd⟩ := updateUserValidation_password lib body p hp hv
      rcases updateUserReq_password_hashed mlib ctx db id (updateSanitize lib body)
          upload.file salt hex p (hpw.trans hp) hlen with ⟨hdb, _⟩ | ⟨o, u, hc, hs, hf, hu, hraw⟩
      · exact Or.inl (by rw [hroute, hdb])
      · exact Or.inr ⟨p, o, u, hp, h6, hd, hc, by rw [hroute]; exact hs,
          by rw [hroute]; exact hf, hu, hraw⟩
    · left
      rw [hroute]
      apply updateUserReq_password_kept mlib ctx db id _ upload.file salt hex
      intro p hp
      by_contra hlen
      exact hstr ⟨p, hpw.symm.trans hp, not_lt.mp hlen⟩

/-- Claim C23, amended, for a body without update operators or other extra keys and for
every behaviour of Mongoose on such keys: when the password of the body is not a string of at
least 6 characters (absent, `null`, empty, shorter, a number, an array), an update leaves every stored
hash as it was; when it is a string of at least 6 characters, an update that does not answer
200 leaves the store as it was, and one that answers 200 has set the password of the record of
that id to the bcrypt hash of the string, which is not the plaintext. On the route, either no
stored hash changes, or the password is a string with at least 6 characters and a digit, the
answer is 200 and the record of that id holds the bcrypt hash of that string. -/
theorem updateUser_password (mlib : MongooseLib) (ctx : Ctx) (db : Store) (id : String)
    (data : UpdateDoc) (file : Option String) (salt : Nat) (hextra : data.extra = []) :
    ((∀ p, data.password = .str p → utf16Length p < 6) →
      (updateUserReq mlib ctx db id data file salt).1.map User.password
        = db.map User.password) ∧
    (∀ p, data.password = .str p → 6 ≤ utf16Length p →
      ((updateUserReq mlib ctx db id data file salt).1 = db ∧
        (updateUserReq mlib ctx db id data file salt).2.status ≠ 200) ∨
      (∃ o u, castObjectId id = some o ∧
        (updateUserReq mlib ctx db id data file salt).2.status = 200 ∧
        (updateUserReq mlib ctx db id data file salt).1.find? (fun x => x._id = o) = some u ∧
        u.password = bcryptHash p salt ∧ u.password ≠ .raw p)) ∧
    (∀ (lib : EmailLib) (header : Option AuthHeader) (upload : Upload) (body : UpdateRequest),
      body.extra = [] →
      (updateUserRoute lib mlib ctx db header id upload body salt).1.map User.password
          = db.map User.password ∨
      (∃ p o u, body.password = .str p ∧ 6 ≤ validatorLength p ∧ containsDigit p = true ∧
        castObjectId id = some o ∧
        (updateUserRoute lib mlib ctx db header id upload body salt).2.status = 200 ∧
        (updateUserRoute lib mlib ctx db header id upload body salt).1.find?
          (fun x => x._id = o) = some u ∧
        u.password = bcryptHash p salt ∧ u.password ≠ .raw p)) :=
  ⟨updateUserReq_password_kept mlib ctx db id data file salt hextra,
    fun p hstr hlen => updateUserReq_password_hashed mlib ctx db id data file salt hextra p hstr
      hlen,
    fun lib header upload body hbody =>
      updateUserRoute_password lib mlib ctx db header id upload body salt hbody⟩

/-- Claim C23, witness: for Bob, a password of three characters leaves the hashes as they
were, and a password of eight characters with a digit is stored as its bcrypt hash, by the
handler and on the route. -/
theorem updateUser_password_witness :
    (passwordUpdate "abc").toDoc.extra = [] ∧ (passwordUpdate "newpass1").toDoc.extra = [] ∧
    (updateUserReq sampleMongooseLib sampleCtx [alice, bob] bob._id.toHexString
      (passwordUpdate "abc").toDoc none 5).1.map User.password
      = [alice, bob].map User.password ∧
    (((updateUserReq sampleMongooseLib sampleCtx [alice, bob] bob._id.toHexString
          (passwordUpdate "newpass1").toDoc none 5).1 = [alice, bob] ∧
        (updateUserReq sampleMongooseLib sampleCtx [alice, bob] bob._id.toHexString
          (passwordUpdate "newpass1").toDoc none 5).2.status ≠ 200) ∨
      (∃ o u, castObjectId bob._id.toHexString = some o ∧
        (updateUserReq sampleMongooseLib sampleCtx [alice, bob] bob._id.toHexString
          (passwordUpdate "newpass1").toDoc none 5).2.status = 200 ∧
        (updateUserReq sampleMongooseLib sampleCtx [alice, bob] bob._id.toHexString
          (passwordUpdate "newpass1").toDoc none 5).1.find? (fun x => x._id = o) = some u ∧
        u.password = bcryptHash "newpass1" 5 ∧ u.password ≠ .raw "newpass1")) ∧
    (updateUserReq sampleMongooseLib sampleCtx [alice, bob] bob._id.toHexString
      (passwordUpdate "newpass1").toDoc none 5).2.status = 200 ∧
    ((updateUserReq sampleMongooseLib sampleCtx [alice, bob] bob._id.toHexString
      (passwordUpdate "newpass1").toDoc none 5).1.find? fun x => x._id = bob._id).map
      User.password = some (bcryptHash "newpass1" 5) ∧
    (updateUserRoute sampleEmailLib sampleMongooseLib sampleCtx [alice, bob]
      (bearer aliceAccessToken) bob._id.toHexString .absent (passwordRequest "newpass1")
      5).2.status = 200 ∧
    ((updateUserRoute sampleEmailLib sampleMongooseLib sampleCtx [alice, bob]
      (bearer aliceAccessToken) bob._id.toHexString .absent (passwordRequest "newpass1")
      5).1.find? fun x => x._id = bob._id).map User.password
      = some (bcryptHash "newpass1" 5) :=
  ⟨rfl, rfl,
    (updateUser_password sampleMongooseLib sampleCtx [alice, bob] bob._id.toHexString
      (passwordUpdate "abc").toDoc none 5 rfl).1 (fun p hp => by
        simp only [passwordUpdate, UpdateBody.toDoc, JVal.str.injEq] at hp
        subst hp
        decide),
    (updateUser_password sampleMongooseLib sampleCtx [alice, bob] bob._id.toHexString
      (passwordUpdate "newpass1").toDoc none 5 rfl).2.1 "newpass1" rfl (by decide),
    by decide, by decide, by decide, by decide⟩

/-- A password that is the empty array passes `updateUserValidation`, which validates an array
item by item; the handler deletes it from the update, the answer is 200 and no hash
changes. -/
theorem updateUserRoute_empty_array_password :
    updateUserValidation sampleEmailLib emptyArrayPassword = [] ∧
    (updateUserRoute sampleEmailLib sampleMongooseLib sampleCtx [alice, bob]
      (bearer aliceAccessToken) bob._id.toHexString .absent emptyArrayPassword 5).2.status
      = 200 ∧
    (updateUserRoute sampleEmailLib sampleMongooseLib sampleCtx [alice, bob]
      (bearer aliceAccessToken) bob._id.toHexString .absent emptyArrayPassword 5).1.map
      User.password = [alice, bob].map User.password := by
  decide

/-- The body of the request with the one key `$set` naming the password, as `updateUser` reads
it. -/
theorem updateSanitize_setPasswordRequest (lib : EmailLib) (p : String) :
    updateSanitize lib (setPasswordRequest p)
      = updateSanitize sampleEmailLib (setPasswordRequest p) := by
  rfl

/-- A body with an update operator: the request whose only key is `$set`, naming the path
`password` and the string `abc`, has no field for `updateUserValidation` to refuse and no
top-level password for the handler to hash. For every Mongoose that applies the operator to
the record of Bob as the store does, the route answers 200 and the stored password of Bob is
the string `abc`, not a hash. -/
theorem updateUserRoute_set_operator_stores_plaintext (lib : EmailLib) (mlib : MongooseLib)
    (f : User → Except String User)
    (hcast : mlib.update (updateSanitize sampleEmailLib (setPasswordRequest "abc")) none none
      sampleCtx.now = .ok f)
    (hset : f bob = .ok (bob.withSecrets (.raw "abc") bob.refreshToken sampleCtx.now)) :
    (setPasswordRequest "abc").password = .undefined ∧
    updateUserValidation lib (setPasswordRequest "abc") = [] ∧
    (updateUserRoute lib mlib sampleCtx [alice, bob] (bearer aliceAccessToken)
      bob._id.toHexString .absent (setPasswordRequest "abc") 5).2.status = 200 ∧
    (updateUserRoute lib mlib sampleCtx [alice, bob] (bearer aliceAccessToken)
      bob._id.toHexString .absent (setPasswordRequest "abc") 5).1
      = [alice, bob.withSecrets (.raw "abc") bob.refreshToken sampleCtx.now] := by
  have herrs : updateUserValidation lib (setPasswordRequest "abc") = [] := rfl
  have hgate : ∀ k, adminOnly sampleCtx (bearer aliceAccessToken) [alice, bob] k
      = k aliceCaller := by
    intro k
    rfl
  have hreq : updateUserReq mlib sampleCtx [alice, bob] bob._id.toHexString
      (updateSanitize sampleEmailLib (setPasswordRequest "abc")) none 5
      = ([alice, bob.withSecrets (.raw "abc") bob.refreshToken sampleCtx.now],
        ⟨200, .obj [("message", .str "User updated"),
          ("user", detailView (bob.withSecrets (.raw "abc") bob.refreshToken sampleCtx.now))]⟩) := by
    have hid : castObjectId bob._id.toHexString = some bob._id := by decide
    have heff : updateEffect mlib (updateSanitize sampleEmailLib (setPasswordRequest "abc"))
        none none sampleCtx.now = .ok f := hcast
    have hpw : updatePassword
        (updateSanitize sampleEmailLib (setPasswordRequest "abc")).password 5 = .ok none := rfl
    have himg : (updateSanitize sampleEmailLib (setPasswordRequest "abc")).profile_image
        = none := rfl
    unfold updateUserReq
    simp only [bind, Except.bind, pure, Except.pure, hpw, himg, heff]
    unfold findByIdAndUpdateReq
    simp only [hid]
    have hw : sampleCtx.dbWrites = true := rfl
    have hfind : [alice, bob].find? (fun u => decide (u._id = bob._id)) = some bob := by decide
    simp only [hw, hfind, hset, Bool.not_true, Bool.false_eq_true, if_false]
    have hdup : (([alice, bob].eraseP fun x => decide (x._id = bob._id)).any fun x =>
        decide (x.email = (bob.withSecrets (.raw "abc") bob.refreshToken sampleCtx.now).email)
          || decide (x.phone
            = (bob.withSecrets (.raw "abc") bob.refreshToken sampleCtx.now).phone)) = false := by
      decide
    have hupd : updateOne [alice, bob] bob._id
        (fun _ => bob.withSecrets (.raw "abc") bob.refreshToken sampleCtx.now)
        = [alice, bob.withSecrets (.raw "abc") bob.refreshToken sampleCtx.now] := by decide
    simp only [hdup, hupd, Bool.false_eq_true, if_false]
  have hroute : updateUserRoute lib mlib sampleCtx [alice, bob] (bearer aliceAccessToken)
      bob._id.toHexString .absent (setPasswordRequest "abc") 5
      = updateUserReq mlib sampleCtx [alice, bob] bob._id.toHexString
        (updateSanitize sampleEmailLib (setPasswordRequest "abc")) none 5 := by
    unfold updateUserRoute
    rw [hgate]
    simp only [herrs, validate, updateSanitize_setPasswordRequest lib]
  refine ⟨rfl, herrs, ?_, ?_⟩
  · rw [hroute, hreq]
  · rw [hroute, hreq]

/-- For the stand-in of Mongoose, which stores the string that `$set` names. -/
theorem updateUserRoute_set_operator_stores_plaintext_witness :
    (bob.withSecrets (.raw "abc") bob.refreshToken sampleCtx.now).password = .raw "abc" ∧
    (setPasswordRequest "abc").password = .undefined ∧
    updateUserValidation sampleEmailLib (setPasswordRequest "abc") = [] ∧
    (updateUserRoute sampleEmailLib sampleMongooseLib sampleCtx [alice, bob]
      (bearer aliceAccessToken) bob._id.toHexString .absent (setPasswordRequest "abc")
      5).2.status = 200 ∧
    (updateUserRoute sampleEmailLib sampleMongooseLib sampleCtx [alice, bob]
      (bearer aliceAccessToken) bob._id.toHexString .absent (setPasswordRequest "abc") 5).1
      = [alice, bob.withSecrets (.raw "abc") bob.refreshToken sampleCtx.now] :=
  ⟨rfl, updateUserRoute_set_operator_stores_plaintext sampleEmailLib sampleMongooseLib
    _
    rfl (congrArg Except.ok (by decide))⟩

/-- A login whose password is the empty array passes `loginValidation`, which validates an
array item by item; `bcrypt.compare` refuses a password that is not a string, and the answer is
500 with the store as it was. -/
theorem loginRoute_empty_array_password :
    loginValidation ⟨.str "alice@example.com", .arr []⟩ = [] ∧
    (loginRoute sampleCtx [alice, bob] ⟨.str "alice@example.com", .arr []⟩).2.status = 500 ∧
    (loginRoute sampleCtx [alice, bob] ⟨.str "alice@example.com", .arr []⟩).1 = [alice, bob] := by
  decide
end UserManagement
